import Mathlib

/-!
# Checksum-verified multipart upload: server, client and uploader

A shallow embedding of `internal/server/handler.go` (admission pool, router,
upload handler, checksum collection), of `internal/server/format/format.go`
(`format.Bytes`), of `internal/client/handler.go` (the goroutines of `Handle`
and its result) and of `internal/client/uploader/uploader.go` (validation,
multipart body, transport call), with the properties the specification states
about them.

Conventions of the embedding:

* a Go `string` or `[]byte` is a list of bytes (`GoString`);
* an `error` value is represented by its message;
* a buffered `chan struct{}` is its capacity and the number of buffered
  elements; an operation that would block has no result (`none`);
* the response written into the `fasthttp.RequestCtx` is returned as a value;
* library calls with an observable effect append an `Effect` to a trace;
* a `float64` is an exact dyadic rational, rounded to 53 bits as IEEE 754 does;
* the file system, the allocator, the wire and the HTTP transport of the
  uploader are parameters (`FileSystem`, `Runtime`, `Wire`, `HttpClient`,
  gathered in `World`); the multipart writer is modelled by the bytes it
  hands to the wire;
* a call that panics or does not return has no result (`none`).
-/

set_option autoImplicit false
set_option maxRecDepth 100000

/-! ## Go values -/

/-- A Go `string` / `[]byte`: a sequence of bytes. -/
abbrev GoString := List UInt8

/-- The bytes (UTF-8) of a string literal of the source. -/
def str (s : String) : GoString := s.toUTF8.data.toList

/-! ## `encoding/hex` and `crypto/sha256` (standard library) -/

/-- One lowercase hexadecimal digit, as `hex.EncodeToString` emits it. -/
def hexDigit (n : Nat) : UInt8 := UInt8.ofNat (if n < 10 then 48 + n else 87 + n)

/-- The function `hex.EncodeToString`: two lowercase hex digits per byte. -/
def hexEncode : GoString → GoString
  | [] => []
  | b :: bs => hexDigit (b.toNat / 16) :: hexDigit (b.toNat % 16) :: hexEncode bs

/-- Round constants of SHA-256 (FIPS 180-4, section 4.2.2). -/
def sha256K : List Nat := [
  0x428a2f98, 0x71374491, 0xb5c0fbcf, 0xe9b5dba5, 0x3956c25b, 0x59f111f1, 0x923f82a4, 0xab1c5ed5,
  0xd807aa98, 0x12835b01, 0x243185be, 0x550c7dc3, 0x72be5d74, 0x80deb1fe, 0x9bdc06a7, 0xc19bf174,
  0xe49b69c1, 0xefbe4786, 0x0fc19dc6, 0x240ca1cc, 0x2de92c6f, 0x4a7484aa, 0x5cb0a9dc, 0x76f988da,
  0x983e5152, 0xa831c66d, 0xb00327c8, 0xbf597fc7, 0xc6e00bf3, 0xd5a79147, 0x06ca6351, 0x14292967,
  0x27b70a85, 0x2e1b2138, 0x4d2c6dfc, 0x53380d13, 0x650a7354, 0x766a0abb, 0x81c2c92e, 0x92722c85,
  0xa2bfe8a1, 0xa81a664b, 0xc24b8b70, 0xc76c51a3, 0xd192e819, 0xd6990624, 0xf40e3585, 0x106aa070,
  0x19a4c116, 0x1e376c08, 0x2748774c, 0x34b0bcb5, 0x391c0cb3, 0x4ed8aa4a, 0x5b9cca4f, 0x682e6ff3,
  0x748f82ee, 0x78a5636f, 0x84c87814, 0x8cc70208, 0x90befffa, 0xa4506ceb, 0xbef9a3f7, 0xc67178f2]

/-- Initial hash value of SHA-256 (FIPS 180-4, section 5.3.3). -/
def sha256Init : List Nat := [
  0x6a09e667, 0xbb67ae85, 0x3c6ef372, 0xa54ff53a, 0x510e527f, 0x9b05688c, 0x1f83d9ab, 0x5be0cd19]

/-- Rotate a 32-bit word right by `n` bits. -/
def rotr (x n : Nat) : Nat := ((x >>> n) ||| (x <<< (32 - n))) % 2 ^ 32

/-- The `n` low-order bytes of `x`, most significant first. -/
def beBytes : Nat → Nat → List Nat
  | 0, _ => []
  | n + 1, x => (x >>> (8 * n)) % 256 :: beBytes n x

/-- Padding of SHA-256: a `1` bit, zeros up to 56 mod 64 bytes, the bit length on 8 bytes. -/
def sha256Pad (msg : List Nat) : List Nat :=
  msg ++ 0x80 :: List.replicate ((119 - msg.length % 64) % 64) 0 ++ beBytes 8 (8 * msg.length)

/-- The first `n` big-endian 32-bit words of a byte list. -/
def beWords : Nat → List Nat → List Nat
  | 0, _ => []
  | n + 1, bs =>
    (bs.getD 0 0 * 2 ^ 24 + bs.getD 1 0 * 2 ^ 16 + bs.getD 2 0 * 2 ^ 8 + bs.getD 3 0)
      :: beWords n (bs.drop 4)

/-- Message schedule: extends the words computed so far (latest first) by `n` more. -/
def sha256Schedule : Nat → List Nat → List Nat
  | 0, w => w
  | n + 1, w =>
    let w2 := w.getD 1 0
    let w7 := w.getD 6 0
    let w15 := w.getD 14 0
    let w16 := w.getD 15 0
    let s0 := rotr w15 7 ^^^ rotr w15 18 ^^^ (w15 >>> 3)
    let s1 := rotr w2 17 ^^^ rotr w2 19 ^^^ (w2 >>> 10)
    sha256Schedule n (((w16 + s0 + w7 + s1) % 2 ^ 32) :: w)

/-- One round of the compression function on the working variables `a..h`. -/
def sha256Round (st : List Nat) (kw : Nat × Nat) : List Nat :=
  match st with
  | [a, b, c, d, e, f, g, h] =>
    let S1 := rotr e 6 ^^^ rotr e 11 ^^^ rotr e 25
    let ch := (e &&& f) ^^^ ((e ^^^ 0xffffffff) &&& g)
    let t1 := (h + S1 + ch + kw.1 + kw.2) % 2 ^ 32
    let S0 := rotr a 2 ^^^ rotr a 13 ^^^ rotr a 22
    let maj := (a &&& b) ^^^ (a &&& c) ^^^ (b &&& c)
    let t2 := (S0 + maj) % 2 ^ 32
    [(t1 + t2) % 2 ^ 32, a, b, c, (d + t1) % 2 ^ 32, e, f, g]
  | _ => st

/-- Compression of one 64-byte block into the hash state. -/
def sha256Block (st : List Nat) (block : List Nat) : List Nat :=
  let w := (sha256Schedule 48 (beWords 16 block).reverse).reverse
  let st2 := (sha256K.zip w).foldl sha256Round st
  List.zipWith (fun x y => (x + y) % 2 ^ 32) st st2

/-- Compression of the first `n` blocks of a padded message. -/
def sha256Blocks : Nat → List Nat → List Nat → List Nat
  | 0, st, _ => st
  | n + 1, st, bs => sha256Blocks n (sha256Block st (bs.take 64)) (bs.drop 64)

/-- SHA-256 (FIPS 180-4) of a byte sequence: the 32-byte digest. -/
def sha256 (msg : GoString) : GoString :=
  let p := sha256Pad (msg.map UInt8.toNat)
  ((sha256Blocks (p.length / 64) sha256Init p).flatMap (beBytes 4)).map UInt8.ofNat

/-- State of the `hash.Hash` returned by `sha256.New()`: the bytes written so far. -/
structure Hasher where
  written : GoString
deriving DecidableEq, Repr

/-- A fresh hasher, as `sha256.New()` returns it. -/
def Hasher.New : Hasher := ⟨[]⟩

/-- The method `Write` of a hasher: appends to the hashed input and never fails. -/
def Hasher.Write (h : Hasher) (p : GoString) : Hasher := ⟨h.written ++ p⟩

/-- The call `Sum(nil)` on a hasher: the digest of everything written. -/
def Hasher.Sum (h : Hasher) : GoString := sha256 h.written

/-! ## `strings.TrimSpace` (standard library) -/

/-- UTF-8 encodings of the runes for which `unicode.IsSpace` holds. -/
def unicodeSpaces : List GoString := [
  [0x09], [0x0a], [0x0b], [0x0c], [0x0d], [0x20], [0xc2, 0x85], [0xc2, 0xa0], [0xe1, 0x9a, 0x80],
  [0xe2, 0x80, 0x80], [0xe2, 0x80, 0x81], [0xe2, 0x80, 0x82], [0xe2, 0x80, 0x83],
  [0xe2, 0x80, 0x84], [0xe2, 0x80, 0x85], [0xe2, 0x80, 0x86], [0xe2, 0x80, 0x87],
  [0xe2, 0x80, 0x88], [0xe2, 0x80, 0x89], [0xe2, 0x80, 0x8a], [0xe2, 0x80, 0xa8],
  [0xe2, 0x80, 0xa9], [0xe2, 0x80, 0xaf], [0xe2, 0x81, 0x9f], [0xe3, 0x80, 0x80]]

/-- Removes one leading rune when it is one of the encodings `encs`. -/
def dropOneOf (encs : List GoString) (s : GoString) : Option GoString :=
  encs.findSome? (fun e => if e.isPrefixOf s then some (s.drop e.length) else none)

/-- Removes leading runes among `encs`, at most `n` of them. -/
def trimLeading (encs : List GoString) : Nat → GoString → GoString
  | 0, s => s
  | n + 1, s =>
    match dropOneOf encs s with
    | some t => trimLeading encs n t
    | none => s

/-- Model of `strings.TrimSpace`: the string without its leading and trailing white space
(runes with `unicode.IsSpace`); a byte that is not part of a well-formed UTF-8 white-space
rune is never removed. -/
def TrimSpace (s : GoString) : GoString :=
  let t := trimLeading unicodeSpaces s.length s
  (trimLeading (unicodeSpaces.map List.reverse) t.length t.reverse).reverse

/-! ## Channels of `struct{}` -/

/-- A channel `chan struct{}`: its capacity and the number of buffered elements. -/
structure Chan where
  cap : Nat
  len : Nat
deriving DecidableEq, Repr

/-- The call `make(chan struct{}, n)`. -/
def Chan.make (n : Nat) : Chan := ⟨n, 0⟩

/-- A send `c <- struct{}{}` with no receiver waiting: proceeds when the buffer has room,
would block otherwise (`none`). -/
def Chan.send (c : Chan) : Option Chan :=
  if c.len < c.cap then some { c with len := c.len + 1 } else none

/-- A receive `<-c` with no sender waiting: proceeds when an element is buffered, would
block otherwise (`none`). -/
def Chan.recv (c : Chan) : Option Chan :=
  if 0 < c.len then some { c with len := c.len - 1 } else none

/-! ## The request as the handler sees it -/

/-- An opened `multipart.File`: what reading it to the end and closing it yield. -/
structure MultipartFile where
  /-- Data returned by the successive `Read` calls. -/
  chunks : List GoString
  /-- Error, other than `io.EOF`, that ended the stream; `none` when it ended with `io.EOF`. -/
  readErr : Option GoString
  /-- Error returned by `Close`. -/
  closeErr : Option GoString

/-- A `multipart.FileHeader`: the file name and the result of `Open()`. -/
structure FileHeader where
  Filename : GoString
  Open : Except GoString MultipartFile

/-- A parsed `multipart.Form`: the maps `Value` and `File`; a missing key is the empty list. -/
structure Form where
  Value : GoString → List GoString
  File : GoString → List FileHeader

/-- The part of `fasthttp.RequestCtx` that the handler reads. -/
structure RequestCtx where
  /-- Result of `ctx.Method()`. -/
  method : GoString
  /-- Result of `ctx.Path()`. -/
  path : GoString
  /-- Result of `ctx.MultipartForm()`, which parses the body when it is called. -/
  MultipartForm : Except GoString Form

/-- The method `ctx.IsGet()`. -/
def RequestCtx.IsGet (ctx : RequestCtx) : Bool := ctx.method == str "GET"

/-- The method `ctx.IsPost()`. -/
def RequestCtx.IsPost (ctx : RequestCtx) : Bool := ctx.method == str "POST"

/-- What the handler takes from its environment: the `%q` verb of `fmt`, the renderer
`format.Bytes`, and the clock, through the rendered elapsed time
`elapsed.Round(time.Millisecond).String()` and the rendered throughput
`format.BytesPerSecond(float64(totalBytes) / elapsed.Seconds())`. The handler only copies
these texts into the response, so every statement below holds for all of them. -/
structure Env where
  quote : GoString → GoString
  Bytes : Nat → GoString
  duration : GoString
  speed : Nat → GoString

/-- Library calls of the upload handler that have an observable effect. -/
inductive Effect
  /-- One call `h.tryAcquireUploadSlot()`. -/
  | tryAcquire
  /-- The deferred call `releaseUploadSlot()`. -/
  | release
  /-- One call `ctx.MultipartForm()`. -/
  | parseForm
  /-- One call `fileHeader.Open()` on file `idx`. -/
  | openFile (idx : Nat)
  /-- One call `hashSHA256HexAndCount(f)` on file `idx`, followed by `f.Close()`. -/
  | hashFile (idx : Nat)
  /-- The comparison `hash != expectedChecksums[idx]`. -/
  | compare (idx : Nat)
deriving DecidableEq, Repr

/-! ## Responses -/

/-- The struct `uploadSuccessResponse`. -/
structure uploadSuccessResponse where
  Status : GoString
  Files : Nat
  Size : GoString
  Duration : GoString
  Speed : GoString
  SHA256 : GoString
deriving DecidableEq, Repr

/-- The struct `errorResponse`; the checksum fields are omitted from the JSON when empty. -/
structure errorResponse where
  Status : GoString
  Error : GoString
  ExpectedChecksum : GoString := []
  ActualChecksum : GoString := []
deriving DecidableEq, Repr

/-- The values handed to `writeJSON`. -/
inductive Payload
  | success (r : uploadSuccessResponse)
  | error (r : errorResponse)
deriving DecidableEq, Repr

/-- A response body: literal bytes, or the JSON document encoding a payload. -/
inductive Body
  | raw (s : GoString)
  | json (p : Payload)
deriving DecidableEq, Repr

/-- The response held by the `fasthttp.RequestCtx`. -/
structure Response where
  statusCode : Nat
  contentType : GoString
  body : Body
deriving DecidableEq, Repr

/-- The response of a fresh `RequestCtx` (fasthttp defaults). -/
def Response.fresh : Response :=
  { statusCode := 200, contentType := str "text/plain; charset=utf-8", body := .raw [] }

/-- The call `sonic.Marshal` on a response struct: these structs hold strings and one
integer only, which the encoder always accepts. -/
def sonicMarshal (payload : Payload) : Except GoString Body := .ok (.json payload)

/-- The function `writeJSON`. -/
def writeJSON (statusCode : Nat) (payload : Payload) : Response :=
  match sonicMarshal payload with
  | .error _ =>
    { statusCode := 500
      contentType := str "application/json; charset=utf-8"
      body := .raw (str "\x7b\"status\":\"error\",\"error\":\"internal server error\"\x7d") }
  | .ok body =>
    { statusCode := statusCode
      contentType := str "application/json; charset=utf-8"
      body := body }

/-- The function `writeJSONError`. -/
def writeJSONError (statusCode : Nat) (msg : GoString) : Response :=
  writeJSON statusCode (.error { Status := str "error", Error := msg })

/-! ## Admission pool -/

/-- The struct `handlerConfig`; `uploadSlots` is `none` for the nil channel. -/
structure handlerConfig where
  fileFieldName : GoString
  uploadSlots : Option Chan
deriving DecidableEq, Repr

/-- The function `newHandlerConfig`. -/
def newHandlerConfig (fileFieldName : GoString) (maxConcurrentUploads : Int) : handlerConfig :=
  if maxConcurrentUploads > 0 then
    { fileFieldName := fileFieldName, uploadSlots := some (Chan.make maxConcurrentUploads.toNat) }
  else
    { fileFieldName := fileFieldName, uploadSlots := none }

/-- Number of permits currently held: the elements buffered in `uploadSlots`. -/
def handlerConfig.held (h : handlerConfig) : Nat :=
  match h.uploadSlots with
  | none => 0
  | some c => c.len

/-- A release closure: run on the handler, it gives the handler afterwards, or `none` when
it would block. -/
abbrev Release := handlerConfig → Option handlerConfig

/-- The closure `func() {}`. -/
def releaseNothing : Release := fun h => some h

/-- The closure `func() { <-h.uploadSlots }`. A receive from a nil channel blocks. -/
def releaseSlot : Release := fun h =>
  match h.uploadSlots with
  | none => none
  | some c =>
    match c.recv with
    | none => none
    | some c1 => some { h with uploadSlots := some c1 }

/-- Results of `tryAcquireUploadSlot`, with the handler after the call. -/
structure Acquired where
  cfg : handlerConfig
  release : Option Release
  ok : Bool

/-- The method `tryAcquireUploadSlot`: a `select` with a `default` case never blocks. -/
def tryAcquireUploadSlot (h : handlerConfig) : Acquired :=
  match h.uploadSlots with
  | none => { cfg := h, release := some releaseNothing, ok := true }
  | some c =>
    match c.send with
    | some c1 => { cfg := { h with uploadSlots := some c1 }, release := some releaseSlot, ok := true }
    | none => { cfg := h, release := none, ok := false }

/-! ## Upload handler -/

/-- The constant `uploader.ChecksumFieldSHA256`. -/
def ChecksumFieldSHA256 : GoString := str "checksum_sha256"

/-- The call `io.Copy(io.MultiWriter(io.Discard, hasher), r)`: every chunk read is written
to the hasher; the results are the hasher, the byte count and the read error. -/
def ioCopy (hasher : Hasher) (r : MultipartFile) : Hasher × Nat × Option GoString :=
  let acc := r.chunks.foldl (fun (a : Hasher × Nat) chunk => (a.1.Write chunk, a.2 + chunk.length))
    (hasher, 0)
  (acc.1, acc.2, r.readErr)

/-- The function `hashSHA256HexAndCount`. -/
def hashSHA256HexAndCount (r : MultipartFile) : GoString × Nat × Option GoString :=
  match ioCopy Hasher.New r with
  | (_, n, some err) => ([], n, some (str "hash stream: " ++ err))
  | (hasher, n, none) => (hexEncode hasher.Sum, n, none)

/-- The `%d` verb of `fmt` on a non-negative integer. -/
def decimal (n : Nat) : GoString := str (Nat.repr n)

/-- The function `expectedChecksumsForRequest` (its unused first parameter left out). -/
def expectedChecksumsForRequest (multipartChecksums : List GoString) (fileCount : Nat) :
    Except GoString (List GoString) :=
  let checksums := (multipartChecksums.map TrimSpace).filter (fun c => c ≠ [])
  if checksums.length > 0 ∧ checksums.length ≠ fileCount then
    .error (str "checksum count mismatch: got " ++ decimal checksums.length ++ str " for "
      ++ decimal fileCount ++ str " file(s)")
  else
    .ok checksums

/-- Local variables of `handleUpload` that the loop over the files updates. -/
structure LoopState where
  totalBytes : Nat
  actualChecksum : GoString
  aggregateHasher : Hasher
deriving DecidableEq, Repr

/-- The call `fmt.Fprintf(aggregateHasher, "%s:%s\n", filename, hash)`; writing to a hash
never returns an error. -/
def fprintfLine (aggregateHasher : Hasher) (filename hash : GoString) : Hasher × Option GoString :=
  (aggregateHasher.Write (filename ++ str ":" ++ hash ++ str "\n"), none)

/-- The loop `for idx, fileHeader := range files` of `handleUpload`, from index `idx` on:
the state after the last file, or the response of the iteration that returned. -/
def uploadLoop (env : Env) (fileCount : Nat) (expectedChecksums : List GoString) :
    Nat → List FileHeader → LoopState → List Effect × Except Response LoopState
  | _, [], st => ([], .ok st)
  | idx, fileHeader :: rest, st =>
    match fileHeader.Open with
    | .error err =>
      ([.openFile idx], .error (writeJSONError 400
        (str "open uploaded file " ++ env.quote fileHeader.Filename ++ str ": " ++ err)))
    | .ok f =>
      match hashSHA256HexAndCount f, f.closeErr with
      | (_, _, some hashErr), _ =>
        ([.openFile idx, .hashFile idx], .error (writeJSONError 400
          (str "read uploaded file " ++ env.quote fileHeader.Filename ++ str ": " ++ hashErr)))
      | (_, _, none), some closeErr =>
        ([.openFile idx, .hashFile idx], .error (writeJSONError 400
          (str "close uploaded file " ++ env.quote fileHeader.Filename ++ str ": " ++ closeErr)))
      | (hash, n, none), none =>
        let st1 := { st with totalBytes := st.totalBytes + n }
        let written : LoopState × Option GoString :=
          if fileCount = 1 then
            ({ st1 with actualChecksum := hash }, none)
          else
            let w := fprintfLine st1.aggregateHasher fileHeader.Filename hash
            ({ st1 with aggregateHasher := w.1 }, w.2)
        match written with
        | (_, some err) =>
          ([.openFile idx, .hashFile idx], .error (writeJSONError 500
            (str "aggregate checksum: " ++ err)))
        | (st2, none) =>
          if expectedChecksums.length > 0 then
            if hash ≠ expectedChecksums.getD idx [] then
              ([.openFile idx, .hashFile idx, .compare idx], .error (writeJSON 422 (.error
                { Status := str "error"
                  Error := str "checksum mismatch"
                  ExpectedChecksum := expectedChecksums.getD idx []
                  ActualChecksum := hash })))
            else
              let r := uploadLoop env fileCount expectedChecksums (idx + 1) rest st2
              ([.openFile idx, .hashFile idx, .compare idx] ++ r.1, r.2)
          else
            let r := uploadLoop env fileCount expectedChecksums (idx + 1) rest st2
            ([.openFile idx, .hashFile idx] ++ r.1, r.2)

/-- The body of `handleUpload` after the permit is taken (from `ctx.MultipartForm()` on). -/
def handleAdmitted (env : Env) (h : handlerConfig) (ctx : RequestCtx) : List Effect × Response :=
  match ctx.MultipartForm with
  | .error err => ([.parseForm], writeJSONError 400 (str "read multipart form: " ++ err))
  | .ok form =>
    let files := form.File h.fileFieldName
    if files.length = 0 then
      ([.parseForm], writeJSONError 400
        (str "multipart field " ++ env.quote h.fileFieldName ++ str " is required"))
    else
      match expectedChecksumsForRequest (form.Value ChecksumFieldSHA256) files.length with
      | .error checksumErr => ([.parseForm], writeJSONError 400 checksumErr)
      | .ok expectedChecksums =>
        match uploadLoop env files.length expectedChecksums 0 files
          { totalBytes := 0, actualChecksum := str "n/a", aggregateHasher := Hasher.New } with
        | (tr, .error resp) => (.parseForm :: tr, resp)
        | (tr, .ok st) =>
          let actualChecksum :=
            if files.length > 1 then hexEncode st.aggregateHasher.Sum else st.actualChecksum
          (.parseForm :: tr, writeJSON 201 (.success
            { Status := str "ok"
              Files := files.length
              Size := env.Bytes st.totalBytes
              Duration := env.duration
              Speed := env.speed st.totalBytes
              SHA256 := actualChecksum }))

/-- What a handler call leaves behind: the handler afterwards, the response, the trace. -/
structure Outcome where
  cfg : handlerConfig
  resp : Response
  trace : List Effect
deriving DecidableEq, Repr

/-- The method `handleUpload`. The result is `none` when the call does not return: the
deferred release blocks, or is a nil function. -/
def handleUpload (env : Env) (h : handlerConfig) (ctx : RequestCtx) : Option Outcome :=
  let acq := tryAcquireUploadSlot h
  if acq.ok = false then
    some { cfg := acq.cfg
           resp := writeJSONError 503 (str "too many concurrent uploads")
           trace := [.tryAcquire] }
  else
    match acq.release with
    | none => none
    | some releaseUploadSlot =>
      let r := handleAdmitted env acq.cfg ctx
      match releaseUploadSlot acq.cfg with
      | none => none
      | some h2 => some { cfg := h2, resp := r.2, trace := .tryAcquire :: r.1 ++ [.release] }

/-- The method `handler`: the router of the server. -/
def handler (env : Env) (h : handlerConfig) (ctx : RequestCtx) : Option Outcome :=
  if ctx.IsGet ∧ ctx.path = str "/healthz" then
    some { cfg := h, resp := { Response.fresh with statusCode := 200, body := .raw (str "ok") },
           trace := [] }
  else if ctx.IsPost ∧ ctx.path = str "/upload" then
    handleUpload env h ctx
  else
    some { cfg := h, resp := writeJSONError 404 (str "not found"), trace := [] }

/-! ## Concurrent requests on the server -/

/-- The server between two channel operations: the handler and, for every request that was
admitted and has not returned yet, its release closure. -/
structure ServerState where
  cfg : handlerConfig
  admitted : List (Nat × Release)

/-- Steps of concurrently served upload requests that touch the admission pool. -/
inductive ServerEvent
  /-- Request `id` runs `h.tryAcquireUploadSlot()` at the start of `handleUpload`. -/
  | arrive (id : Nat)
  /-- The `handleUpload` call of the admitted request `id` returns: its deferred release runs. -/
  | leave (id : Nat)
deriving DecidableEq, Repr

/-- One step of the server; `none` when the step cannot happen in this state (the request
is already being served, was not admitted, or its release would block). -/
def serverStep (s : ServerState) : ServerEvent → Option ServerState
  | .arrive id =>
    if s.admitted.any (fun p => p.1 = id) then none
    else
      let acq := tryAcquireUploadSlot s.cfg
      if acq.ok = false then some { s with cfg := acq.cfg }
      else
        match acq.release with
        | none => none
        | some releaseUploadSlot =>
          some { cfg := acq.cfg, admitted := (id, releaseUploadSlot) :: s.admitted }
  | .leave id =>
    match s.admitted.find? (fun p => p.1 = id) with
    | none => none
    | some p =>
      match p.2 s.cfg with
      | none => none
      | some cfg1 => some { cfg := cfg1, admitted := s.admitted.filter (fun q => q.1 ≠ id) }

/-- A sequence of steps from a state; `none` when some step cannot happen. -/
def serverRun : ServerState → List ServerEvent → Option ServerState
  | s, [] => some s
  | s, e :: es =>
    match serverStep s e with
    | none => none
    | some s1 => serverRun s1 es

/-- The server right after `Serve` built its handler: no request in flight. -/
def serverStart (fileFieldName : GoString) (maxConcurrentUploads : Int) : ServerState :=
  { cfg := newHandlerConfig fileFieldName maxConcurrentUploads, admitted := [] }

/-! ## The batch orchestrator of the client (`uploadHandler.Handle`) -/

/-- The struct `uploader.UploadResponse`. -/
structure UploadResponse where
  StatusCode : Nat
  Body : GoString
deriving DecidableEq, Repr

/-- The fields of the client `config.AppConfig` that `Handle` reads. -/
structure AppConfig where
  URL : GoString
  Files : List GoString
  MaxConcurrent : Nat
deriving DecidableEq, Repr

/-- Where the goroutine of one file stands. -/
inductive Phase
  /-- At the `select` on `sem` and `ctx.Done()`. -/
  | waiting
  /-- Holding a permit, inside `UploadFileContext`. -/
  | uploading
  /-- Returned (`wg.Done()` has run). -/
  | returned
deriving DecidableEq, Repr

/-- The variables shared by the goroutines of one `Handle` call. -/
structure HandleState where
  sem : Chan
  /-- Whether `ctx.Done()` is closed. -/
  done : Bool
  firstErr : Option GoString
  responses : List (Option UploadResponse)
  phases : List Phase
deriving DecidableEq, Repr

/-- The state of `Handle` when the goroutines have been started; `done` tells whether the
context passed to `Handle` was already cancelled. -/
def handleStart (cfg : AppConfig) (done : Bool) : HandleState :=
  { sem := Chan.make cfg.MaxConcurrent
    done := done
    firstErr := none
    responses := List.replicate cfg.Files.length none
    phases := List.replicate cfg.Files.length .waiting }

/-- Steps of the goroutines of `Handle`, and of its context. -/
inductive ClientEvent
  /-- Goroutine `idx` takes the case `sem <- struct{}{}` of its `select`. -/
  | acquire (idx : Nat)
  /-- Goroutine `idx` takes the case `<-ctx.Done()` of its `select` and returns. -/
  | giveUp (idx : Nat)
  /-- `UploadFileContext` of goroutine `idx` returns `resp` and no error; the goroutine
  stores it and returns, running the deferred `<-sem`. -/
  | uploaded (idx : Nat) (resp : UploadResponse)
  /-- `UploadFileContext` of goroutine `idx` returns the error `err`; the goroutine records
  it when it is the first, cancels, and returns, running the deferred `<-sem`. -/
  | failed (idx : Nat) (err : GoString)
  /-- The context passed to `Handle` is cancelled or reaches its deadline. -/
  | parentDone
deriving DecidableEq, Repr

/-- One step of a `Handle` call; `none` when the step cannot happen in this state. -/
def clientStep (quote : GoString → GoString) (cfg : AppConfig) (s : HandleState) :
    ClientEvent → Option HandleState
  | .acquire idx =>
    if s.phases[idx]? = some .waiting then
      match s.sem.send with
      | none => none
      | some sem1 => some { s with sem := sem1, phases := s.phases.set idx .uploading }
    else none
  | .giveUp idx =>
    if s.phases[idx]? = some .waiting ∧ s.done = true then
      some { s with phases := s.phases.set idx .returned }
    else none
  | .uploaded idx resp =>
    if s.phases[idx]? = some .uploading then
      match s.sem.recv with
      | none => none
      | some sem1 =>
        some { s with sem := sem1
                      responses := s.responses.set idx (some resp)
                      phases := s.phases.set idx .returned }
    else none
  | .failed idx err =>
    if s.phases[idx]? = some .uploading then
      match s.sem.recv with
      | none => none
      | some sem1 =>
        match s.firstErr with
        | none =>
          some { s with sem := sem1
                        firstErr := some (str "upload file " ++ quote (cfg.Files.getD idx [])
                          ++ str ": " ++ err)
                        done := true
                        phases := s.phases.set idx .returned }
        | some _ => some { s with sem := sem1, phases := s.phases.set idx .returned }
    else none
  | .parentDone => some { s with done := true }

/-- A sequence of steps of a `Handle` call; `none` when some step cannot happen. -/
def clientRun (quote : GoString → GoString) (cfg : AppConfig) :
    HandleState → List ClientEvent → Option HandleState
  | s, [] => some s
  | s, e :: es =>
    match clientStep quote cfg s e with
    | none => none
    | some s1 => clientRun quote cfg s1 es

/-- Number of uploads admitted on the client: goroutines holding a permit of `sem`. -/
def HandleState.uploading (s : HandleState) : Nat := s.phases.count .uploading


/-- The call `wg.Wait()` returns: every goroutine has returned. -/
def HandleState.allReturned (s : HandleState) : Bool := s.phases.all (fun p => p = .returned)

/-- The index of the first nil entry of the result slice, counted from `i`. -/
def firstEmpty : Nat → List (Option UploadResponse) → Option Nat
  | _, [] => none
  | i, none :: _ => some i
  | i, some _ :: rest => firstEmpty (i + 1) rest

/-- What `Handle` returns once `wg.Wait()` has returned: the error, `none` for nil. -/
def handleReturn (quote : GoString → GoString) (cfg : AppConfig) (s : HandleState) :
    Option GoString :=
  match s.firstErr with
  | some err => some err
  | none =>
    match firstEmpty 0 s.responses with
    | some i =>
      some (str "upload file " ++ quote (cfg.Files.getD i []) ++ str ": empty response")
    | none => none

/-! ## Package `uploader`: the request and its validation -/

/-- The struct `uploader.Config`; `RequestTimeout` is a `time.Duration`, in nanoseconds. -/
structure Config where
  ChunkSize : Int
  FormFieldName : GoString
  RequestTimeout : Int
deriving DecidableEq, Repr

/-- The struct `uploadFile`. -/
structure uploadFile where
  path : GoString
  name : GoString
deriving DecidableEq, Repr

/-- The struct `UploadRequest`. -/
structure UploadRequest where
  URL : GoString
  FilePath : GoString
  FileName : GoString
deriving DecidableEq, Repr

/-- The part of `os.FileInfo` that the uploader reads. -/
structure FileInfo where
  IsDir : Bool
deriving DecidableEq, Repr

/-- An opened `os.File`: what reading it to the end and closing it yield. -/
structure OsFile where
  /-- The bytes that the successive reads deliver before the stream ends, one element per
  read. How the file is cut into reads is up to the runtime. -/
  reads : List GoString
  /-- Error, other than `io.EOF`, that ends the stream; `none` when it ends with `io.EOF`. -/
  readErr : Option GoString
  /-- Error returned by `Close`. -/
  closeErr : Option GoString
deriving DecidableEq, Repr

/-- The content of a file that is read to the end. -/
def OsFile.content (file : OsFile) : GoString := file.reads.flatten

/-- The file system as the uploader sees it: the results of `os.Stat` and `os.Open`. -/
structure FileSystem where
  Stat : GoString → Except GoString FileInfo
  Open : GoString → Except GoString OsFile

/-- The function `filepath.Base` on a system whose separator is `/`: the last element of
the path without trailing separators, `.` for the empty path, `/` for a path of separators
only. -/
def filepathBase (path : GoString) : GoString :=
  if path = [] then str "."
  else
    let stripped := (path.reverse.dropWhile (fun b => b = 47)).reverse
    let last := (stripped.reverse.takeWhile (fun b => b ≠ 47)).reverse
    if last = [] then str "/" else last

/-- The function `validateUploadRequest`; `quote` is the `%q` verb of `fmt`. -/
def validateUploadRequest (quote : GoString → GoString) (fs : FileSystem)
    (uploadReq : UploadRequest) : Except GoString (GoString × uploadFile) :=
  if uploadReq.URL = [] then .error (str "url is required")
  else if uploadReq.FilePath = [] then .error (str "file path is required")
  else
    match fs.Stat uploadReq.FilePath with
    | .error err => .error (str "stat file " ++ quote uploadReq.FilePath ++ str ": " ++ err)
    | .ok fileInfo =>
      if fileInfo.IsDir = true then
        .error (str "file path " ++ quote uploadReq.FilePath ++ str " points to a directory")
      else
        let fileName :=
          if uploadReq.FileName = [] then filepathBase uploadReq.FilePath
          else uploadReq.FileName
        .ok (uploadReq.URL, { path := uploadReq.FilePath, name := fileName })

/-! ## Package `uploader`: the transport call -/

/-- The moments at which `UploadFileContext` looks at its context. -/
inductive Moment
  /-- The `select` on `ctx.Done()` at the start of `doRequest`. -/
  | beforeDo
  /-- The call `ctx.Err()` after the transport call failed. -/
  | afterDo
deriving DecidableEq, Repr

/-- A `context.Context` as the uploader sees it: the result of `Deadline()` (an instant, in
nanoseconds) and the result of `Err()` at each moment; `Done()` is closed exactly when
`Err()` is not nil. -/
structure Context where
  Deadline : Option Int
  Err : Moment → Option GoString

/-- The context `context.Background()`: no deadline, never done. -/
def Context.Background : Context := { Deadline := none, Err := fun _ => none }

/-- The bound put on one request: which method of the `fasthttp.Client` is called. -/
inductive Bound
  /-- The call `DoDeadline(req, resp, deadline)`. -/
  | deadline (t : Int)
  /-- The call `DoTimeout(req, resp, timeout)`. -/
  | timeout (d : Int)
  /-- The call `Do(req, resp)`. -/
  | unbounded
deriving DecidableEq, Repr

/-- The `fasthttp.Client` on one request: the outcome of the call made with a bound, an
error or the status code and body left in `resp`. -/
abbrev HttpClient := Bound → Except GoString UploadResponse

/-- The method `doRequest`: the call issued, if any, and its outcome. -/
def doRequest (c : Config) (httpClient : HttpClient) (ctx : Context) :
    Option Bound × Except GoString UploadResponse :=
  match ctx.Err .beforeDo with
  | some err => (none, .error err)
  | none =>
    match ctx.Deadline with
    | some deadline => (some (.deadline deadline), httpClient (.deadline deadline))
    | none =>
      if c.RequestTimeout > 0 then
        (some (.timeout c.RequestTimeout), httpClient (.timeout c.RequestTimeout))
      else (some .unbounded, httpClient .unbounded)

/-! ## Package `uploader`: the multipart body -/

/-- The Go runtime of the platform, as `make([]byte, n)` sees it. -/
structure Runtime where
  /-- The constant `maxAlloc` of the runtime, the largest size of one allocation: `2 ^ 48`
  on linux/amd64. -/
  maxAlloc : Nat
  /-- Whether the system grants an allocation of `n` bytes. -/
  hasMemory : Nat → Bool

/-- The call `make([]byte, n)`: the length of the slice. It has no result when `n` is
negative or above `maxAlloc` (panic `makeslice: len out of range`) and when the system has
no memory for it (the program ends, out of memory). -/
def Runtime.makeBytes (rt : Runtime) (n : Int) : Option Nat :=
  if n < 0 ∨ n > rt.maxAlloc then none
  else if rt.hasMemory n.toNat = true then some n.toNat
  else none

/-- The `*bufio.Writer` handed to the body writer, seen as an `io.Writer`: the writes that
returned without error so far, in order, and the error of a further write. What the
writer buffers and when it flushes is not modelled: `fail written p` is the error that the
write of `p` returns after the writes `written`, `none` when `p` is accepted. -/
structure Wire where
  written : List GoString
  fail : List GoString → GoString → Option GoString

/-- One call `w.Write(p)`. -/
def Wire.Write (w : Wire) (p : GoString) : Except GoString Wire :=
  match w.fail w.written p with
  | some err => .error err
  | none => .ok { w with written := w.written ++ [p] }

/-- The state of a `multipart.Writer`: the writer underneath, the boundary, and whether a
part was created (`lastpart != nil`). The write error that a part keeps for `close` is left
out: `writeMultipartBody` returns at the first write that fails. -/
structure MultipartWriter where
  w : Wire
  boundary : GoString
  started : Bool

/-- The call `multipart.NewWriter(w)`; its random boundary is replaced by `SetBoundary`
before anything is written. -/
def MultipartWriter.New (w : Wire) : MultipartWriter :=
  { w := w, boundary := [], started := false }

/-- The bytes `SetBoundary` accepts anywhere in a boundary. -/
def boundaryByte (b : UInt8) : Bool :=
  (65 ≤ b.toNat ∧ b.toNat ≤ 90) ∨ (97 ≤ b.toNat ∧ b.toNat ≤ 122) ∨ (48 ≤ b.toNat ∧ b.toNat ≤ 57)
    ∨ b ∈ str "'()+_,-./:=?"

/-- The check of `SetBoundary`: 1 to 70 bytes, each a letter, a digit, one of
`'()+_,-./:=?`, or a space that is not the last byte. -/
def validBoundary (boundary : GoString) : Bool :=
  1 ≤ boundary.length ∧ boundary.length ≤ 70
    ∧ (boundary.dropLast.all (fun b => boundaryByte b || b == 32))
    ∧ (boundary.getLast?.all boundaryByte)

/-- The method `SetBoundary`. -/
def MultipartWriter.SetBoundary (mw : MultipartWriter) (boundary : GoString) :
    Except GoString MultipartWriter :=
  if mw.started = true then .error (str "mime: SetBoundary called after write")
  else if boundary.length < 1 ∨ boundary.length > 70 then
    .error (str "mime: invalid boundary length")
  else if validBoundary boundary = false then .error (str "mime: invalid boundary character")
  else .ok { mw with boundary := boundary }

/-- The function `escapeQuotes` of `mime/multipart`, applied to the field name and the file
name of a part: a backslash and a double quote get a backslash in front, a carriage return
becomes `%0D` and a line feed `%0A`. -/
def escapeQuotes (s : GoString) : GoString :=
  (s.map (fun b =>
    if b = 92 then str "\\\\"
    else if b = 34 then str "\\\""
    else if b = 13 then str "%0D"
    else if b = 10 then str "%0A"
    else [b])).flatten

/-- The method `CreatePart`: one write of the delimiter line (after a line break when a
part precedes), the header lines in the order of their keys, and an empty line. -/
def MultipartWriter.CreatePart (mw : MultipartWriter) (header : List (GoString × GoString)) :
    Except GoString MultipartWriter :=
  let delimiter :=
    if mw.started = true then str "\r\n--" ++ mw.boundary ++ str "\r\n"
    else str "--" ++ mw.boundary ++ str "\r\n"
  let lines := (header.map (fun kv => kv.1 ++ str ": " ++ kv.2 ++ str "\r\n")).flatten
  match mw.w.Write (delimiter ++ lines ++ str "\r\n") with
  | .error err => .error err
  | .ok w1 => .ok { mw with w := w1, started := true }

/-- The method `CreateFormFile`. -/
def MultipartWriter.CreateFormFile (mw : MultipartWriter) (fieldname filename : GoString) :
    Except GoString MultipartWriter :=
  mw.CreatePart
    [(str "Content-Disposition",
      str "form-data; name=\"" ++ escapeQuotes fieldname ++ str "\"; filename=\""
        ++ escapeQuotes filename ++ str "\""),
     (str "Content-Type", str "application/octet-stream")]

/-- The method `CreateFormField`. -/
def MultipartWriter.CreateFormField (mw : MultipartWriter) (fieldname : GoString) :
    Except GoString MultipartWriter :=
  mw.CreatePart
    [(str "Content-Disposition", str "form-data; name=\"" ++ escapeQuotes fieldname ++ str "\"")]

/-- A `Write` on the part created last: the bytes go to the writer underneath. -/
def MultipartWriter.WritePart (mw : MultipartWriter) (p : GoString) :
    Except GoString MultipartWriter :=
  match mw.w.Write p with
  | .error err => .error err
  | .ok w1 => .ok { mw with w := w1 }

/-- The method `WriteField`: creates a form field part and writes the value to it. -/
def MultipartWriter.WriteField (mw : MultipartWriter) (fieldname value : GoString) :
    Except GoString MultipartWriter :=
  match mw.CreateFormField fieldname with
  | .error err => .error err
  | .ok mw1 => mw1.WritePart value

/-- The method `Close`: one write of the closing delimiter. -/
def MultipartWriter.Close (mw : MultipartWriter) : Except GoString MultipartWriter :=
  match mw.w.Write (str "\r\n--" ++ mw.boundary ++ str "--\r\n") with
  | .error err => .error err
  | .ok w1 => .ok { mw with w := w1 }

/-- The loop of `io.CopyBuffer` to `io.MultiWriter(partWriter, hasher)` over the reads of
the file: a read that delivers bytes is written to the part, then to the hasher; the first
write that fails ends the copy. -/
def copyChunks : List GoString → MultipartWriter → Hasher →
    MultipartWriter × Hasher × Option GoString
  | [], mw, hasher => (mw, hasher, none)
  | chunk :: rest, mw, hasher =>
    if chunk = [] then copyChunks rest mw hasher
    else
      match mw.WritePart chunk with
      | .error err => (mw, hasher, some err)
      | .ok mw1 => copyChunks rest mw1 (hasher.Write chunk)

/-- The call `io.CopyBuffer(io.MultiWriter(partWriter, hasher), file, buf)` with a buffer
of `buf` bytes: the writer, the hasher and the error; `none` when it panics (empty
buffer). The reads are those the file delivers, whatever the size of the buffer. -/
def ioCopyBuffer (mw : MultipartWriter) (hasher : Hasher) (file : OsFile) (buf : Nat) :
    Option (MultipartWriter × Hasher × Option GoString) :=
  if buf = 0 then none
  else
    match copyChunks file.reads mw hasher with
    | (mw1, hasher1, some err) => some (mw1, hasher1, some err)
    | (mw1, hasher1, none) => some (mw1, hasher1, file.readErr)

/-- The method `writeMultipartBody`: the writes accepted by `w`, in order, and the error
returned; `none` when the call panics (`make` refuses the length, `io.CopyBuffer` gets an
empty buffer). -/
def writeMultipartBody (c : Config) (rt : Runtime) (quote : GoString → GoString)
    (fs : FileSystem) (w : Wire) (boundary : GoString) (fileMeta : uploadFile) :
    Option (List GoString × Option GoString) :=
  match (MultipartWriter.New w).SetBoundary boundary with
  | .error err => some (w.written, some (str "set multipart boundary: " ++ err))
  | .ok mw =>
    match rt.makeBytes c.ChunkSize with
    | none => none
    | some buf =>
      match mw.CreateFormFile c.FormFieldName fileMeta.name with
      | .error err => some (mw.w.written, some (str "create form file part: " ++ err))
      | .ok mw1 =>
        match fs.Open fileMeta.path with
        | .error err =>
          some (mw1.w.written, some (str "open file " ++ quote fileMeta.path ++ str ": " ++ err))
        | .ok file =>
          match ioCopyBuffer mw1 Hasher.New file buf with
          | none => none
          | some (mw2, _, some err) =>
            some (mw2.w.written, some (str "copy file to multipart body: " ++ err))
          | some (mw2, hasher, none) =>
            match file.closeErr with
            | some err =>
              some (mw2.w.written,
                some (str "close file " ++ quote fileMeta.path ++ str ": " ++ err))
            | none =>
              match mw2.WriteField ChecksumFieldSHA256 (hexEncode hasher.Sum) with
              | .error err =>
                some (mw2.w.written, some (str "write checksum form field: " ++ err))
              | .ok mw3 =>
                match mw3.Close with
                | .error err =>
                  some (mw3.w.written, some (str "close multipart writer: " ++ err))
                | .ok mw4 => some (mw4.w.written, none)

/-- The environment of one `UploadFileContext` call. -/
structure World where
  /-- The `%q` verb of `fmt`. -/
  quote : GoString → GoString
  fs : FileSystem
  runtime : Runtime
  /-- The boundary drawn by `multipart.NewWriter(io.Discard).Boundary()`. -/
  boundary : GoString
  /-- The stream the request body is written to. -/
  wire : Wire
  /-- The transport, on the request to a URL. -/
  httpClient : GoString → HttpClient
  /-- Whether the body writer, started by `SetBodyStreamWriter`, has put its result on
  `streamErrCh` when a failed `doRequest` returns. -/
  streamDelivered : Bool

/-- The method `UploadFileContext`. The body writer runs in a goroutine of its own from
`SetBodyStreamWriter` on; when it panics the program ends and the call has no result
(`none`). -/
def UploadFileContext (w : World) (c : Config) (ctx : Option Context)
    (uploadReq : UploadRequest) : Option (Except GoString UploadResponse) :=
  let ctx1 := ctx.getD Context.Background
  match validateUploadRequest w.quote w.fs uploadReq with
  | .error err => some (.error err)
  | .ok (url, fileMeta) =>
    match writeMultipartBody c w.runtime w.quote w.fs w.wire w.boundary fileMeta with
    | none => none
    | some (_, streamResult) =>
      match doRequest c (w.httpClient url) ctx1 with
      | (_, .error doErr) =>
        let streamErr : Option GoString :=
          if w.streamDelivered = true then streamResult else none
        match streamErr with
        | some se =>
          some (.error (str "send request: " ++ doErr ++ str " (stream error: " ++ se
            ++ str ")"))
        | none =>
          match ctx1.Err .afterDo with
          | some ctxErr => some (.error (str "send request: " ++ ctxErr))
          | none => some (.error (str "send request: " ++ doErr))
      | (_, .ok resp) =>
        match streamResult with
        | some se => some (.error (str "stream multipart body: " ++ se))
        | none => some (.ok { StatusCode := resp.StatusCode, Body := resp.Body })

/-! ## Package `format` -/

/-- A non-negative finite `float64` value: the dyadic rational `num / 2 ^ exp2`. -/
structure Float64 where
  num : Nat
  exp2 : Nat
deriving DecidableEq, Repr

/-- The least `s`, from `s` on, with `n < 2 ^ (53 + s)`, searched for `fuel` steps. -/
def excessBits (n : Nat) : Nat → Nat → Nat
  | 0, s => s
  | fuel + 1, s => if n < 2 ^ (53 + s) then s else excessBits n fuel (s + 1)

/-- Rounding of a natural number to the 53 significant bits of a `float64`, to the nearest,
ties to even (IEEE 754). -/
def roundTo53 (n : Nat) : Nat :=
  let s := excessBits n n 0
  if s = 0 then n
  else
    let q := n / 2 ^ s
    let r := n % 2 ^ s
    (if 2 ^ (s - 1) < r ∨ (r = 2 ^ (s - 1) ∧ q % 2 = 1) then q + 1 else q) * 2 ^ s

/-- The conversion `float64(size)` of a non-negative integer. -/
def Float64.ofNat (n : Nat) : Float64 := { num := roundTo53 n, exp2 := 0 }

/-- The comparison `value >= 1024`. -/
def Float64.ge1024 (v : Float64) : Bool := decide (1024 * 2 ^ v.exp2 ≤ v.num)

/-- The division `value / 1024`: exact, only the exponent changes. -/
def Float64.div1024 (v : Float64) : Float64 := { v with exp2 := v.exp2 + 10 }

/-- The quotient `num / den` in hundredths, rounded to the nearest, ties to even. -/
def hundredths (num den : Nat) : Nat :=
  let q := num * 100 / den
  let r := num * 100 % den
  if den < 2 * r ∨ (2 * r = den ∧ q % 2 = 1) then q + 1 else q

/-- The quotient `num / den` written with two decimals. -/
def twoDecimals (num den : Nat) : GoString :=
  let h := hundredths num den
  decimal (h / 100) ++ str "." ++ (if h % 100 < 10 then str "0" else []) ++ decimal (h % 100)

/-- The verb `%.2f` of `fmt` on a `float64`: the exact value with two decimals. -/
def Float64.format2 (v : Float64) : GoString := twoDecimals v.num (2 ^ v.exp2)

/-- The verb `%d` of `fmt` on an integer. -/
def decimalInt (n : Int) : GoString :=
  if n < 0 then str "-" ++ decimal n.natAbs else decimal n.toNat

/-- The slice `units` of `format.Bytes`. -/
def format.units : List GoString := [str "KiB", str "MiB", str "GiB", str "TiB", str "PiB"]

/-- The loop `for value >= 1024 && unitIdx < len(units)-1` of `format.Bytes`, run for at
most `fuel + 1` tests of its condition; `none` when the fuel does not reach the exit. -/
def format.bytesLoop : Nat → Float64 → Int → Option (Float64 × Int)
  | 0, value, unitIdx =>
    if value.ge1024 = true ∧ unitIdx < (format.units.length : Int) - 1 then none
    else some (value, unitIdx)
  | fuel + 1, value, unitIdx =>
    if value.ge1024 = true ∧ unitIdx < (format.units.length : Int) - 1 then
      format.bytesLoop fuel value.div1024 (unitIdx + 1)
    else some (value, unitIdx)

/-- The function `format.Bytes`; `none` when the call does not return a string: the index
`unitIdx` is out of the range of `units` (a run-time panic), or the loop does not end. -/
def format.Bytes (size : Int) : Option GoString :=
  if size < 1024 then some (decimalInt size ++ str " B")
  else
    match format.bytesLoop 5 (Float64.ofNat size.toNat) (-1) with
    | none => none
    | some (value, unitIdx) =>
      if unitIdx < 0 then none
      else
        match format.units[unitIdx.toNat]? with
        | none => none
        | some unit => some (value.format2 ++ str " " ++ unit)

/-! ## Vocabulary of the specification -/

/-- All the bytes an opened file yields before the stream ends. -/
def MultipartFile.content (f : MultipartFile) : GoString := f.chunks.flatten

/-- The bytes received for a file: its content when it opens, reads to `io.EOF` and closes
without error; `none` otherwise. -/
def FileHeader.received (fh : FileHeader) : Option GoString :=
  match fh.Open with
  | .error _ => none
  | .ok f => if f.readErr = none ∧ f.closeErr = none then some f.content else none

/-- The per-file digest of the specification: lowercase hex SHA-256 of the content. -/
def fileDigest (content : GoString) : GoString := hexEncode (sha256 content)

/-- The line of the specification for one file of a batch: `"<filename>:<hexdigest>\n"`. -/
def aggregateLine (file : GoString × GoString) : GoString :=
  file.1 ++ str ":" ++ fileDigest file.2 ++ str "\n"

/-- The ordered concatenation of the lines of a batch of (file name, content) pairs. -/
def aggregateInput (batch : List (GoString × GoString)) : GoString :=
  (batch.map aggregateLine).flatten

/-- The aggregate digest of the specification: hex SHA-256 over the lines of the batch. -/
def aggregateDigest (batch : List (GoString × GoString)) : GoString :=
  hexEncode (sha256 (aggregateInput batch))

/-- The checksum of a successfully processed batch, as the specification defines it: the
file's own digest for a single file, the aggregate digest for more than one. -/
def batchChecksum : List (GoString × GoString) → GoString
  | [file] => fileDigest file.2
  | batch => aggregateDigest batch

/-- The loop variables after one file was hashed and, for a batch, added to the aggregate. -/
def LoopState.after (st : LoopState) (fileCount : Nat) (filename content : GoString) :
    LoopState :=
  if fileCount = 1 then
    { totalBytes := st.totalBytes + content.length
      actualChecksum := fileDigest content
      aggregateHasher := st.aggregateHasher }
  else
    { totalBytes := st.totalBytes + content.length
      actualChecksum := st.actualChecksum
      aggregateHasher := st.aggregateHasher.Write (aggregateLine (filename, content)) }

/-- A handler whose pool holds `c` permits (no change when the gate is disabled). -/
def handlerConfig.holding (h : handlerConfig) (c : Nat) : handlerConfig :=
  { h with uploadSlots := h.uploadSlots.map (fun ch => { ch with len := c }) }

/-- No two different members of `inputs` have the same SHA-256 digest. -/
def CollisionFree (inputs : List GoString) : Prop :=
  ∀ x ∈ inputs, ∀ y ∈ inputs, sha256 x = sha256 y → x = y

/-- The byte `'\n'`. -/
def newline : UInt8 := 10

/-- The declared checksums of a request: the values of the checksum field, trimmed, that
are not empty after trimming. -/
def declaredChecksums (values : List GoString) : List GoString :=
  (values.map TrimSpace).filter (fun c => c ≠ [])

/-- The batch of a request: its file names paired with the contents received. -/
def batchOf (files : List FileHeader) (contents : List GoString) :
    List (GoString × GoString) :=
  (files.map (fun fh => fh.Filename)).zip contents

/-- The loop variables after every file of a batch was processed in order. -/
def LoopState.afterAll (st : LoopState) (fileCount : Nat) :
    List (GoString × GoString) → LoopState
  | [] => st
  | file :: rest => (st.after fileCount file.1 file.2).afterAll fileCount rest

/-- The unit index of the specification: the largest `i` in `0..4` with
`1024 ^ (i + 1) ≤ size` (`0` when there is none). -/
def format.unitIndex (size : Int) : Nat :=
  (List.range 5).foldl (fun acc i => if (1024 : Int) ^ (i + 1) ≤ size then i else acc) 0

/-- The rendering of a size as the specification words it: the decimal integer and `" B"`
below 1024, else `size / 1024 ^ (i + 1)` with two decimals and the unit `units[i]`. -/
def format.specBytes (size : Int) : GoString :=
  if size < 1024 then decimalInt size ++ str " B"
  else
    twoDecimals size.toNat (1024 ^ (format.unitIndex size + 1)) ++ str " "
      ++ format.units.getD (format.unitIndex size) []

/-- The entries of the result slice come from the uploads: the slice and the goroutines
are as many as the files, and a stored response was returned by the upload of its index. -/
def ResultsInv (n : Nat) (past : List ClientEvent) (s : HandleState) : Prop :=
  s.responses.length = n ∧ s.phases.length = n
  ∧ ∀ i r, s.responses[i]? = some (some r) → ClientEvent.uploaded i r ∈ past

/-- While the context is cancelled by `Handle` only: it is done only after a failure was
recorded, and a goroutine that returned stored a response unless a failure was recorded. -/
def OwnCancelInv (s : HandleState) : Prop :=
  (s.done = true → s.firstErr ≠ none)
  ∧ ∀ i : Nat, s.phases[i]? = some Phase.returned →
      (∃ r, s.responses[i]? = some (some r)) ∨ s.firstErr ≠ none

/-- A response returned by an upload stays in its entry: once the upload of file `i` has
returned `r`, entry `i` of the result slice is `r` and goroutine `i` has returned. -/
def StoredInv (past : List ClientEvent) (s : HandleState) : Prop :=
  ∀ i r, ClientEvent.uploaded i r ∈ past →
    s.responses[i]? = some (some r) ∧ s.phases[i]? = some Phase.returned

/-- Whether a field name or file name has none of the bytes that `escapeQuotes` rewrites:
backslash, double quote, carriage return, line feed. -/
def plainName (s : GoString) : Bool :=
  s.all (fun b => b ≠ 92 ∧ b ≠ 34 ∧ b ≠ 13 ∧ b ≠ 10)

/-- The first part header of a `multipart/form-data` body with the given boundary: a file
part with a field name and a file name, as they stand between the quotes. -/
def filePartHeader (boundary name filename : GoString) : GoString :=
  str "--" ++ boundary ++ str "\r\nContent-Disposition: form-data; name=\"" ++ name
    ++ str "\"; filename=\"" ++ filename
    ++ str "\"\r\nContent-Type: application/octet-stream\r\n\r\n"

/-- The header of a further part that carries the form value `checksum_sha256`. -/
def checksumPartHeader (boundary : GoString) : GoString :=
  str "\r\n--" ++ boundary
    ++ str "\r\nContent-Disposition: form-data; name=\"checksum_sha256\"\r\n\r\n"

/-- The closing delimiter of a `multipart/form-data` body. -/
def closingDelimiter (boundary : GoString) : GoString :=
  str "\r\n--" ++ boundary ++ str "--\r\n"

/-! ## Sample values -/

/-- A sample environment: `%q` adds double quotes, sizes are rendered in bytes. -/
def sampleEnv : Env :=
  { quote := fun s => str "\"" ++ s ++ str "\""
    Bytes := fun n => decimal n ++ str " B"
    duration := str "1ms"
    speed := fun _ => str "0.00 B/s" }

/-- A file header that opens, and yields `chunks` without error. -/
def sampleFile (name : GoString) (chunks : List GoString) : FileHeader :=
  { Filename := name, Open := .ok { chunks := chunks, readErr := none, closeErr := none } }

/-- A parsed `POST /upload` request with `files` under `file` and `sums` under
`checksum_sha256`. -/
def sampleUpload (files : List FileHeader) (sums : List GoString) : RequestCtx :=
  { method := str "POST"
    path := str "/upload"
    MultipartForm := .ok
      { Value := fun k => if k = ChecksumFieldSHA256 then sums else []
        File := fun k => if k = str "file" then files else [] } }

/-- The status code and the `sha256` field of the response of a handler call. -/
def statusAndChecksum (o : Option Outcome) : Option (Nat × GoString) :=
  match o with
  | none => none
  | some out =>
    match out.resp.body with
    | .json (.success r) => some (out.resp.statusCode, r.SHA256)
    | _ => some (out.resp.statusCode, [])

/-- The outcome of the sample two-file upload `a.txt` (content `"abc"`), `b` (empty) with
no declared checksum, on a handler with four free permits. -/
def sampleBatchOutcome : Outcome :=
  { cfg := newHandlerConfig (str "file") 4
    resp :=
      { statusCode := 201
        contentType := str "application/json; charset=utf-8"
        body := .json (.success
          { Status := str "ok"
            Files := 2
            Size := str "3 B"
            Duration := str "1ms"
            Speed := str "0.00 B/s"
            SHA256 := str "6ed108cf210f83e7affbb46b5e4783cddaee4ca666d6f21e0f07c43918e1a805" }) }
    trace := [.tryAcquire, .parseForm, .openFile 0, .hashFile 0, .openFile 1, .hashFile 1,
      .release] }

/-- The request is processed successfully: it is answered 201 with `checksum` in the
`sha256` field, and `batch` is the list of its file names with the contents received. -/
def ProcessedBatch (env : Env) (h : handlerConfig) (ctx : RequestCtx)
    (batch : List (GoString × GoString)) (checksum : GoString) : Prop :=
  statusAndChecksum (handleUpload env h ctx) = some (201, checksum)
  ∧ ∃ form contents, ctx.MultipartForm = .ok form
      ∧ (form.File h.fileFieldName).map FileHeader.received = contents.map some
      ∧ batch = batchOf (form.File h.fileFieldName) contents

/-- The invariant of the server with capacity `k`: the pool is a channel of capacity `k`
that buffers one element per admitted request, each admitted request appears once, and its
release closure is the receive on the pool. -/
def ServerInv (k : Nat) (s : ServerState) : Prop :=
  (∃ c, s.cfg.uploadSlots = some c ∧ c.cap = k ∧ c.len = s.admitted.length)
  ∧ s.admitted.length ≤ k
  ∧ (s.admitted.map (fun p => p.1)).Nodup
  ∧ ∀ p ∈ s.admitted, p.2 = releaseSlot

/-- The invariant of a `Handle` call with `MaxConcurrent = k`: `sem` has capacity `k` and
buffers one element per goroutine that is uploading. -/
def ClientInv (k : Nat) (s : HandleState) : Prop :=
  s.sem.cap = k ∧ s.sem.len = s.uploading ∧ s.uploading ≤ k

/-- The server with capacity 2 after requests 0, 1 and 2 arrived, request 0 returned and
request 3 arrived: requests 3 and 1 hold the two permits (request 2 was rejected). -/
def sampleServerState : ServerState :=
  { cfg := (newHandlerConfig (str "file") 2).holding 2
    admitted := [(3, releaseSlot), (1, releaseSlot)] }

/-- A client batch of three files with at most two concurrent uploads. -/
def sampleAppConfig : AppConfig :=
  { URL := str "http://localhost:8080/upload"
    Files := [str "a", str "b", str "c"]
    MaxConcurrent := 2 }

/-- The batch `sampleAppConfig` after goroutines 2 and 0 took a permit, the upload of file 2
returned a response and goroutine 1 took the freed permit. -/
def sampleHandleState : HandleState :=
  { sem := { cap := 2, len := 2 }
    done := false
    firstErr := none
    responses := [none, none, some { StatusCode := 201, Body := [] }]
    phases := [.uploading, .uploading, .returned] }

/-- A request with the given method and path and no multipart body. -/
def sampleRequest (method path : GoString) : RequestCtx :=
  { method := method, path := path, MultipartForm := .error (str "no multipart form") }

/-- The trace of the loop over `count` files from index `idx` on when every file is
received and no checksum is declared: one open and one hash per file, no comparison. -/
def readTrace : Nat → Nat → List Effect
  | _, 0 => []
  | idx, count + 1 => .openFile idx :: .hashFile idx :: readTrace (idx + 1) count

/-- The configuration of the tests of the package `uploader`. -/
def validUploaderConfig (chunkSize : Int) : Config :=
  { ChunkSize := chunkSize, FormFieldName := str "file", RequestTimeout := 30000000000 }

/-- The runtime of linux/amd64 with memory for every allocation it accepts. -/
def sampleRuntime : Runtime := { maxAlloc := 2 ^ 48, hasMemory := fun _ => true }

/-- A wire that has accepted nothing yet and accepts every write. -/
def sampleWire : Wire := { written := [], fail := fun _ _ => none }

/-- A file system with the single regular file `/tmp/payload.bin`, which delivers `reads`
when it is read. -/
def sampleFileSystem (reads : List GoString) : FileSystem :=
  { Stat := fun p =>
      if p = str "/tmp/payload.bin" then .ok { IsDir := false }
      else .error (str "no such file or directory")
    Open := fun p =>
      if p = str "/tmp/payload.bin" then
        .ok { reads := reads, readErr := none, closeErr := none }
      else .error (str "no such file or directory") }

/-- The multipart body of the sample file. -/
def samplePayloadBody : GoString :=
  str ("--b0undary\r\n"
    ++ "Content-Disposition: form-data; name=\"file\"; filename=\"payload.bin\"\r\n"
    ++ "Content-Type: application/octet-stream\r\n"
    ++ "\r\n"
    ++ "abcdef0123456789"
    ++ "\r\n--b0undary\r\n"
    ++ "Content-Disposition: form-data; name=\"checksum_sha256\"\r\n"
    ++ "\r\n"
    ++ "f445801e0cb899262c9b9e219836880d73ca2d1b0b9c15fb959c90eb121234e3"
    ++ "\r\n--b0undary--\r\n")

/-- A world in which `/tmp/payload.bin` is removed after `os.Stat` saw it, so that the body
writer fails at `os.Open`, and in which the transport fails with `connection reset`;
`delivered` tells whether the body writer has delivered its result. -/
def sampleBrokenWorld (delivered : Bool) : World :=
  { quote := sampleEnv.quote
    fs :=
      { Stat := fun _ => .ok { IsDir := false }
        Open := fun _ => .error (str "open /tmp/payload.bin: no such file or directory") }
    runtime := sampleRuntime
    boundary := str "b0undary"
    wire := sampleWire
    httpClient := fun _ _ => .error (str "connection reset")
    streamDelivered := delivered }

/-- The upload request of the sample file. -/
def sampleUploadRequest : UploadRequest :=
  { URL := str "http://inmemory/upload", FilePath := str "/tmp/payload.bin", FileName := [] }

/-- A run of the batch `sampleAppConfig` in which the uploads return in the order 2, 0, 1. -/
def sampleBatchEvents : List ClientEvent :=
  [.acquire 2, .acquire 0, .uploaded 2 { StatusCode := 201, Body := str "c" }, .acquire 1,
   .uploaded 0 { StatusCode := 201, Body := str "a" },
   .uploaded 1 { StatusCode := 201, Body := str "b" }]

/-- The batch `sampleAppConfig` after the run `sampleBatchEvents`. -/
def sampleFinishedState : HandleState :=
  { sem := { cap := 2, len := 0 }
    done := false
    firstErr := none
    responses := [some { StatusCode := 201, Body := str "a" },
                  some { StatusCode := 201, Body := str "b" },
                  some { StatusCode := 201, Body := str "c" }]
    phases := [.returned, .returned, .returned] }

/-- The batch `sampleAppConfig` when the context passed to `Handle` is cancelled after the
upload of file 0 returned and before goroutines 1 and 2 took a permit. -/
def sampleCancelledState : HandleState :=
  { sem := { cap := 2, len := 0 }
    done := true
    firstErr := none
    responses := [some { StatusCode := 201, Body := str "a" }, none, none]
    phases := [.returned, .returned, .returned] }

/-! ## Lemmas on the library functions -/

theorem foldl_write_eq (chunks : List GoString) (a : Hasher × Nat) :
    chunks.foldl (fun (a : Hasher × Nat) chunk => (a.1.Write chunk, a.2 + chunk.length)) a
      = (⟨a.1.written ++ chunks.flatten⟩, a.2 + chunks.flatten.length) := by
  induction chunks generalizing a with
  | nil => simp
  | cons c cs ih =>
    rw [List.foldl_cons, ih]
    simp [Hasher.Write, List.append_assoc, Nat.add_assoc]

theorem ioCopy_eq (hasher : Hasher) (r : MultipartFile) :
    ioCopy hasher r = (⟨hasher.written ++ r.content⟩, r.content.length, r.readErr) := by
  simp [ioCopy, foldl_write_eq, MultipartFile.content]

theorem hashSHA256HexAndCount_eof (r : MultipartFile) (h : r.readErr = none) :
    hashSHA256HexAndCount r = (fileDigest r.content, r.content.length, none) := by
  simp [hashSHA256HexAndCount, ioCopy_eq, h, Hasher.New, Hasher.Sum, fileDigest]

theorem hashSHA256HexAndCount_err (r : MultipartFile) (e : GoString) (h : r.readErr = some e) :
    hashSHA256HexAndCount r = ([], r.content.length, some (str "hash stream: " ++ e)) := by
  simp [hashSHA256HexAndCount, ioCopy_eq, h]

theorem received_some (fh : FileHeader) (c : GoString) (h : fh.received = some c) :
    ∃ f, fh.Open = .ok f ∧ f.readErr = none ∧ f.closeErr = none ∧ f.content = c := by
  unfold FileHeader.received at h
  split at h
  · exact absurd h (by simp)
  · next f hf =>
    split at h
    · next hc => exact ⟨f, hf, hc.1, hc.2, by simpa using h⟩
    · exact absurd h (by simp)

/-! ## Lemmas on the loop over the files -/

theorem uploadLoop_cons_received (env : Env) (n : Nat) (cs : List GoString) (idx : Nat)
    (fh : FileHeader) (rest : List FileHeader) (st : LoopState) (c : GoString)
    (h : fh.received = some c) :
    uploadLoop env n cs idx (fh :: rest) st =
      if cs.length > 0 then
        if fileDigest c ≠ cs.getD idx [] then
          ([.openFile idx, .hashFile idx, .compare idx], .error (writeJSON 422 (.error
            { Status := str "error"
              Error := str "checksum mismatch"
              ExpectedChecksum := cs.getD idx []
              ActualChecksum := fileDigest c })))
        else
          ([.openFile idx, .hashFile idx, .compare idx]
            ++ (uploadLoop env n cs (idx + 1) rest (st.after n fh.Filename c)).1,
           (uploadLoop env n cs (idx + 1) rest (st.after n fh.Filename c)).2)
      else
        ([.openFile idx, .hashFile idx]
          ++ (uploadLoop env n cs (idx + 1) rest (st.after n fh.Filename c)).1,
         (uploadLoop env n cs (idx + 1) rest (st.after n fh.Filename c)).2) := by
  obtain ⟨f, hf, hr, hc, rfl⟩ := received_some fh c h
  rw [uploadLoop]
  simp only [hf, hashSHA256HexAndCount_eof f hr, hc]
  by_cases hn : n = 1
  · simp [hn, LoopState.after]
  · simp [hn, LoopState.after, fprintfLine, aggregateLine, Hasher.Write]

theorem uploadLoop_cons_not_received (env : Env) (n : Nat) (cs : List GoString) (idx : Nat)
    (fh : FileHeader) (rest : List FileHeader) (st : LoopState)
    (h : fh.received = none) :
    ∃ resp, (uploadLoop env n cs idx (fh :: rest) st).2 = .error resp ∧ resp.statusCode = 400
      ∧ (uploadLoop env n cs idx (fh :: rest) st).1 ⊆ [.openFile idx, .hashFile idx] := by
  unfold FileHeader.received at h
  rw [uploadLoop]
  split at h
  · next e he => simp [he, writeJSONError, writeJSON, sonicMarshal]
  · next f hf =>
    simp only [hf]
    cases hr : f.readErr with
    | some e => simp [hashSHA256HexAndCount_err f e hr, writeJSONError, writeJSON, sonicMarshal]
    | none =>
      cases hc : f.closeErr with
      | some e => simp [hashSHA256HexAndCount_eof f hr, writeJSONError, writeJSON, sonicMarshal]
      | none => simp [hr, hc] at h

/-! ## Lemmas on the admission pool and the handler -/

theorem tryAcquire_ok (h : handlerConfig) (hok : (tryAcquireUploadSlot h).ok = true) :
    ∃ rel, (tryAcquireUploadSlot h).release = some rel
      ∧ rel (tryAcquireUploadSlot h).cfg = some h
      ∧ (tryAcquireUploadSlot h).cfg.fileFieldName = h.fileFieldName := by
  obtain ⟨name, slots⟩ := h
  cases slots with
  | none => exact ⟨releaseNothing, rfl, rfl, rfl⟩
  | some c =>
    by_cases hc : c.len < c.cap
    · refine ⟨releaseSlot, ?_, ?_, ?_⟩ <;>
        simp [tryAcquireUploadSlot, Chan.send, hc, releaseSlot, Chan.recv]
    · simp [tryAcquireUploadSlot, Chan.send, hc] at hok

theorem tryAcquire_fail (h : handlerConfig) (hok : (tryAcquireUploadSlot h).ok = false) :
    (tryAcquireUploadSlot h).cfg = h ∧ (tryAcquireUploadSlot h).release = none := by
  obtain ⟨name, slots⟩ := h
  cases slots with
  | none => simp [tryAcquireUploadSlot] at hok
  | some c =>
    by_cases hc : c.len < c.cap
    · simp [tryAcquireUploadSlot, Chan.send, hc] at hok
    · simp [tryAcquireUploadSlot, Chan.send, hc]

theorem handleAdmitted_field (env : Env) (h h1 : handlerConfig) (ctx : RequestCtx)
    (hf : h1.fileFieldName = h.fileFieldName) :
    handleAdmitted env h1 ctx = handleAdmitted env h ctx := by
  unfold handleAdmitted
  rw [hf]

theorem handleUpload_admitted (env : Env) (h : handlerConfig) (ctx : RequestCtx)
    (hok : (tryAcquireUploadSlot h).ok = true) :
    handleUpload env h ctx = some
      { cfg := h
        resp := (handleAdmitted env h ctx).2
        trace := .tryAcquire :: (handleAdmitted env h ctx).1 ++ [.release] } := by
  obtain ⟨rel, hrel, hback, hfield⟩ := tryAcquire_ok h hok
  unfold handleUpload
  simp [hok, hrel, hback, handleAdmitted_field env h _ ctx hfield]

theorem handleUpload_rejected (env : Env) (h : handlerConfig) (ctx : RequestCtx)
    (hok : (tryAcquireUploadSlot h).ok = false) :
    handleUpload env h ctx = some
      { cfg := h
        resp := writeJSONError 503 (str "too many concurrent uploads")
        trace := [.tryAcquire] } := by
  unfold handleUpload
  simp [hok, (tryAcquire_fail h hok).1]

/-- The function `expectedChecksumsForRequest` in terms of `declaredChecksums`. -/
theorem expectedChecksumsForRequest_eq (values : List GoString) (fileCount : Nat) :
    expectedChecksumsForRequest values fileCount =
      if (declaredChecksums values).length > 0 ∧ (declaredChecksums values).length ≠ fileCount
      then .error (str "checksum count mismatch: got "
        ++ decimal (declaredChecksums values).length ++ str " for " ++ decimal fileCount
        ++ str " file(s)")
      else .ok (declaredChecksums values) := rfl

/-! ## Round trip of a single file (C1) -/

/-- C1. A request that is admitted and carries exactly one file, read to the end without
error, with no declared checksum or with the one equal to the digest of the content, is
answered 201 and the `sha256` field is the lowercase hex SHA-256 of exactly the bytes the
file yielded, however they were split into reads; `hashSHA256HexAndCount` on that reader
gives the hex digest, the length of the content and no error. -/
theorem single_file_upload_reports_content_digest (env : Env) (h : handlerConfig)
    (ctx : RequestCtx) (form : Form) (fh : FileHeader) (f : MultipartFile)
    (cs : List GoString)
    (hslot : (tryAcquireUploadSlot h).ok = true)
    (hform : ctx.MultipartForm = .ok form)
    (hfiles : form.File h.fileFieldName = [fh])
    (hopen : fh.Open = .ok f) (hread : f.readErr = none) (hclose : f.closeErr = none)
    (hsums : expectedChecksumsForRequest (form.Value ChecksumFieldSHA256) 1 = .ok cs)
    (hcs : cs = [] ∨ cs = [hexEncode (sha256 f.content)]) :
    hashSHA256HexAndCount f = (hexEncode (sha256 f.content), f.content.length, none)
    ∧ ∃ o, handleUpload env h ctx = some o
        ∧ o.resp.statusCode = 201
        ∧ o.resp.body = .json (.success
            { Status := str "ok"
              Files := 1
              Size := env.Bytes f.content.length
              Duration := env.duration
              Speed := env.speed f.content.length
              SHA256 := hexEncode (sha256 f.content) }) := by
  refine ⟨hashSHA256HexAndCount_eof f hread, ?_⟩
  have hrec : fh.received = some f.content := by
    simp [FileHeader.received, hopen, hread, hclose]
  refine ⟨_, handleUpload_admitted env h ctx hslot, ?_⟩
  rcases hcs with rfl | rfl <;>
    simp [handleAdmitted, hform, hfiles, hsums, uploadLoop_cons_received _ _ _ _ _ _ _ _ hrec,
      uploadLoop, LoopState.after, fileDigest, writeJSON, sonicMarshal]

/-- The witness of C1: the file `a.txt` yielding `"ab"` then `"c"`, declared with the
digest of `"abc"` surrounded by white space. -/
theorem single_file_upload_reports_content_digest_witness :
    hashSHA256HexAndCount { chunks := [str "ab", str "c"], readErr := none, closeErr := none }
      = (str "ba7816bf8f01cfea414140de5dae2223b00361a396177a9cb410ff61f20015ad", 3, none)
    ∧ ∃ o, handleUpload sampleEnv (newHandlerConfig (str "file") 4)
          (sampleUpload [sampleFile (str "a.txt") [str "ab", str "c"]]
            [str " ba7816bf8f01cfea414140de5dae2223b00361a396177a9cb410ff61f20015ad\n"]) = some o
        ∧ o.resp.statusCode = 201
        ∧ o.resp.body = .json (.success
            { Status := str "ok"
              Files := 1
              Size := str "3 B"
              Duration := str "1ms"
              Speed := str "0.00 B/s"
              SHA256 := str "ba7816bf8f01cfea414140de5dae2223b00361a396177a9cb410ff61f20015ad" }) := by
  have hd : hexEncode (sha256 (str "abc"))
      = str "ba7816bf8f01cfea414140de5dae2223b00361a396177a9cb410ff61f20015ad" := by decide!
  have key := single_file_upload_reports_content_digest sampleEnv
    (newHandlerConfig (str "file") 4)
    (sampleUpload [sampleFile (str "a.txt") [str "ab", str "c"]]
      [str " ba7816bf8f01cfea414140de5dae2223b00361a396177a9cb410ff61f20015ad\n"])
    { Value := fun k => if k = ChecksumFieldSHA256 then
        [str " ba7816bf8f01cfea414140de5dae2223b00361a396177a9cb410ff61f20015ad\n"] else []
      File := fun k => if k = str "file" then [sampleFile (str "a.txt") [str "ab", str "c"]]
        else [] }
    (sampleFile (str "a.txt") [str "ab", str "c"])
    { chunks := [str "ab", str "c"], readErr := none, closeErr := none }
    [str "ba7816bf8f01cfea414140de5dae2223b00361a396177a9cb410ff61f20015ad"]
    (by decide) rfl rfl rfl rfl rfl rfl (Or.inr (by decide!))
  have hc : ({ chunks := [str "ab", str "c"], readErr := none, closeErr := none } :
      MultipartFile).content = str "abc" := by decide
  rw [hc, hd] at key
  exact key

/-! ## Checksum mismatch (C2) -/

theorem uploadLoop_first_mismatch (env : Env) (n : Nat) (cs : List GoString)
    (hpos : cs.length > 0) :
    ∀ (i : Nat) (fs : List FileHeader) (idx : Nat) (st : LoopState) (fh : FileHeader)
      (c : GoString),
      (∀ j, j < i → ∃ fj cj, fs[j]? = some fj ∧ fj.received = some cj
        ∧ fileDigest cj = cs.getD (idx + j) []) →
      fs[i]? = some fh → fh.received = some c → fileDigest c ≠ cs.getD (idx + i) [] →
      (uploadLoop env n cs idx fs st).2 = .error (writeJSON 422 (.error
        { Status := str "error"
          Error := str "checksum mismatch"
          ExpectedChecksum := cs.getD (idx + i) []
          ActualChecksum := fileDigest c })) := by
  intro i
  induction i with
  | zero =>
    intro fs idx st fh c _ hat hrec hmis
    cases fs with
    | nil => simp at hat
    | cons f0 rest =>
      simp at hat
      subst hat
      rw [uploadLoop_cons_received env n cs idx f0 rest st c hrec]
      rw [Nat.add_zero] at hmis ⊢
      simp only [hpos, hmis, if_true, ne_eq, not_false_eq_true, Nat.add_zero]
  | succ i ih =>
    intro fs idx st fh c hbefore hat hrec hmis
    cases fs with
    | nil => simp at hat
    | cons f0 rest =>
      obtain ⟨fj, cj, h0, hrec0, hd0⟩ := hbefore 0 (Nat.succ_pos i)
      simp at h0
      subst h0
      rw [uploadLoop_cons_received env n cs idx f0 rest st cj hrec0]
      rw [Nat.add_zero] at hd0
      simp only [hpos, hd0, if_true, ne_eq, not_true_eq_false, if_false]
      have hshift : idx + (i + 1) = idx + 1 + i := by omega
      rw [hshift] at hmis ⊢
      refine ih rest (idx + 1) _ fh c ?_ (by simpa using hat) hrec hmis
      intro j hj
      obtain ⟨fj, cj, hj1, hj2, hj3⟩ := hbefore (j + 1) (by omega)
      refine ⟨fj, cj, by simpa using hj1, hj2, ?_⟩
      rw [hj3]
      congr 1
      omega

/-- When no supplied value is blank or has surrounding whitespace, the declared checksums
are the supplied values. -/
theorem declaredChecksums_clean (values : List GoString)
    (hclean : ∀ v ∈ values, TrimSpace v = v ∧ v ≠ []) : declaredChecksums values = values := by
  induction values with
  | nil => rfl
  | cons v rest ih =>
    obtain ⟨h1, h2⟩ := hclean v (List.mem_cons_self v rest)
    have hrest := ih (fun u hu => hclean u (List.mem_cons_of_mem v hu))
    simp only [declaredChecksums] at hrest ⊢
    simp only [List.map_cons, h1]
    rw [List.filter_cons_of_pos (by simpa using h2), hrest]

/-- C2, as stated, fails. A request with one file and one value under `checksum_sha256`,
the value being the digest of the file between a space and a line feed: the value differs
from the computed digest, and the answer is 201. With the value `dead` between two spaces
the answer is 422, and `expected_checksum` is `dead` without the spaces, not the value
supplied. -/
theorem checksum_value_with_blanks_is_trimmed :
    str " ba7816bf8f01cfea414140de5dae2223b00361a396177a9cb410ff61f20015ad\n"
      ≠ hexEncode (sha256 (str "abc"))
    ∧ (handleUpload sampleEnv (newHandlerConfig (str "file") 4)
        (sampleUpload [sampleFile (str "a.txt") [str "abc"]]
          [str " ba7816bf8f01cfea414140de5dae2223b00361a396177a9cb410ff61f20015ad\n"])).map
          (fun o => o.resp.statusCode) = some 201
    ∧ (handleUpload sampleEnv (newHandlerConfig (str "file") 4)
        (sampleUpload [sampleFile (str "a.txt") [str "abc"]] [str " dead "])).map
          (fun o => o.resp.body) = some (.json (.error
            { Status := str "error"
              Error := str "checksum mismatch"
              ExpectedChecksum := str "dead"
              ActualChecksum :=
                str "ba7816bf8f01cfea414140de5dae2223b00361a396177a9cb410ff61f20015ad" }))
    ∧ str "dead" ≠ str " dead " := by
  decide!

/-- C2, amended. The declared checksums of a request are the values it supplies under
`checksum_sha256`, each trimmed of surrounding whitespace, the blank ones dropped
(`declaredChecksums`). An admitted request whose form parses, whose declared checksums are
one per file, and in which file `i` is the first whose digest differs from the declared
checksum at its index (the files up to `i` being received without error), is answered 422
with error `"checksum mismatch"`, `expected_checksum` the declared checksum at index `i`
and `actual_checksum` the hex SHA-256 of the bytes received for file `i`; the answer is not
201. When no supplied value is blank or has surrounding whitespace, `expected_checksum` is
the value supplied at index `i`. -/
theorem checksum_mismatch_answers_422 (env : Env) (h : handlerConfig) (ctx : RequestCtx)
    (form : Form) (i : Nat) (fh : FileHeader) (c : GoString)
    (hslot : (tryAcquireUploadSlot h).ok = true)
    (hform : ctx.MultipartForm = .ok form)
    (hone : (declaredChecksums (form.Value ChecksumFieldSHA256)).length
      = (form.File h.fileFieldName).length)
    (hbefore : ∀ j, j < i → ∃ fj cj, (form.File h.fileFieldName)[j]? = some fj
      ∧ fj.received = some cj
      ∧ hexEncode (sha256 cj) = (declaredChecksums (form.Value ChecksumFieldSHA256)).getD j [])
    (hat : (form.File h.fileFieldName)[i]? = some fh)
    (hrec : fh.received = some c)
    (hmis : hexEncode (sha256 c)
      ≠ (declaredChecksums (form.Value ChecksumFieldSHA256)).getD i []) :
    (∃ o, handleUpload env h ctx = some o
      ∧ o.resp.statusCode = 422
      ∧ o.resp.statusCode ≠ 201
      ∧ o.resp.body = .json (.error
          { Status := str "error"
            Error := str "checksum mismatch"
            ExpectedChecksum := (declaredChecksums (form.Value ChecksumFieldSHA256)).getD i []
            ActualChecksum := hexEncode (sha256 c) }))
    ∧ ((∀ v ∈ form.Value ChecksumFieldSHA256, TrimSpace v = v ∧ v ≠ []) →
        (declaredChecksums (form.Value ChecksumFieldSHA256)).getD i []
          = (form.Value ChecksumFieldSHA256).getD i []) := by
  refine ⟨⟨_, handleUpload_admitted env h ctx hslot, ?_⟩, fun hclean => by
    rw [declaredChecksums_clean _ hclean]⟩
  have hlen : 0 < (form.File h.fileFieldName).length := by
    have := List.getElem?_eq_some_iff.mp hat
    obtain ⟨hi, _⟩ := this
    omega
  have hpos : (declaredChecksums (form.Value ChecksumFieldSHA256)).length > 0 := by omega
  have hsums : expectedChecksumsForRequest (form.Value ChecksumFieldSHA256)
      (form.File h.fileFieldName).length
        = .ok (declaredChecksums (form.Value ChecksumFieldSHA256)) := by
    rw [expectedChecksumsForRequest_eq, if_neg (by omega)]
  have hloop := uploadLoop_first_mismatch env (form.File h.fileFieldName).length
    (declaredChecksums (form.Value ChecksumFieldSHA256)) hpos i
    (form.File h.fileFieldName) 0
    { totalBytes := 0, actualChecksum := str "n/a", aggregateHasher := Hasher.New } fh c
    (by simpa [fileDigest] using hbefore) hat hrec (by simpa [fileDigest] using hmis)
  have hne : (form.File h.fileFieldName).length ≠ 0 := by omega
  simp only [handleAdmitted, hform, hne, if_false, hsums]
  generalize uploadLoop env (form.File h.fileFieldName).length
    (declaredChecksums (form.Value ChecksumFieldSHA256)) 0 (form.File h.fileFieldName)
    { totalBytes := 0, actualChecksum := str "n/a", aggregateHasher := Hasher.New } = r at hloop
  obtain ⟨tr, out⟩ := r
  simp only at hloop
  subst hloop
  simp [writeJSON, sonicMarshal, fileDigest]

/-- The witness of C2: two files, the first declared with its digest after a space, the
second declared with a wrong checksum between spaces. -/
theorem checksum_mismatch_answers_422_witness :
    ∃ o, handleUpload sampleEnv (newHandlerConfig (str "file") 4)
        (sampleUpload [sampleFile (str "a.txt") [str "abc"], sampleFile (str "b.txt") []]
          [str " ba7816bf8f01cfea414140de5dae2223b00361a396177a9cb410ff61f20015ad",
           str " dead "]) = some o
      ∧ o.resp.statusCode = 422
      ∧ o.resp.statusCode ≠ 201
      ∧ o.resp.body = .json (.error
          { Status := str "error"
            Error := str "checksum mismatch"
            ExpectedChecksum := str "dead"
            ActualChecksum :=
              str "e3b0c44298fc1c149afbf4c8996fb92427ae41e4649b934ca495991b7852b855" }) := by
  have hd : hexEncode (sha256 [])
      = str "e3b0c44298fc1c149afbf4c8996fb92427ae41e4649b934ca495991b7852b855" := by decide!
  have hx : (declaredChecksums
      [str " ba7816bf8f01cfea414140de5dae2223b00361a396177a9cb410ff61f20015ad",
       str " dead "]).getD 1 [] = str "dead" := by decide
  have key := (checksum_mismatch_answers_422 sampleEnv (newHandlerConfig (str "file") 4)
    (sampleUpload [sampleFile (str "a.txt") [str "abc"], sampleFile (str "b.txt") []]
      [str " ba7816bf8f01cfea414140de5dae2223b00361a396177a9cb410ff61f20015ad",
       str " dead "])
    { Value := fun k => if k = ChecksumFieldSHA256 then
        [str " ba7816bf8f01cfea414140de5dae2223b00361a396177a9cb410ff61f20015ad",
         str " dead "]
        else []
      File := fun k => if k = str "file" then
        [sampleFile (str "a.txt") [str "abc"], sampleFile (str "b.txt") []] else [] }
    1 (sampleFile (str "b.txt") []) []
    (by decide) rfl (by decide)
    (fun j hj => ⟨sampleFile (str "a.txt") [str "abc"], str "abc", by
      have hj0 : j = 0 := by omega
      subst hj0
      exact ⟨rfl, rfl, by decide!⟩⟩)
    rfl rfl (by decide!)).1
  rw [hd] at key
  exact hx ▸ key

/-! ## Count of the declared checksums (C3) -/

/-- C3, as stated, fails: a request with one value under `checksum_sha256` and two files
(the counts differ) is answered 201 when the value is blank. -/
theorem blank_checksum_value_escapes_count_check :
    ([str " "] : List GoString).length ≠
      [sampleFile (str "a.txt") [str "abc"], sampleFile (str "b.txt") []].length
    ∧ (handleUpload sampleEnv (newHandlerConfig (str "file") 4)
        (sampleUpload [sampleFile (str "a.txt") [str "abc"], sampleFile (str "b.txt") []]
          [str " "])).map (fun o => o.resp.statusCode) = some 201 := by
  decide!

/-- C3, amended. An admitted request whose form parses and whose `checksum_sha256` field
carries at least one value that is not blank after trimming, the number of such values
being different from the number of files, is answered 400, and no file is opened, hashed or
compared with a checksum; with at least one file the error is the count mismatch. -/
theorem checksum_count_mismatch_answers_400 (env : Env) (h : handlerConfig)
    (ctx : RequestCtx) (form : Form)
    (hslot : (tryAcquireUploadSlot h).ok = true)
    (hform : ctx.MultipartForm = .ok form)
    (hsome : 0 < (declaredChecksums (form.Value ChecksumFieldSHA256)).length)
    (hdiff : (declaredChecksums (form.Value ChecksumFieldSHA256)).length
      ≠ (form.File h.fileFieldName).length) :
    ∃ o, handleUpload env h ctx = some o
      ∧ o.resp.statusCode = 400
      ∧ o.trace = [.tryAcquire, .parseForm, .release]
      ∧ (form.File h.fileFieldName ≠ [] → o.resp.body = .json (.error
          { Status := str "error"
            Error := str "checksum count mismatch: got "
              ++ decimal (declaredChecksums (form.Value ChecksumFieldSHA256)).length
              ++ str " for " ++ decimal (form.File h.fileFieldName).length ++ str " file(s)" })) := by
  refine ⟨_, handleUpload_admitted env h ctx hslot, ?_⟩
  by_cases hz : (form.File h.fileFieldName).length = 0
  · have hnil : form.File h.fileFieldName = [] := List.length_eq_zero.mp hz
    simp [handleAdmitted, hform, hnil, writeJSONError, writeJSON, sonicMarshal]
  · have hne : form.File h.fileFieldName ≠ [] := fun hc => hz (by simp [hc])
    simp [handleAdmitted, hform, hz, hne, expectedChecksumsForRequest_eq, hsome, hdiff,
      writeJSONError, writeJSON, sonicMarshal]

/-- The witness of C3: two declared checksums for a batch of three files. -/
theorem checksum_count_mismatch_answers_400_witness :
    ∃ o, handleUpload sampleEnv (newHandlerConfig (str "file") 4)
        (sampleUpload
          [sampleFile (str "a") [str "abc"], sampleFile (str "b") [], sampleFile (str "c") []]
          [str "aa", str "bb"]) = some o
      ∧ o.resp.statusCode = 400
      ∧ o.trace = [.tryAcquire, .parseForm, .release]
      ∧ o.resp.body = .json (.error
          { Status := str "error"
            Error := str "checksum count mismatch: got 2 for 3 file(s)" }) := by
  obtain ⟨o, h1, h2, h3, h4⟩ := checksum_count_mismatch_answers_400 sampleEnv
    (newHandlerConfig (str "file") 4)
    (sampleUpload
      [sampleFile (str "a") [str "abc"], sampleFile (str "b") [], sampleFile (str "c") []]
      [str "aa", str "bb"])
    { Value := fun k => if k = ChecksumFieldSHA256 then [str "aa", str "bb"] else []
      File := fun k => if k = str "file" then
        [sampleFile (str "a") [str "abc"], sampleFile (str "b") [], sampleFile (str "c") []]
        else [] }
    (by decide) rfl (by decide) (by decide)
  refine ⟨o, h1, h2, h3, ?_⟩
  rw [h4 (List.cons_ne_nil (sampleFile (str "a") [str "abc"])
    [sampleFile (str "b") [], sampleFile (str "c") []])]
  decide

/-! ## The checksum of a successful request (C4) -/

theorem uploadLoop_error_status (env : Env) (n : Nat) (cs : List GoString) :
    ∀ (fs : List FileHeader) (idx : Nat) (st : LoopState) (resp : Response),
      (uploadLoop env n cs idx fs st).2 = .error resp →
      resp.statusCode = 400 ∨ resp.statusCode = 422 := by
  intro fs
  induction fs with
  | nil => intro idx st resp h; simp [uploadLoop] at h
  | cons fh rest ih =>
    intro idx st resp h
    cases hrec : fh.received with
    | none =>
      obtain ⟨r, hr, hs, _⟩ := uploadLoop_cons_not_received env n cs idx fh rest st hrec
      rw [hr] at h
      cases h
      exact Or.inl hs
    | some c =>
      rw [uploadLoop_cons_received env n cs idx fh rest st c hrec] at h
      split_ifs at h with h1 h2
      · simp only [Except.error.injEq] at h
        subst h
        exact Or.inr (by simp [writeJSON, sonicMarshal])
      · exact ih _ _ _ h
      · exact ih _ _ _ h

theorem uploadLoop_ok (env : Env) (n : Nat) (cs : List GoString) :
    ∀ (fs : List FileHeader) (idx : Nat) (st st1 : LoopState),
      (uploadLoop env n cs idx fs st).2 = .ok st1 →
      ∃ contents, fs.map FileHeader.received = contents.map some
        ∧ st1 = st.afterAll n (batchOf fs contents) := by
  intro fs
  induction fs with
  | nil =>
    intro idx st st1 h
    refine ⟨[], rfl, ?_⟩
    simp [uploadLoop] at h
    simp [batchOf, LoopState.afterAll, h]
  | cons fh rest ih =>
    intro idx st st1 h
    cases hrec : fh.received with
    | none =>
      obtain ⟨r, hr, _, _⟩ := uploadLoop_cons_not_received env n cs idx fh rest st hrec
      rw [hr] at h
      cases h
    | some c =>
      rw [uploadLoop_cons_received env n cs idx fh rest st c hrec] at h
      have hrest : (uploadLoop env n cs (idx + 1) rest (st.after n fh.Filename c)).2 = .ok st1 := by
        split_ifs at h with h1 h2 <;> exact h
      obtain ⟨contents, hc, hst⟩ := ih _ _ _ hrest
      refine ⟨c :: contents, by simp [hc, hrec], ?_⟩
      simp [batchOf, LoopState.afterAll] at hst ⊢
      exact hst

theorem afterAll_single (st : LoopState) (file : GoString × GoString) :
    (st.afterAll 1 [file]).actualChecksum = fileDigest file.2 := by
  simp [LoopState.afterAll, LoopState.after]

theorem afterAll_aggregate (n : Nat) (hn : n ≠ 1) :
    ∀ (batch : List (GoString × GoString)) (st : LoopState),
      (st.afterAll n batch).aggregateHasher
        = ⟨st.aggregateHasher.written ++ aggregateInput batch⟩ := by
  intro batch
  induction batch with
  | nil => intro st; simp [LoopState.afterAll, aggregateInput]
  | cons file rest ih =>
    intro st
    simp [LoopState.afterAll, ih, LoopState.after, hn, Hasher.Write, aggregateInput,
      List.append_assoc]

theorem afterAll_totalBytes (n : Nat) :
    ∀ (batch : List (GoString × GoString)) (st : LoopState),
      (st.afterAll n batch).totalBytes
        = st.totalBytes + (batch.map (fun file => file.2.length)).sum := by
  intro batch
  induction batch with
  | nil => intro st; simp [LoopState.afterAll]
  | cons file rest ih =>
    intro st
    rw [LoopState.afterAll, ih]
    by_cases hn : n = 1 <;> simp [LoopState.after, hn, Nat.add_assoc]

theorem handleAdmitted_201 (env : Env) (h : handlerConfig) (ctx : RequestCtx)
    (h201 : (handleAdmitted env h ctx).2.statusCode = 201) :
    ∃ form contents, ctx.MultipartForm = .ok form
      ∧ form.File h.fileFieldName ≠ []
      ∧ (form.File h.fileFieldName).map FileHeader.received = contents.map some
      ∧ (handleAdmitted env h ctx).2.body = .json (.success
          { Status := str "ok"
            Files := (form.File h.fileFieldName).length
            Size := env.Bytes
              ((batchOf (form.File h.fileFieldName) contents).map (fun f => f.2.length)).sum
            Duration := env.duration
            Speed := env.speed
              ((batchOf (form.File h.fileFieldName) contents).map (fun f => f.2.length)).sum
            SHA256 := batchChecksum (batchOf (form.File h.fileFieldName) contents) }) := by
  unfold handleAdmitted at h201 ⊢
  cases hform : ctx.MultipartForm with
  | error e => simp [hform, writeJSONError, writeJSON, sonicMarshal] at h201
  | ok form =>
    simp only [hform] at h201 ⊢
    by_cases hz : (form.File h.fileFieldName).length = 0
    · simp [hz, writeJSONError, writeJSON, sonicMarshal] at h201
    · simp only [hz, if_false] at h201 ⊢
      cases hsums : expectedChecksumsForRequest (form.Value ChecksumFieldSHA256)
          (form.File h.fileFieldName).length with
      | error e => simp [hsums, writeJSONError, writeJSON, sonicMarshal] at h201
      | ok cs =>
        simp only [hsums] at h201 ⊢
        cases hloop : uploadLoop env (form.File h.fileFieldName).length cs 0
            (form.File h.fileFieldName)
            { totalBytes := 0, actualChecksum := str "n/a", aggregateHasher := Hasher.New } with
        | mk tr out =>
          cases out with
          | error resp =>
            simp only [hloop] at h201
            have hs := uploadLoop_error_status env _ cs _ 0 _ resp (by rw [hloop])
            omega
          | ok st =>
            obtain ⟨contents, hc, hst⟩ := uploadLoop_ok env _ cs _ 0 _ st (by rw [hloop])
            have hne : form.File h.fileFieldName ≠ [] := fun hc => hz (by simp [hc])
            refine ⟨form, contents, rfl, hne, hc, ?_⟩
            have hlen : contents.length = (form.File h.fileFieldName).length := by
              have := congrArg List.length hc
              simpa using this.symm
            simp only [writeJSON, sonicMarshal]
            congr 3
            · rw [hst, afterAll_totalBytes]; simp
            · rw [hst, afterAll_totalBytes]; simp
            · by_cases h1 : (form.File h.fileFieldName).length > 1
              · simp only [h1, if_true]
                have hn1 : (form.File h.fileFieldName).length ≠ 1 := by omega
                rw [hst, afterAll_aggregate _ hn1]
                have hb : ∀ b : List (GoString × GoString), 1 < b.length →
                    batchChecksum b = aggregateDigest b := by
                  intro b hb
                  match b, hb with
                  | [], hb => simp at hb
                  | [_], hb => simp at hb
                  | _ :: _ :: _, _ => rfl
                rw [hb]
                · simp [Hasher.Sum, Hasher.New, aggregateDigest]
                · simp [batchOf, hlen]; omega
              · simp only [h1, if_false]
                have hn1 : (form.File h.fileFieldName).length = 1 := by omega
                obtain ⟨fh, hfh⟩ := List.length_eq_one.mp hn1
                obtain ⟨c, hcc⟩ := List.length_eq_one.mp (hlen.trans hn1)
                rw [hst, hn1, hfh, hcc]
                simp [batchOf, afterAll_single, batchChecksum]

/-- C4. Every request answered 201 had all its files received without error, and the
`sha256` field of the response is, for more than one file, the hex SHA-256 of the
concatenation, in the order of the files, of the lines `<filename>:<hex digest>\n`, and for
a single file the hex SHA-256 of its content. -/
theorem success_checksum_is_digest_or_aggregate (env : Env) (h : handlerConfig)
    (ctx : RequestCtx) (o : Outcome)
    (hrun : handleUpload env h ctx = some o) (h201 : o.resp.statusCode = 201) :
    ∃ form contents r, ctx.MultipartForm = .ok form
      ∧ (form.File h.fileFieldName).map FileHeader.received = contents.map some
      ∧ o.resp.body = .json (.success r)
      ∧ r.Files = (form.File h.fileFieldName).length
      ∧ (1 < (form.File h.fileFieldName).length →
          r.SHA256 = hexEncode (sha256
            (((batchOf (form.File h.fileFieldName) contents).map
              (fun file => file.1 ++ str ":" ++ hexEncode (sha256 file.2) ++ str "\n")).flatten)))
      ∧ (∀ c, contents = [c] → r.SHA256 = hexEncode (sha256 c)) := by
  have hok : (tryAcquireUploadSlot h).ok = true := by
    by_contra hno
    have hfalse : (tryAcquireUploadSlot h).ok = false := by simpa using hno
    rw [handleUpload_rejected env h ctx hfalse] at hrun
    simp only [Option.some.injEq] at hrun
    subst hrun
    simp [writeJSONError, writeJSON, sonicMarshal] at h201
  rw [handleUpload_admitted env h ctx hok] at hrun
  simp only [Option.some.injEq] at hrun
  subst hrun
  obtain ⟨form, contents, hform, hne, hc, hbody⟩ := handleAdmitted_201 env h ctx h201
  have hlen : contents.length = (form.File h.fileFieldName).length := by
    have := congrArg List.length hc
    simpa using this.symm
  refine ⟨form, contents, _, hform, hc, hbody, rfl, ?_, ?_⟩
  · intro h1
    have hb : (batchOf (form.File h.fileFieldName) contents).length
        = (form.File h.fileFieldName).length := by simp [batchOf, hlen]
    match hbo : batchOf (form.File h.fileFieldName) contents, hb with
    | [], hb => simp at hb; omega
    | [_], hb => simp at hb; omega
    | _ :: _ :: _, _ => rfl
  · intro c hcc
    subst hcc
    have h1 : (form.File h.fileFieldName).length = 1 := by simpa using hlen.symm
    obtain ⟨fh, hfh⟩ := List.length_eq_one.mp h1
    simp [hfh, batchOf, batchChecksum, fileDigest]

/-- The witness of C4: the sample two-file upload, answered 201 with the aggregate digest. -/
theorem success_checksum_is_digest_or_aggregate_witness :
    handleUpload sampleEnv (newHandlerConfig (str "file") 4)
        (sampleUpload [sampleFile (str "a.txt") [str "ab", str "c"], sampleFile (str "b") []] [])
      = some sampleBatchOutcome
    ∧ sampleBatchOutcome.resp.statusCode = 201
    ∧ ∃ form contents r,
        (sampleUpload [sampleFile (str "a.txt") [str "ab", str "c"], sampleFile (str "b") []]
          []).MultipartForm = .ok form
      ∧ (form.File (newHandlerConfig (str "file") 4).fileFieldName).map FileHeader.received
          = contents.map some
      ∧ sampleBatchOutcome.resp.body = .json (.success r)
      ∧ r.Files = (form.File (newHandlerConfig (str "file") 4).fileFieldName).length
      ∧ (1 < (form.File (newHandlerConfig (str "file") 4).fileFieldName).length →
          r.SHA256 = hexEncode (sha256
            (((batchOf (form.File (newHandlerConfig (str "file") 4).fileFieldName) contents).map
              (fun file => file.1 ++ str ":" ++ hexEncode (sha256 file.2) ++ str "\n")).flatten)))
      ∧ (∀ c, contents = [c] → r.SHA256 = hexEncode (sha256 c)) :=
  ⟨by decide!, by decide,
    success_checksum_is_digest_or_aggregate sampleEnv (newHandlerConfig (str "file") 4)
      (sampleUpload [sampleFile (str "a.txt") [str "ab", str "c"], sampleFile (str "b") []] [])
      sampleBatchOutcome (by decide!) (by decide)⟩

/-! ## The aggregate digest determines the batch (C5) -/

theorem hexDigit_toNat (n : Nat) (hn : n < 16) :
    (hexDigit n).toNat = if n < 10 then 48 + n else 87 + n := by
  interval_cases n <;> rfl

theorem hexDigit_inj (m n : Nat) (hm : m < 16) (hn : n < 16) (h : hexDigit m = hexDigit n) :
    m = n := by
  have h1 := congrArg UInt8.toNat h
  rw [hexDigit_toNat m hm, hexDigit_toNat n hn] at h1
  split_ifs at h1 <;> omega

theorem hexDigit_ne (n : Nat) (hn : n < 16) (x : UInt8) (hx : x.toNat = 10 ∨ x.toNat = 58) :
    hexDigit n ≠ x := by
  intro h
  have h1 := congrArg UInt8.toNat h
  rw [hexDigit_toNat n hn] at h1
  split_ifs at h1 <;> omega

theorem hexEncode_not_mem (x : UInt8) (hx : x.toNat = 10 ∨ x.toNat = 58) :
    ∀ s : GoString, x ∉ hexEncode s := by
  intro s
  induction s with
  | nil => simp [hexEncode]
  | cons b bs ih =>
    have hb := UInt8.toNat_lt b
    have h1 : b.toNat / 16 < 16 := by omega
    have h2 : b.toNat % 16 < 16 := by omega
    simp only [hexEncode, List.mem_cons, not_or]
    exact ⟨fun h => hexDigit_ne _ h1 x hx h.symm, fun h => hexDigit_ne _ h2 x hx h.symm, ih⟩

theorem hexEncode_injective : ∀ a b : GoString, hexEncode a = hexEncode b → a = b := by
  intro a
  induction a with
  | nil =>
    intro b h
    cases b with
    | nil => rfl
    | cons _ _ => simp [hexEncode] at h
  | cons x xs ih =>
    intro b h
    cases b with
    | nil => simp [hexEncode] at h
    | cons y ys =>
      simp only [hexEncode, List.cons.injEq] at h
      obtain ⟨h1, h2, h3⟩ := h
      have hx := UInt8.toNat_lt x
      have hy := UInt8.toNat_lt y
      have e1 := hexDigit_inj _ _ (by omega) (by omega) h1
      have e2 := hexDigit_inj _ _ (by omega) (by omega) h2
      have exy : x = y := UInt8.ext (by omega)
      rw [exy, ih ys h3]

theorem split_at_first (x : UInt8) :
    ∀ a1 a2 r1 r2 : GoString, x ∉ a1 → x ∉ a2 → a1 ++ x :: r1 = a2 ++ x :: r2 →
      a1 = a2 ∧ r1 = r2 := by
  intro a1
  induction a1 with
  | nil =>
    intro a2 r1 r2 _ h2 h
    cases a2 with
    | nil => simpa using h
    | cons y ys =>
      simp only [List.nil_append, List.cons_append, List.cons.injEq] at h
      exact absurd (by simp [h.1]) h2
  | cons z zs ih =>
    intro a2 r1 r2 h1 h2 h
    cases a2 with
    | nil =>
      simp only [List.nil_append, List.cons_append, List.cons.injEq] at h
      exact absurd (by simp [h.1]) h1
    | cons y ys =>
      simp only [List.cons_append, List.cons.injEq] at h
      simp only [List.mem_cons, not_or] at h1 h2
      obtain ⟨e1, e2⟩ := ih ys r1 r2 h1.2 h2.2 h.2
      exact ⟨by rw [h.1, e1], e2⟩

theorem split_at_last (x : UInt8) (a1 a2 r1 r2 : GoString) (h1 : x ∉ r1) (h2 : x ∉ r2)
    (h : a1 ++ x :: r1 = a2 ++ x :: r2) : a1 = a2 ∧ r1 = r2 := by
  have hr := congrArg List.reverse h
  simp only [List.reverse_append, List.reverse_cons, List.append_assoc, List.singleton_append]
    at hr
  obtain ⟨e1, e2⟩ := split_at_first x r1.reverse r2.reverse a1.reverse a2.reverse
    (by simpa using h1) (by simpa using h2) hr
  exact ⟨List.reverse_injective e2, List.reverse_injective e1⟩

theorem aggregateLine_eq (file : GoString × GoString) :
    aggregateLine file = (file.1 ++ (58 : UInt8) :: fileDigest file.2) ++ newline :: [] := by
  have h1 : str ":" = [58] := by decide
  have h2 : str "\n" = [newline] := by decide
  simp [aggregateLine, h1, h2]

theorem aggregateInput_cons (file : GoString × GoString) (rest : List (GoString × GoString)) :
    aggregateInput (file :: rest)
      = (file.1 ++ (58 : UInt8) :: fileDigest file.2) ++ newline :: aggregateInput rest := by
  simp [aggregateInput, aggregateLine_eq]

theorem aggregateInput_determines_batch :
    ∀ b1 b2 : List (GoString × GoString),
      (∀ file ∈ b1, newline ∉ file.1) → (∀ file ∈ b2, newline ∉ file.1) →
      (∀ x ∈ b1, ∀ y ∈ b2, sha256 x.2 = sha256 y.2 → x.2 = y.2) →
      aggregateInput b1 = aggregateInput b2 → b1 = b2 := by
  intro b1
  induction b1 with
  | nil =>
    intro b2 _ _ _ h
    cases b2 with
    | nil => rfl
    | cons f rest =>
      have hnil : aggregateInput [] = [] := rfl
      rw [aggregateInput_cons, hnil] at h
      simp at h
  | cons f1 rest1 ih =>
    intro b2 hn1 hn2 hcol h
    cases b2 with
    | nil =>
      have hnil : aggregateInput [] = [] := rfl
      rw [aggregateInput_cons, hnil] at h
      simp at h
    | cons f2 rest2 =>
      rw [aggregateInput_cons, aggregateInput_cons] at h
      have hnl : ∀ file : GoString × GoString, newline ∉ file.1 →
          newline ∉ file.1 ++ (58 : UInt8) :: fileDigest file.2 := by
        intro file hfile
        simp only [List.mem_append, List.mem_cons, not_or]
        exact ⟨hfile, by decide, hexEncode_not_mem newline (Or.inl rfl) _⟩
      obtain ⟨hline, hrest⟩ := split_at_first newline _ _ _ _
        (hnl f1 (hn1 f1 (by simp))) (hnl f2 (hn2 f2 (by simp))) h
      obtain ⟨hname, hdig⟩ := split_at_last 58 _ _ _ _
        (hexEncode_not_mem 58 (Or.inr rfl) _) (hexEncode_not_mem 58 (Or.inr rfl) _) hline
      have hsha := hexEncode_injective _ _ hdig
      have hcontent := hcol f1 (by simp) f2 (by simp) hsha
      have htail := ih rest2 (fun file hf => hn1 file (by simp [hf]))
        (fun file hf => hn2 file (by simp [hf]))
        (fun x hx y hy => hcol x (by simp [hx]) y (by simp [hy])) hrest
      rw [htail]
      congr 1
      exact Prod.ext hname hcontent

theorem processedBatch_checksum (env : Env) (h : handlerConfig) (ctx : RequestCtx)
    (batch : List (GoString × GoString)) (checksum : GoString)
    (hp : ProcessedBatch env h ctx batch checksum) : checksum = batchChecksum batch := by
  obtain ⟨hsc, form, contents, hform, hrec, hbatch⟩ := hp
  have hok : (tryAcquireUploadSlot h).ok = true := by
    by_contra hno
    have hfalse : (tryAcquireUploadSlot h).ok = false := by simpa using hno
    rw [handleUpload_rejected env h ctx hfalse] at hsc
    simp [statusAndChecksum, writeJSONError, writeJSON, sonicMarshal] at hsc
  rw [handleUpload_admitted env h ctx hok] at hsc
  have h201 : (handleAdmitted env h ctx).2.statusCode = 201 := by
    simp only [statusAndChecksum] at hsc
    split at hsc <;> simp at hsc <;> exact hsc.1
  obtain ⟨form1, contents1, hform1, _, hrec1, hbody⟩ := handleAdmitted_201 env h ctx h201
  rw [hform] at hform1
  cases hform1
  have hcont : contents1 = contents := by
    have := hrec1.symm.trans hrec
    exact List.map_injective_iff.mpr (Option.some_injective _) this
  subst hcont
  simp only [statusAndChecksum, hbody] at hsc
  simp only [Option.some.injEq, Prod.mk.injEq] at hsc
  rw [hbatch, ← hsc.2]

theorem batchChecksum_many (b : List (GoString × GoString)) (hb : 1 < b.length) :
    batchChecksum b = aggregateDigest b := by
  match b, hb with
  | [], hb => simp at hb
  | [_], hb => simp at hb
  | _ :: _ :: _, _ => rfl

/-- C5, as stated, fails: two batches of two empty files, whose names differ, have the same
aggregate digest, with no SHA-256 collision involved: a file name that contains a line feed
makes the hashed line sequences equal. -/
theorem aggregate_digest_collides_for_newline_names :
    ProcessedBatch sampleEnv (newHandlerConfig (str "file") 4)
      (sampleUpload
        [sampleFile (str "a") [],
         sampleFile
           (str "b:e3b0c44298fc1c149afbf4c8996fb92427ae41e4649b934ca495991b7852b855\nc") []] [])
      [(str "a", []),
       (str "b:e3b0c44298fc1c149afbf4c8996fb92427ae41e4649b934ca495991b7852b855\nc", [])]
      (str "c78c9b3c594090a217d20ff8a7d99c0799f637c218fc81f9841ed774aefef63b")
    ∧ ProcessedBatch sampleEnv (newHandlerConfig (str "file") 4)
      (sampleUpload
        [sampleFile
           (str "a:e3b0c44298fc1c149afbf4c8996fb92427ae41e4649b934ca495991b7852b855\nb") [],
         sampleFile (str "c") []] [])
      [(str "a:e3b0c44298fc1c149afbf4c8996fb92427ae41e4649b934ca495991b7852b855\nb", []),
       (str "c", [])]
      (str "c78c9b3c594090a217d20ff8a7d99c0799f637c218fc81f9841ed774aefef63b")
    ∧ ([(str "a", []),
        (str "b:e3b0c44298fc1c149afbf4c8996fb92427ae41e4649b934ca495991b7852b855\nc", [])] :
          List (GoString × GoString))
      ≠ [(str "a:e3b0c44298fc1c149afbf4c8996fb92427ae41e4649b934ca495991b7852b855\nb", []),
         (str "c", [])]
    ∧ CollisionFree
        [aggregateInput [(str "a", []),
           (str "b:e3b0c44298fc1c149afbf4c8996fb92427ae41e4649b934ca495991b7852b855\nc", [])],
         aggregateInput
           [(str "a:e3b0c44298fc1c149afbf4c8996fb92427ae41e4649b934ca495991b7852b855\nb", []),
            (str "c", [])],
         [], [], [], []] := by
  refine ⟨⟨by decide!, _, [[], []], rfl, rfl, by decide⟩,
    ⟨by decide!, _, [[], []], rfl, rfl, by decide⟩, by decide, ?_⟩
  have hin : aggregateInput [(str "a", []),
        (str "b:e3b0c44298fc1c149afbf4c8996fb92427ae41e4649b934ca495991b7852b855\nc", [])]
      = aggregateInput
        [(str "a:e3b0c44298fc1c149afbf4c8996fb92427ae41e4649b934ca495991b7852b855\nb", []),
         (str "c", [])] := by decide!
  rw [hin]
  intro x hx y hy hxy
  simp only [List.mem_cons, List.mem_singleton, List.not_mem_nil, or_false, or_self] at hx hy
  rcases hx with rfl | rfl | rfl <;> rcases hy with rfl | rfl | rfl <;>
    first | rfl | (exact absurd hxy (by decide!))

/-- C5, amended. For two successfully processed requests of more than one file each, none
of whose file names contains a line feed: the `sha256` field of each is the aggregate digest
of its ordered list of (file name, content) pairs and of nothing else, and, when no two
different inputs hashed for the two requests (the contents and the two line sequences) have
the same SHA-256, batches that differ in a name, a content or the order have different
`sha256` fields. -/
theorem aggregate_digest_determines_batch (env1 env2 : Env) (h1 h2 : handlerConfig)
    (ctx1 ctx2 : RequestCtx) (b1 b2 : List (GoString × GoString)) (d1 d2 : GoString)
    (hp1 : ProcessedBatch env1 h1 ctx1 b1 d1) (hp2 : ProcessedBatch env2 h2 ctx2 b2 d2)
    (hm1 : 1 < b1.length) (hm2 : 1 < b2.length)
    (hnl1 : ∀ file ∈ b1, newline ∉ file.1) (hnl2 : ∀ file ∈ b2, newline ∉ file.1)
    (hcol : CollisionFree
      (aggregateInput b1 :: aggregateInput b2 :: (b1 ++ b2).map (fun file => file.2))) :
    d1 = aggregateDigest b1 ∧ d2 = aggregateDigest b2 ∧ (b1 ≠ b2 → d1 ≠ d2) := by
  have e1 : d1 = aggregateDigest b1 := by
    rw [processedBatch_checksum env1 h1 ctx1 b1 d1 hp1, batchChecksum_many b1 hm1]
  have e2 : d2 = aggregateDigest b2 := by
    rw [processedBatch_checksum env2 h2 ctx2 b2 d2 hp2, batchChecksum_many b2 hm2]
  refine ⟨e1, e2, ?_⟩
  intro hne heq
  apply hne
  rw [e1, e2] at heq
  have hsha := hexEncode_injective _ _ heq
  have hin : aggregateInput b1 = aggregateInput b2 :=
    hcol _ (by simp) _ (by simp) hsha
  refine aggregateInput_determines_batch b1 b2 hnl1 hnl2 ?_ hin
  intro x hx y hy hxy
  refine hcol x.2 ?_ y.2 ?_ hxy
  · simp only [List.mem_cons, List.mem_map, List.mem_append]
    exact Or.inr (Or.inr ⟨x, Or.inl hx, rfl⟩)
  · simp only [List.mem_cons, List.mem_map, List.mem_append]
    exact Or.inr (Or.inr ⟨y, Or.inr hy, rfl⟩)

/-- The witness of C5: the files `a.txt` (content `"abc"`) and `b` (empty) uploaded in the
two possible orders give different `sha256` fields. -/
theorem aggregate_digest_determines_batch_witness :
    ProcessedBatch sampleEnv (newHandlerConfig (str "file") 4)
      (sampleUpload [sampleFile (str "a.txt") [str "abc"], sampleFile (str "b") []] [])
      [(str "a.txt", str "abc"), (str "b", [])]
      (str "6ed108cf210f83e7affbb46b5e4783cddaee4ca666d6f21e0f07c43918e1a805")
    ∧ ProcessedBatch sampleEnv (newHandlerConfig (str "file") 4)
      (sampleUpload [sampleFile (str "b") [], sampleFile (str "a.txt") [str "abc"]] [])
      [(str "b", []), (str "a.txt", str "abc")]
      (str "2d3efdc5f457606f49ccb6571c2bf0e540c9e1b9a19e8d909c722bae6f54b6ad")
    ∧ str "6ed108cf210f83e7affbb46b5e4783cddaee4ca666d6f21e0f07c43918e1a805"
        = aggregateDigest [(str "a.txt", str "abc"), (str "b", [])]
    ∧ str "2d3efdc5f457606f49ccb6571c2bf0e540c9e1b9a19e8d909c722bae6f54b6ad"
        = aggregateDigest [(str "b", []), (str "a.txt", str "abc")]
    ∧ (([(str "a.txt", str "abc"), (str "b", [])] : List (GoString × GoString))
          ≠ [(str "b", []), (str "a.txt", str "abc")] →
        str "6ed108cf210f83e7affbb46b5e4783cddaee4ca666d6f21e0f07c43918e1a805"
          ≠ str "2d3efdc5f457606f49ccb6571c2bf0e540c9e1b9a19e8d909c722bae6f54b6ad") := by
  have hp1 : ProcessedBatch sampleEnv (newHandlerConfig (str "file") 4)
      (sampleUpload [sampleFile (str "a.txt") [str "abc"], sampleFile (str "b") []] [])
      [(str "a.txt", str "abc"), (str "b", [])]
      (str "6ed108cf210f83e7affbb46b5e4783cddaee4ca666d6f21e0f07c43918e1a805") :=
    ⟨by decide!, _, [str "abc", []], rfl, rfl, by decide⟩
  have hp2 : ProcessedBatch sampleEnv (newHandlerConfig (str "file") 4)
      (sampleUpload [sampleFile (str "b") [], sampleFile (str "a.txt") [str "abc"]] [])
      [(str "b", []), (str "a.txt", str "abc")]
      (str "2d3efdc5f457606f49ccb6571c2bf0e540c9e1b9a19e8d909c722bae6f54b6ad") :=
    ⟨by decide!, _, [[], str "abc"], rfl, rfl, by decide⟩
  exact ⟨hp1, hp2,
    aggregate_digest_determines_batch sampleEnv sampleEnv (newHandlerConfig (str "file") 4)
      (newHandlerConfig (str "file") 4) _ _ _ _ _ _ hp1 hp2 (by decide) (by decide)
      (by decide) (by decide) (by unfold CollisionFree; decide!)⟩

/-! ## The admission pool (C6) -/

/-- C6. On the handler built by `newHandlerConfig` with capacity `k`, the pool holding `c`
permits, `tryAcquireUploadSlot` (a total function: it never waits) succeeds exactly when
`k ≤ 0` or `c < k`. When `0 < k` and `c < k` the pool then holds `c + 1` permits and the
returned release function brings it back to `c`; when `k ≤ 0` the release function changes
nothing; when `0 < k` and `c ≥ k` no release function is returned and the pool is unchanged. -/
theorem tryAcquireUploadSlot_succeeds_iff_room (name : GoString) (k : Int) (c : Nat) :
    ((tryAcquireUploadSlot ((newHandlerConfig name k).holding c)).ok = true
        ↔ (k ≤ 0 ∨ (c : Int) < k))
    ∧ (0 < k → (c : Int) < k →
        (tryAcquireUploadSlot ((newHandlerConfig name k).holding c)).cfg
          = (newHandlerConfig name k).holding (c + 1)
        ∧ ((newHandlerConfig name k).holding (c + 1)).held = c + 1
        ∧ ∃ rel, (tryAcquireUploadSlot ((newHandlerConfig name k).holding c)).release = some rel
            ∧ rel ((newHandlerConfig name k).holding (c + 1))
                = some ((newHandlerConfig name k).holding c)
            ∧ ((newHandlerConfig name k).holding c).held = c)
    ∧ (k ≤ 0 →
        (tryAcquireUploadSlot ((newHandlerConfig name k).holding c)).cfg
          = (newHandlerConfig name k).holding c
        ∧ ∃ rel, (tryAcquireUploadSlot ((newHandlerConfig name k).holding c)).release = some rel
            ∧ rel ((newHandlerConfig name k).holding c)
                = some ((newHandlerConfig name k).holding c))
    ∧ (0 < k → ¬ (c : Int) < k →
        (tryAcquireUploadSlot ((newHandlerConfig name k).holding c)).release = none
        ∧ (tryAcquireUploadSlot ((newHandlerConfig name k).holding c)).cfg
            = (newHandlerConfig name k).holding c) := by
  by_cases hk : 0 < k
  · have hlt : c < k.toNat ↔ (c : Int) < k := Int.lt_toNat
    have hcfg : newHandlerConfig name k
        = { fileFieldName := name, uploadSlots := some (Chan.make k.toNat) } := by
      simp [newHandlerConfig, hk]
    rw [hcfg]
    by_cases hc : (c : Int) < k
    · have hc1 : c < k.toNat := hlt.mpr hc
      refine ⟨?_, ?_, ?_, ?_⟩
      · simp [handlerConfig.holding, tryAcquireUploadSlot, Chan.send, Chan.make, hc1, hc]
      · intro _ _
        refine ⟨?_, ?_, releaseSlot, ?_, ?_, ?_⟩ <;>
          simp [handlerConfig.holding, tryAcquireUploadSlot, Chan.send, Chan.make, hc1,
            handlerConfig.held, releaseSlot, Chan.recv]
      · intro hk0; omega
      · intro _ hno; exact absurd hc hno
    · have hc1 : ¬ c < k.toNat := fun h => hc (hlt.mp h)
      refine ⟨?_, ?_, ?_, ?_⟩
      · have hk0 : ¬ k ≤ 0 := by omega
        simp [handlerConfig.holding, tryAcquireUploadSlot, Chan.send, Chan.make, hc1, hc, hk0]
      · intro _ h; exact absurd h hc
      · intro hk0; omega
      · intro _ _
        simp [handlerConfig.holding, tryAcquireUploadSlot, Chan.send, Chan.make, hc1]
  · have hk0 : k ≤ 0 := by omega
    have hcfg : newHandlerConfig name k = { fileFieldName := name, uploadSlots := none } := by
      simp [newHandlerConfig, hk]
    rw [hcfg]
    refine ⟨?_, ?_, ?_, ?_⟩
    · simp [handlerConfig.holding, tryAcquireUploadSlot, hk0]
    · intro h; exact absurd h hk
    · intro _
      exact ⟨rfl, releaseNothing, rfl, rfl⟩
    · intro h; exact absurd h hk

/-- An instance of C6: capacity 2 with one permit held, then with both held. -/
theorem tryAcquireUploadSlot_succeeds_iff_room_witness :
    (tryAcquireUploadSlot ((newHandlerConfig (str "file") 2).holding 1)).cfg
      = (newHandlerConfig (str "file") 2).holding 2
    ∧ (tryAcquireUploadSlot ((newHandlerConfig (str "file") 2).holding 2)).release = none :=
  ⟨((tryAcquireUploadSlot_succeeds_iff_room (str "file") 2 1).2.1 (by decide) (by decide)).1,
   ((tryAcquireUploadSlot_succeeds_iff_room (str "file") 2 2).2.2.2 (by decide)
      (by decide)).1⟩

/-! ## The concurrency bound (C7) -/

theorem length_filter_ne_of_nodup (id : Nat) :
    ∀ l : List (Nat × Release), (l.map (fun p => p.1)).Nodup → (∃ p ∈ l, p.1 = id) →
      (l.filter (fun q => q.1 ≠ id)).length + 1 = l.length := by
  intro l
  induction l with
  | nil => intro _ h; obtain ⟨p, hp, _⟩ := h; simp at hp
  | cons q rest ih =>
    intro hnd hex
    simp only [List.map_cons, List.nodup_cons] at hnd
    by_cases hq : q.1 = id
    · have hnone : ∀ r ∈ rest, r.1 ≠ id := by
        intro r hr hrid
        exact hnd.1 (List.mem_map.mpr ⟨r, hr, by rw [hrid, hq]⟩)
      simp [List.filter_cons, hq]
      exact fun a b hab => hnone (a, b) hab
    · have hex1 : ∃ p ∈ rest, p.1 = id := by
        obtain ⟨p, hp, hpid⟩ := hex
        rcases List.mem_cons.mp hp with rfl | hp1
        · exact absurd hpid hq
        · exact ⟨p, hp1, hpid⟩
      have := ih hnd.2 hex1
      simp [List.filter_cons, hq]
      simpa using this

theorem serverInv_start (name : GoString) (k : Nat) (hk : 0 < k) :
    ServerInv k (serverStart name k) := by
  have hk1 : (0 : Int) < (k : Int) := by exact_mod_cast hk
  refine ⟨⟨Chan.make k, ?_, rfl, rfl⟩, Nat.zero_le _, by simp [serverStart], by simp [serverStart]⟩
  simp [serverStart, newHandlerConfig, hk1]

theorem serverInv_step (k : Nat) (s s1 : ServerState) (e : ServerEvent)
    (hinv : ServerInv k s) (hstep : serverStep s e = some s1) : ServerInv k s1 := by
  obtain ⟨⟨c, hc, hcap, hlen⟩, hle, hnd, hrel⟩ := hinv
  cases e with
  | arrive id =>
    simp only [serverStep] at hstep
    split_ifs at hstep with hany hok
    · simp only [Option.some.injEq] at hstep
      subst hstep
      have := (tryAcquire_fail s.cfg hok).1
      exact ⟨⟨c, by simp [this, hc], hcap, hlen⟩, hle, hnd, hrel⟩
    · by_cases hroom : c.len < c.cap
      · have hacq : tryAcquireUploadSlot s.cfg
            = { cfg := { s.cfg with uploadSlots := some { c with len := c.len + 1 } }
                release := some releaseSlot, ok := true } := by
          simp [tryAcquireUploadSlot, hc, Chan.send, hroom]
        simp only [hacq, Option.some.injEq] at hstep
        subst hstep
        refine ⟨⟨{ c with len := c.len + 1 }, rfl, hcap, by simp [hlen]⟩, ?_, ?_, ?_⟩
        · simp only [List.length_cons]; omega
        · simp only [List.map_cons, List.nodup_cons]
          refine ⟨?_, hnd⟩
          intro hmem
          obtain ⟨p, hp, hpid⟩ := List.mem_map.mp hmem
          exact hany (List.any_eq_true.mpr ⟨p, hp, by simpa using hpid⟩)
        · intro p hp
          rcases List.mem_cons.mp hp with rfl | hp1
          · rfl
          · exact hrel p hp1
      · have : (tryAcquireUploadSlot s.cfg).ok = false := by
          simp [tryAcquireUploadSlot, hc, Chan.send, hroom]
        exact absurd this hok
  | leave id =>
    simp only [serverStep] at hstep
    split at hstep
    · simp at hstep
    · next p hfind =>
      have hp : p ∈ s.admitted := List.mem_of_find?_eq_some hfind
      have hpid : p.1 = id := by simpa using List.find?_some hfind
      have hpos : 0 < c.len := by
        rw [hlen]
        exact List.length_pos_of_mem hp
      have hrun : p.2 s.cfg = some { s.cfg with uploadSlots := some { c with len := c.len - 1 } } := by
        rw [hrel p hp]
        simp [releaseSlot, hc, Chan.recv, hpos]
      simp only [hrun, Option.some.injEq] at hstep
      subst hstep
      have hcount := length_filter_ne_of_nodup id s.admitted hnd ⟨p, hp, hpid⟩
      refine ⟨⟨{ c with len := c.len - 1 }, rfl, hcap, ?_⟩, ?_, ?_, ?_⟩
      · simp only; omega
      · simp only; omega
      · exact (List.Nodup.sublist ((List.filter_sublist _).map _) hnd)
      · intro q hq
        exact hrel q (List.mem_of_mem_filter hq)

theorem serverInv_run (k : Nat) :
    ∀ (events : List ServerEvent) (s s1 : ServerState),
      ServerInv k s → serverRun s events = some s1 → ServerInv k s1 := by
  intro events
  induction events with
  | nil =>
    intro s s1 hinv hrun
    simp only [serverRun, Option.some.injEq] at hrun
    exact hrun ▸ hinv
  | cons e es ih =>
    intro s s1 hinv hrun
    simp only [serverRun] at hrun
    split at hrun
    · simp at hrun
    · next s2 hs2 => exact ih s2 s1 (serverInv_step k s s2 e hinv hs2) hrun

theorem count_uploading_set (phases : List Phase) (idx : Nat) (old new : Phase)
    (h : phases[idx]? = some old) :
    (phases.set idx new).count .uploading + (if old = .uploading then 1 else 0)
      = phases.count .uploading + (if new = .uploading then 1 else 0) := by
  obtain ⟨hi, hget⟩ := List.getElem?_eq_some_iff.mp h
  have hpos : old = .uploading → 0 < phases.count .uploading := by
    intro ho
    apply List.count_pos_iff.mpr
    rw [← ho, ← hget]
    exact List.getElem_mem hi
  rw [List.count_set _ _ _ _ hi, hget]
  generalize phases.count Phase.uploading = n at hpos ⊢
  clear hget h hi
  cases old <;> cases new <;> simp at hpos ⊢
  all_goals omega

theorem clientInv_start (cfg : AppConfig) (done : Bool) :
    ClientInv cfg.MaxConcurrent (handleStart cfg done) := by
  refine ⟨rfl, ?_, ?_⟩ <;>
    simp [handleStart, HandleState.uploading, Chan.make, List.count_replicate]

theorem clientInv_step (quote : GoString → GoString) (cfg : AppConfig) (k : Nat)
    (s s1 : HandleState) (e : ClientEvent)
    (hinv : ClientInv k s) (hstep : clientStep quote cfg s e = some s1) : ClientInv k s1 := by
  obtain ⟨hcap, hlen, hle⟩ := hinv
  unfold HandleState.uploading at hlen hle
  cases e with
  | acquire idx =>
    simp only [clientStep] at hstep
    split_ifs at hstep with hph
    have hc := count_uploading_set s.phases idx .waiting .uploading hph
    simp only [Chan.send] at hstep
    split_ifs at hstep with hroom
    simp only [Option.some.injEq] at hstep
    subst hstep
    simp only [ClientInv, HandleState.uploading]
    simp at hc
    refine ⟨hcap, ?_, ?_⟩ <;> omega
  | giveUp idx =>
    simp only [clientStep] at hstep
    split_ifs at hstep with hph
    have hc := count_uploading_set s.phases idx .waiting .returned hph.1
    simp only [Option.some.injEq] at hstep
    subst hstep
    simp only [ClientInv, HandleState.uploading]
    simp at hc
    refine ⟨hcap, ?_, ?_⟩ <;> omega
  | uploaded idx resp =>
    simp only [clientStep] at hstep
    split_ifs at hstep with hph
    have hc := count_uploading_set s.phases idx .uploading .returned hph
    simp only [Chan.recv] at hstep
    split_ifs at hstep with hpos
    simp only [Option.some.injEq] at hstep
    subst hstep
    simp only [ClientInv, HandleState.uploading]
    simp at hc
    refine ⟨hcap, ?_, ?_⟩ <;> omega
  | failed idx err =>
    simp only [clientStep] at hstep
    split_ifs at hstep with hph
    have hc := count_uploading_set s.phases idx .uploading .returned hph
    simp only [Chan.recv] at hstep
    split_ifs at hstep with hpos
    simp at hc
    cases hfe : s.firstErr with
    | none =>
      simp only [hfe, Option.some.injEq] at hstep
      subst hstep
      simp only [ClientInv, HandleState.uploading]
      refine ⟨hcap, ?_, ?_⟩ <;> omega
    | some e0 =>
      simp only [hfe, Option.some.injEq] at hstep
      subst hstep
      simp only [ClientInv, HandleState.uploading]
      refine ⟨hcap, ?_, ?_⟩ <;> omega
  | parentDone =>
    simp only [clientStep, Option.some.injEq] at hstep
    subst hstep
    exact ⟨hcap, hlen, hle⟩

theorem clientInv_run (quote : GoString → GoString) (cfg : AppConfig) (k : Nat) :
    ∀ (events : List ClientEvent) (s s1 : HandleState),
      ClientInv k s → clientRun quote cfg s events = some s1 → ClientInv k s1 := by
  intro events
  induction events with
  | nil =>
    intro s s1 hinv hrun
    simp only [clientRun, Option.some.injEq] at hrun
    exact hrun ▸ hinv
  | cons e es ih =>
    intro s s1 hinv hrun
    simp only [clientRun] at hrun
    split at hrun
    · simp at hrun
    · next s2 hs2 => exact ih s2 s1 (clientInv_step quote cfg k s s2 e hinv hs2) hrun

/-- C7. With maximum concurrency `k > 0`, in every state reached from the start by any
sequence of acquire attempts and releases of permits acquired before, at most `k` uploads
are admitted: on the server, where the admitted requests are those that took a permit with
`tryAcquireUploadSlot` and have not returned, and on the client, where they are the
goroutines of `Handle` that sent on `sem` and have not received from it yet. On both sides
the channel buffers exactly one element per admitted upload. -/
theorem admitted_uploads_never_exceed_capacity (k : Nat) (hk : 0 < k) :
    (∀ (name : GoString) (events : List ServerEvent) (s : ServerState),
        serverRun (serverStart name k) events = some s →
        s.admitted.length ≤ k ∧ s.cfg.held = s.admitted.length)
    ∧ (∀ (quote : GoString → GoString) (cfg : AppConfig) (done : Bool)
        (events : List ClientEvent) (s : HandleState),
        cfg.MaxConcurrent = k →
        clientRun quote cfg (handleStart cfg done) events = some s →
        s.uploading ≤ k ∧ s.sem.len = s.uploading) := by
  constructor
  · intro name events s hrun
    obtain ⟨⟨c, hc, _, hlen⟩, hle, _, _⟩ :=
      serverInv_run k events _ s (serverInv_start name k hk) hrun
    exact ⟨hle, by simp [handlerConfig.held, hc, hlen]⟩
  · intro quote cfg done events s hmax hrun
    obtain ⟨_, hlen, hle⟩ :=
      clientInv_run quote cfg k events _ s (hmax ▸ clientInv_start cfg done) hrun
    exact ⟨hle, hlen⟩

/-- The witness of C7, with `k = 2`: on the server four requests arrive and one returns, on
the client three goroutines compete for two permits; two uploads are admitted. -/
theorem admitted_uploads_never_exceed_capacity_witness :
    serverRun (serverStart (str "file") 2)
        [.arrive 0, .arrive 1, .arrive 2, .leave 0, .arrive 3] = some sampleServerState
    ∧ sampleServerState.admitted.length ≤ 2
    ∧ sampleServerState.cfg.held = sampleServerState.admitted.length
    ∧ clientStep sampleEnv.quote sampleAppConfig
        { sampleHandleState with phases := [.uploading, .uploading, .waiting]
                                 responses := [none, none, none] } (.acquire 2) = none
    ∧ clientRun sampleEnv.quote sampleAppConfig (handleStart sampleAppConfig false)
        [.acquire 2, .acquire 0, .uploaded 2 { StatusCode := 201, Body := [] }, .acquire 1]
        = some sampleHandleState
    ∧ sampleHandleState.uploading ≤ 2
    ∧ sampleHandleState.sem.len = sampleHandleState.uploading :=
  ⟨rfl,
   ((admitted_uploads_never_exceed_capacity 2 (by decide)).1 (str "file")
      [.arrive 0, .arrive 1, .arrive 2, .leave 0, .arrive 3] sampleServerState rfl).1,
   ((admitted_uploads_never_exceed_capacity 2 (by decide)).1 (str "file")
      [.arrive 0, .arrive 1, .arrive 2, .leave 0, .arrive 3] sampleServerState rfl).2,
   by decide,
   by decide,
   ((admitted_uploads_never_exceed_capacity 2 (by decide)).2 sampleEnv.quote sampleAppConfig
      false [.acquire 2, .acquire 0, .uploaded 2 { StatusCode := 201, Body := [] }, .acquire 1]
      sampleHandleState rfl (by decide)).1,
   ((admitted_uploads_never_exceed_capacity 2 (by decide)).2 sampleEnv.quote sampleAppConfig
      false [.acquire 2, .acquire 0, .uploaded 2 { StatusCode := 201, Body := [] }, .acquire 1]
      sampleHandleState rfl (by decide)).2⟩

/-! ## Permits are given back on every exit (C8) -/

theorem uploadLoop_trace (env : Env) (n : Nat) (cs : List GoString) :
    ∀ (fs : List FileHeader) (idx : Nat) (st : LoopState),
      ∀ e ∈ (uploadLoop env n cs idx fs st).1,
        e ≠ .tryAcquire ∧ e ≠ .release ∧ e ≠ .parseForm := by
  intro fs
  induction fs with
  | nil => intro idx st e he; simp [uploadLoop] at he
  | cons fh rest ih =>
    intro idx st e he
    cases hrec : fh.received with
    | none =>
      obtain ⟨_, _, _, hsub⟩ := uploadLoop_cons_not_received env n cs idx fh rest st hrec
      have := hsub he
      simp only [List.mem_cons, List.mem_singleton, List.not_mem_nil, or_false] at this
      rcases this with rfl | rfl <;> simp
    | some c =>
      rw [uploadLoop_cons_received env n cs idx fh rest st c hrec] at he
      split_ifs at he with h1 h2
      · simp only [List.mem_cons, List.mem_singleton, List.not_mem_nil, or_false] at he
        rcases he with rfl | rfl | rfl <;> simp
      · simp only [List.mem_append, List.mem_cons, List.mem_singleton, List.not_mem_nil,
          or_false] at he
        rcases he with (rfl | rfl | rfl) | he
        · simp
        · simp
        · simp
        · exact ih _ _ e he
      · simp only [List.mem_append, List.mem_cons, List.mem_singleton, List.not_mem_nil,
          or_false] at he
        rcases he with (rfl | rfl) | he
        · simp
        · simp
        · exact ih _ _ e he

theorem handleAdmitted_cases (env : Env) (h : handlerConfig) (ctx : RequestCtx) :
    (∃ resp, handleAdmitted env h ctx = ([.parseForm], resp) ∧ resp.statusCode = 400)
    ∨ ∃ form cs, ctx.MultipartForm = .ok form
        ∧ ((∃ resp, (uploadLoop env (form.File h.fileFieldName).length cs 0
              (form.File h.fileFieldName)
              { totalBytes := 0, actualChecksum := str "n/a", aggregateHasher := Hasher.New }).2
                = .error resp
            ∧ (handleAdmitted env h ctx).2 = resp)
          ∨ (handleAdmitted env h ctx).2.statusCode = 201)
        ∧ (handleAdmitted env h ctx).1 = .parseForm ::
            (uploadLoop env (form.File h.fileFieldName).length cs 0 (form.File h.fileFieldName)
              { totalBytes := 0, actualChecksum := str "n/a", aggregateHasher := Hasher.New }).1 := by
  unfold handleAdmitted
  cases hform : ctx.MultipartForm with
  | error e => exact Or.inl ⟨_, rfl, by simp [writeJSONError, writeJSON, sonicMarshal]⟩
  | ok form =>
    simp only []
    by_cases hz : (form.File h.fileFieldName).length = 0
    · simp only [hz, if_true]
      exact Or.inl ⟨_, rfl, by simp [writeJSONError, writeJSON, sonicMarshal]⟩
    · simp only [hz, if_false]
      cases hsums : expectedChecksumsForRequest (form.Value ChecksumFieldSHA256)
          (form.File h.fileFieldName).length with
      | error e => exact Or.inl ⟨_, rfl, by simp [writeJSONError, writeJSON, sonicMarshal]⟩
      | ok cs =>
        simp only []
        refine Or.inr ⟨form, cs, rfl, ?_⟩
        cases hloop : uploadLoop env (form.File h.fileFieldName).length cs 0
            (form.File h.fileFieldName)
            { totalBytes := 0, actualChecksum := str "n/a", aggregateHasher := Hasher.New } with
        | mk tr out =>
          cases out with
          | error resp => exact ⟨Or.inl ⟨resp, rfl, rfl⟩, rfl⟩
          | ok st => exact ⟨Or.inr (by simp [writeJSON, sonicMarshal]), rfl⟩

theorem handleAdmitted_trace (env : Env) (h : handlerConfig) (ctx : RequestCtx) :
    ∀ e ∈ (handleAdmitted env h ctx).1, e ≠ .tryAcquire ∧ e ≠ .release := by
  intro e he
  rcases handleAdmitted_cases env h ctx with ⟨resp, hr, _⟩ | ⟨form, cs, _, _, htr⟩
  · rw [hr] at he
    simp at he
    subst he
    simp
  · rw [htr] at he
    rcases List.mem_cons.mp he with rfl | he1
    · simp
    · have := uploadLoop_trace env _ cs _ 0 _ e he1
      exact ⟨this.1, this.2.1⟩

theorem handleAdmitted_status (env : Env) (h : handlerConfig) (ctx : RequestCtx) :
    (handleAdmitted env h ctx).2.statusCode ∈ [201, 400, 422] := by
  rcases handleAdmitted_cases env h ctx with ⟨resp, hr, hs⟩ | ⟨form, cs, _, hres, _⟩
  · rw [hr]; simp [hs]
  · rcases hres with ⟨resp, hloop, hresp⟩ | h201
    · have := uploadLoop_error_status env _ cs _ 0 _ resp hloop
      rw [hresp]
      simp only [List.mem_cons, List.mem_singleton, List.not_mem_nil, or_false]
      omega
    · simp [h201]

/-- C8. Every call of `handleUpload` returns, whatever the request and the state of the
pool, and on return the pool is exactly as before the call (the same number of permits is
held). The call makes one acquire attempt; a rejected request (503) runs no release, and an
admitted one runs its release exactly once, as its last step, whichever way it ends (201,
400, 422; the two 500 exits of the source need `sonic.Marshal` or a write to a hash to
fail, which neither does). -/
theorem handleUpload_gives_permit_back (env : Env) (h : handlerConfig) (ctx : RequestCtx) :
    ∃ o, handleUpload env h ctx = some o
      ∧ o.cfg = h
      ∧ o.cfg.held = h.held
      ∧ o.trace.count .tryAcquire = 1
      ∧ o.trace.count .release = (if (tryAcquireUploadSlot h).ok then 1 else 0)
      ∧ (if (tryAcquireUploadSlot h).ok then
          o.trace.getLast? = some .release ∧ o.resp.statusCode ∈ [201, 400, 422]
         else o.resp.statusCode = 503) := by
  cases hok : (tryAcquireUploadSlot h).ok with
  | false =>
    refine ⟨_, handleUpload_rejected env h ctx hok, rfl, rfl, ?_, ?_, ?_⟩ <;>
      simp [writeJSONError, writeJSON, sonicMarshal]
  | true =>
    have htr := handleAdmitted_trace env h ctx
    have h1 : (handleAdmitted env h ctx).1.count .tryAcquire = 0 :=
      List.count_eq_zero.mpr (fun hm => (htr _ hm).1 rfl)
    have h2 : (handleAdmitted env h ctx).1.count .release = 0 :=
      List.count_eq_zero.mpr (fun hm => (htr _ hm).2 rfl)
    refine ⟨_, handleUpload_admitted env h ctx hok, rfl, rfl, ?_, ?_, ?_⟩
    · simp [List.count_cons, List.count_append, h1]
    · simp [List.count_cons, List.count_append, h2]
    · simp only [if_true]
      refine ⟨?_, handleAdmitted_status env h ctx⟩
      rw [List.getLast?_append]
      simp

/-! ## Rejection when the pool is full (C9) -/

/-- C9. When every permit of the pool is held, `handleUpload` answers 503 with the error
envelope `too many concurrent uploads`, whatever the request contains; its only step is the
acquire attempt (the form is not parsed, no file is opened or hashed) and the pool is
unchanged. The router gives the same answer to `POST /upload`. -/
theorem full_pool_answers_503 (env : Env) (h : handlerConfig) (ctx : RequestCtx) (c : Chan)
    (hslots : h.uploadSlots = some c) (hfull : c.cap ≤ c.len) :
    handleUpload env h ctx = some
      { cfg := h
        resp :=
          { statusCode := 503
            contentType := str "application/json; charset=utf-8"
            body := .json (.error
              { Status := str "error", Error := str "too many concurrent uploads" }) }
        trace := [.tryAcquire] }
    ∧ (ctx.method = str "POST" → ctx.path = str "/upload" →
        handler env h ctx = handleUpload env h ctx) := by
  have hok : (tryAcquireUploadSlot h).ok = false := by
    have : ¬ c.len < c.cap := by omega
    simp [tryAcquireUploadSlot, hslots, Chan.send, this]
  refine ⟨?_, ?_⟩
  · rw [handleUpload_rejected env h ctx hok]
    simp [writeJSONError, writeJSON, sonicMarshal]
  · intro hm hp
    have hget : ctx.IsGet = false := by
      simp only [RequestCtx.IsGet, hm]
      decide
    simp [handler, hget, RequestCtx.IsPost, hm, hp]

/-- The witness of C9: capacity 1 with the permit held, and a well-formed upload. -/
theorem full_pool_answers_503_witness :
    handleUpload sampleEnv ((newHandlerConfig (str "file") 1).holding 1)
        (sampleUpload [sampleFile (str "a.txt") [str "abc"]] []) = some
      { cfg := (newHandlerConfig (str "file") 1).holding 1
        resp :=
          { statusCode := 503
            contentType := str "application/json; charset=utf-8"
            body := .json (.error
              { Status := str "error", Error := str "too many concurrent uploads" }) }
        trace := [.tryAcquire] }
    ∧ handler sampleEnv ((newHandlerConfig (str "file") 1).holding 1)
        (sampleUpload [sampleFile (str "a.txt") [str "abc"]] [])
      = handleUpload sampleEnv ((newHandlerConfig (str "file") 1).holding 1)
        (sampleUpload [sampleFile (str "a.txt") [str "abc"]] []) :=
  ⟨(full_pool_answers_503 sampleEnv ((newHandlerConfig (str "file") 1).holding 1)
      (sampleUpload [sampleFile (str "a.txt") [str "abc"]] []) { cap := 1, len := 1 } rfl
      (by decide)).1,
   (full_pool_answers_503 sampleEnv ((newHandlerConfig (str "file") 1).holding 1)
      (sampleUpload [sampleFile (str "a.txt") [str "abc"]] []) { cap := 1, len := 1 } rfl
      (by decide)).2 rfl rfl⟩

/-! ## Routing (C10) -/

theorem handleUpload_status (env : Env) (h : handlerConfig) (ctx : RequestCtx) :
    ∃ o, handleUpload env h ctx = some o ∧ o.resp.statusCode ∈ [201, 400, 422, 503]
      ∧ Effect.tryAcquire ∈ o.trace := by
  cases hok : (tryAcquireUploadSlot h).ok with
  | false =>
    exact ⟨_, handleUpload_rejected env h ctx hok,
      by simp [writeJSONError, writeJSON, sonicMarshal], by simp⟩
  | true =>
    refine ⟨_, handleUpload_admitted env h ctx hok, ?_, by simp⟩
    have := handleAdmitted_status env h ctx
    simp only [List.mem_cons, List.mem_singleton, List.not_mem_nil, or_false] at this ⊢
    omega

/-- C10. The router answers 200 with the body `ok` to `GET /healthz` and leaves the pool
untouched, whatever its state; it runs `handleUpload` on `POST /upload`; it answers 404 with
the error envelope `not found` in every other case. A 200 answer is given exactly to
`GET /healthz`, and the upload handler runs (an acquire attempt is made) exactly for
`POST /upload`. -/
theorem handler_routes (env : Env) (h : handlerConfig) (ctx : RequestCtx) :
    (ctx.method = str "GET" ∧ ctx.path = str "/healthz" →
      handler env h ctx = some
        { cfg := h
          resp :=
            { statusCode := 200
              contentType := str "text/plain; charset=utf-8"
              body := .raw (str "ok") }
          trace := [] })
    ∧ (ctx.method = str "POST" ∧ ctx.path = str "/upload" →
      handler env h ctx = handleUpload env h ctx)
    ∧ (¬ (ctx.method = str "GET" ∧ ctx.path = str "/healthz") →
       ¬ (ctx.method = str "POST" ∧ ctx.path = str "/upload") →
      handler env h ctx = some
        { cfg := h
          resp :=
            { statusCode := 404
              contentType := str "application/json; charset=utf-8"
              body := .json (.error { Status := str "error", Error := str "not found" }) }
          trace := [] })
    ∧ ((∃ o, handler env h ctx = some o ∧ o.resp.statusCode = 200)
        ↔ (ctx.method = str "GET" ∧ ctx.path = str "/healthz"))
    ∧ ((∃ o, handler env h ctx = some o ∧ Effect.tryAcquire ∈ o.trace)
        ↔ (ctx.method = str "POST" ∧ ctx.path = str "/upload")) := by
  have hgp : str "GET" ≠ str "POST" := by decide
  have hhu : str "/healthz" ≠ str "/upload" := by decide
  by_cases hg : ctx.method = str "GET" ∧ ctx.path = str "/healthz"
  · have hrun : handler env h ctx = some
        { cfg := h
          resp :=
            { statusCode := 200
              contentType := str "text/plain; charset=utf-8"
              body := .raw (str "ok") }
          trace := [] } := by
      simp [handler, RequestCtx.IsGet, hg.1, hg.2, Response.fresh]
    have hnp : ¬ (ctx.method = str "POST" ∧ ctx.path = str "/upload") := by
      intro hp
      exact hgp (hg.1.symm.trans hp.1)
    refine ⟨fun _ => hrun, fun hp => absurd hp hnp, fun hn => absurd hg hn, ?_, ?_⟩
    · exact ⟨fun _ => hg, fun _ => ⟨_, hrun, rfl⟩⟩
    · refine ⟨fun ⟨o, ho, hmem⟩ => ?_, fun hp => absurd hp hnp⟩
      rw [hrun] at ho
      simp only [Option.some.injEq] at ho
      subst ho
      simp at hmem
  · have hget : ¬ (ctx.IsGet = true ∧ ctx.path = str "/healthz") := by
      simpa [RequestCtx.IsGet] using hg
    by_cases hp : ctx.method = str "POST" ∧ ctx.path = str "/upload"
    · have hrun : handler env h ctx = handleUpload env h ctx := by
        unfold handler
        rw [if_neg hget, if_pos]
        simp [RequestCtx.IsPost, hp.1, hp.2]
      obtain ⟨o, ho, hst, hmem⟩ := handleUpload_status env h ctx
      refine ⟨fun hg1 => absurd hg1 hg, fun _ => hrun, fun _ hn => absurd hp hn, ?_, ?_⟩
      · refine ⟨fun ⟨o1, ho1, h200⟩ => ?_, fun hg1 => absurd hg1 hg⟩
        rw [hrun, ho] at ho1
        simp only [Option.some.injEq] at ho1
        subst ho1
        simp only [List.mem_cons, List.mem_singleton, List.not_mem_nil, or_false] at hst
        omega
      · exact ⟨fun _ => hp, fun _ => ⟨o, hrun.trans ho, hmem⟩⟩
    · have hpost : ¬ (ctx.IsPost = true ∧ ctx.path = str "/upload") := by
        simpa [RequestCtx.IsPost] using hp
      have hrun : handler env h ctx = some
          { cfg := h
            resp :=
              { statusCode := 404
                contentType := str "application/json; charset=utf-8"
                body := .json (.error { Status := str "error", Error := str "not found" }) }
            trace := [] } := by
        unfold handler
        rw [if_neg hget, if_neg hpost]
        simp [writeJSONError, writeJSON, sonicMarshal]
      refine ⟨fun hg1 => absurd hg1 hg, fun hp1 => absurd hp1 hp, fun _ _ => hrun, ?_, ?_⟩
      · refine ⟨fun ⟨o1, ho1, h200⟩ => ?_, fun hg1 => absurd hg1 hg⟩
        rw [hrun] at ho1
        simp only [Option.some.injEq] at ho1
        subst ho1
        simp at h200
      · refine ⟨fun ⟨o1, ho1, hmem⟩ => ?_, fun hp1 => absurd hp1 hp⟩
        rw [hrun] at ho1
        simp only [Option.some.injEq] at ho1
        subst ho1
        simp at hmem

/-- Instances of C10: `GET /healthz` with a full pool, `POST /healthz` and `GET /upload`. -/
theorem handler_routes_witness :
    handler sampleEnv ((newHandlerConfig (str "file") 1).holding 1)
        (sampleRequest (str "GET") (str "/healthz")) = some
      { cfg := (newHandlerConfig (str "file") 1).holding 1
        resp :=
          { statusCode := 200
            contentType := str "text/plain; charset=utf-8"
            body := .raw (str "ok") }
        trace := [] }
    ∧ handler sampleEnv (newHandlerConfig (str "file") 1)
        (sampleRequest (str "POST") (str "/healthz")) = some
      { cfg := newHandlerConfig (str "file") 1
        resp :=
          { statusCode := 404
            contentType := str "application/json; charset=utf-8"
            body := .json (.error { Status := str "error", Error := str "not found" }) }
        trace := [] }
    ∧ handler sampleEnv (newHandlerConfig (str "file") 1)
        (sampleRequest (str "GET") (str "/upload")) = some
      { cfg := newHandlerConfig (str "file") 1
        resp :=
          { statusCode := 404
            contentType := str "application/json; charset=utf-8"
            body := .json (.error { Status := str "error", Error := str "not found" }) }
        trace := [] } :=
  ⟨(handler_routes sampleEnv ((newHandlerConfig (str "file") 1).holding 1)
      (sampleRequest (str "GET") (str "/healthz"))).1 ⟨rfl, rfl⟩,
   (handler_routes sampleEnv (newHandlerConfig (str "file") 1)
      (sampleRequest (str "POST") (str "/healthz"))).2.2.1 (by decide) (by decide),
   (handler_routes sampleEnv (newHandlerConfig (str "file") 1)
      (sampleRequest (str "GET") (str "/upload"))).2.2.1 (by decide) (by decide)⟩

/-! ## Blank checksum values (C17) -/

theorem uploadLoop_no_checksums (env : Env) (n : Nat) :
    ∀ (fs : List FileHeader) (contents : List GoString) (idx : Nat) (st : LoopState),
      fs.map FileHeader.received = contents.map some →
      uploadLoop env n [] idx fs st
        = (readTrace idx fs.length, .ok (st.afterAll n (batchOf fs contents))) := by
  intro fs
  induction fs with
  | nil =>
    intro contents idx st _
    simp [uploadLoop, readTrace, batchOf, LoopState.afterAll]
  | cons fh rest ih =>
    intro contents idx st hrec
    cases contents with
    | nil => simp at hrec
    | cons c cs =>
      simp only [List.map_cons, List.cons.injEq] at hrec
      rw [uploadLoop_cons_received env n [] idx fh rest st c hrec.1, ih cs (idx + 1) _ hrec.2]
      simp only [List.length_nil, gt_iff_lt, Nat.lt_irrefl, if_false]
      rfl

theorem not_mem_readTrace (i : Nat) : ∀ (count idx : Nat), Effect.compare i ∉ readTrace idx count := by
  intro count
  induction count with
  | zero => intro idx; simp [readTrace]
  | succ k ih => intro idx; simp [readTrace, ih]

theorem declaredChecksums_skip_blank (pre post : List GoString) (b : GoString)
    (hb : TrimSpace b = []) :
    declaredChecksums (pre ++ b :: post) = declaredChecksums (pre ++ post) := by
  simp [declaredChecksums, List.filter_cons, hb]

/-- C17. `expectedChecksumsForRequest` gives, in their original order, the trimmed values
of the checksum field that are not empty after trimming, and fails exactly when that list
is not empty and its length differs from the file count; a value that is blank is skipped:
with or without it the result is the same, so it neither counts nor keeps an index. An
admitted request all of whose checksum values are blank, with every file received, is
answered 201 with the checksum of the batch, and no file is compared with a checksum. -/
theorem blank_checksum_values_declare_nothing (values : List GoString) (fileCount : Nat)
    (env : Env) (h : handlerConfig) (ctx : RequestCtx) (form : Form)
    (contents : List GoString)
    (hslot : (tryAcquireUploadSlot h).ok = true)
    (hform : ctx.MultipartForm = .ok form)
    (hfiles : form.File h.fileFieldName ≠ [])
    (hrec : (form.File h.fileFieldName).map FileHeader.received = contents.map some)
    (hblank : ∀ v ∈ form.Value ChecksumFieldSHA256, TrimSpace v = []) :
    (expectedChecksumsForRequest values fileCount =
      if (values.map TrimSpace).filter (fun c => c ≠ []) ≠ []
          ∧ ((values.map TrimSpace).filter (fun c => c ≠ [])).length ≠ fileCount
      then .error (str "checksum count mismatch: got "
        ++ decimal ((values.map TrimSpace).filter (fun c => c ≠ [])).length ++ str " for "
        ++ decimal fileCount ++ str " file(s)")
      else .ok ((values.map TrimSpace).filter (fun c => c ≠ [])))
    ∧ (∀ (pre post : List GoString) (b : GoString), TrimSpace b = [] →
        expectedChecksumsForRequest (pre ++ b :: post) fileCount
          = expectedChecksumsForRequest (pre ++ post) fileCount)
    ∧ ∃ o, handleUpload env h ctx = some o
        ∧ o.resp.statusCode = 201
        ∧ (∀ i, Effect.compare i ∉ o.trace)
        ∧ ∃ r, o.resp.body = .json (.success r)
            ∧ r.SHA256 = batchChecksum (batchOf (form.File h.fileFieldName) contents) := by
  refine ⟨?_, ?_, ?_⟩
  · rw [expectedChecksumsForRequest_eq]
    simp only [declaredChecksums, List.length_pos, ne_eq]
  · intro pre post b hb
    rw [expectedChecksumsForRequest_eq, expectedChecksumsForRequest_eq,
      declaredChecksums_skip_blank pre post b hb]
  · have hnone : declaredChecksums (form.Value ChecksumFieldSHA256) = [] := by
      simp only [declaredChecksums, List.filter_eq_nil_iff, List.mem_map]
      rintro c ⟨v, hv, rfl⟩
      simp [hblank v hv]
    have hsums : expectedChecksumsForRequest (form.Value ChecksumFieldSHA256)
        (form.File h.fileFieldName).length = .ok [] := by
      rw [expectedChecksumsForRequest_eq, hnone]
      simp
    have hz : (form.File h.fileFieldName).length ≠ 0 := by
      intro hl
      exact hfiles (List.length_eq_zero.mp hl)
    have hloop := uploadLoop_no_checksums env (form.File h.fileFieldName).length
      (form.File h.fileFieldName) contents 0
      { totalBytes := 0, actualChecksum := str "n/a", aggregateHasher := Hasher.New } hrec
    have htrace : (handleAdmitted env h ctx).1
        = .parseForm :: readTrace 0 (form.File h.fileFieldName).length := by
      unfold handleAdmitted
      simp only [hform, hz, if_false, hsums, hloop]
    have h201 : (handleAdmitted env h ctx).2.statusCode = 201 := by
      unfold handleAdmitted
      simp only [hform, hz, if_false, hsums, hloop]
      simp [writeJSON, sonicMarshal]
    obtain ⟨form1, contents1, hform1, _, hrec1, hbody⟩ := handleAdmitted_201 env h ctx h201
    rw [hform] at hform1
    cases hform1
    have hcont : contents1 = contents :=
      List.map_injective_iff.mpr (Option.some_injective _) (hrec1.symm.trans hrec)
    subst hcont
    refine ⟨_, handleUpload_admitted env h ctx hslot, h201, ?_, _, hbody, rfl⟩
    intro i hmem
    simp only [htrace, List.cons_append, List.mem_cons, List.mem_append, List.mem_singleton,
      reduceCtorEq, false_or, or_false] at hmem
    rcases hmem with hmem | hmem
    · exact not_mem_readTrace i _ _ hmem
    · simp at hmem

/-- The witness of C17: one file with the two blank checksum values `"  "` and `"\t"`. -/
theorem blank_checksum_values_declare_nothing_witness :
    expectedChecksumsForRequest [str " ", str "aa", str "\t\n", str " bb "] 2
      = .ok [str "aa", str "bb"]
    ∧ ∃ o, handleUpload sampleEnv (newHandlerConfig (str "file") 4)
          (sampleUpload [sampleFile (str "a.txt") [str "abc"]] [str "  ", str "\t"]) = some o
        ∧ o.resp.statusCode = 201
        ∧ (∀ i, Effect.compare i ∉ o.trace)
        ∧ ∃ r, o.resp.body = .json (.success r)
            ∧ r.SHA256 = batchChecksum [(str "a.txt", str "abc")] := by
  have key := blank_checksum_values_declare_nothing
    [str " ", str "aa", str "\t\n", str " bb "] 2 sampleEnv (newHandlerConfig (str "file") 4)
    (sampleUpload [sampleFile (str "a.txt") [str "abc"]] [str "  ", str "\t"])
    { Value := fun k => if k = ChecksumFieldSHA256 then [str "  ", str "\t"] else []
      File := fun k => if k = str "file" then [sampleFile (str "a.txt") [str "abc"]] else [] }
    [str "abc"] (by decide) rfl
    (List.cons_ne_nil (sampleFile (str "a.txt") [str "abc"]) []) rfl (by decide)
  exact ⟨key.1.trans rfl, key.2.2⟩

/-! ## Rendering of sizes (C16) -/

theorem excessBits_spec (n : Nat) :
    ∀ (fuel s : Nat), (s = 0 ∨ 2 ^ (52 + s) ≤ n) → n < 2 ^ (53 + s + fuel) →
      n < 2 ^ (53 + excessBits n fuel s)
        ∧ (excessBits n fuel s = 0 ∨ 2 ^ (52 + excessBits n fuel s) ≤ n) := by
  intro fuel
  induction fuel with
  | zero =>
    intro s hs hlt
    simpa [excessBits] using ⟨hlt, hs⟩
  | succ k ih =>
    intro s hs hlt
    simp only [excessBits]
    split_ifs with h
    · exact ⟨h, hs⟩
    · apply ih (s + 1)
      · right
        have : 52 + (s + 1) = 53 + s := by omega
        rw [this]
        omega
      · have : 53 + (s + 1) + k = 53 + s + (k + 1) := by omega
        rw [this]
        exact hlt

theorem excessBits_bounds (n : Nat) :
    n < 2 ^ (53 + excessBits n n 0)
      ∧ (excessBits n n 0 = 0 ∨ 2 ^ (52 + excessBits n n 0) ≤ n) := by
  apply excessBits_spec n n 0 (Or.inl rfl)
  calc n < 2 ^ n := Nat.lt_two_pow n
    _ ≤ 2 ^ (53 + 0 + n) := Nat.pow_le_pow_right (by decide) (by omega)

theorem roundTo53_of_lt (n : Nat) (h : n < 2 ^ 53) : roundTo53 n = n := by
  have hz : excessBits n n 0 = 0 := by
    rcases (excessBits_bounds n).2 with h0 | hge
    · exact h0
    · by_contra hne
      have h1 : 2 ^ 53 ≤ 2 ^ (52 + excessBits n n 0) :=
        Nat.pow_le_pow_right (by decide) (by omega)
      omega
  simp [roundTo53, hz]

theorem roundTo53_ge (n : Nat) (h : 2 ^ 53 ≤ n) : 2 ^ 53 ≤ roundTo53 n := by
  obtain ⟨hlt, hb⟩ := excessBits_bounds n
  by_cases hz : excessBits n n 0 = 0
  · simp only [roundTo53, hz, if_true]
    exact h
  · have hge : 2 ^ (52 + excessBits n n 0) ≤ n := by
      rcases hb with h0 | hge
      · exact absurd h0 hz
      · exact hge
    simp only [roundTo53, hz, if_false]
    generalize excessBits n n 0 = s at *
    have hq : 2 ^ 52 ≤ n / 2 ^ s := by
      rw [Nat.le_div_iff_mul_le (Nat.two_pow_pos s)]
      rw [← Nat.pow_add]
      exact hge
    have hs1 : 2 ≤ 2 ^ s := by
      calc 2 = 2 ^ 1 := rfl
        _ ≤ 2 ^ s := Nat.pow_le_pow_right (by decide) (by omega)
    have hmono : n / 2 ^ s * 2 ^ s
        ≤ (if 2 ^ (s - 1) < n % 2 ^ s ∨ n % 2 ^ s = 2 ^ (s - 1) ∧ n / 2 ^ s % 2 = 1
            then n / 2 ^ s + 1 else n / 2 ^ s) * 2 ^ s := by
      apply Nat.mul_le_mul_right
      split_ifs <;> omega
    calc 2 ^ 53 = 2 ^ 52 * 2 := by norm_num
      _ ≤ n / 2 ^ s * 2 ^ s := Nat.mul_le_mul hq hs1
      _ ≤ _ := hmono

theorem roundTo53_threshold (n t : Nat) (ht : t ≤ 2 ^ 53) : t ≤ roundTo53 n ↔ t ≤ n := by
  by_cases h : n < 2 ^ 53
  · rw [roundTo53_of_lt n h]
  · have h1 : 2 ^ 53 ≤ n := by omega
    have h2 := roundTo53_ge n h1
    constructor <;> intro _ <;> omega

theorem bytesLoop_step (fuel : Nat) (v : Float64) (idx : Int)
    (h : v.ge1024 = true) (hidx : idx < 4) :
    format.bytesLoop (fuel + 1) v idx = format.bytesLoop fuel v.div1024 (idx + 1) := by
  have hlen : ((format.units.length : Int) - 1) = 4 := by decide
  rw [format.bytesLoop, hlen, if_pos ⟨h, hidx⟩]

theorem bytesLoop_stop (fuel : Nat) (v : Float64) (idx : Int)
    (h : ¬ (v.ge1024 = true ∧ idx < 4)) :
    format.bytesLoop fuel v idx = some (v, idx) := by
  have hlen : ((format.units.length : Int) - 1) = 4 := by decide
  cases fuel with
  | zero => rw [format.bytesLoop, hlen, if_neg h]
  | succ k => rw [format.bytesLoop, hlen, if_neg h]

theorem bytesLoop_run (F : Nat) :
    ∀ (j fuel : Nat), (∀ k, k < j → 1024 * 2 ^ (10 * k) ≤ F) → j ≤ 5 →
      format.bytesLoop (fuel + j) { num := F, exp2 := 0 } (-1)
        = format.bytesLoop fuel { num := F, exp2 := 10 * j } ((j : Int) - 1) := by
  intro j
  induction j with
  | zero => intro fuel _ _; rfl
  | succ j ih =>
    intro fuel hge hj
    have e : fuel + (j + 1) = (fuel + 1) + j := by omega
    rw [e, ih (fuel + 1) (fun k hk => hge k (by omega)) (by omega)]
    rw [bytesLoop_step fuel _ _ (by simpa [Float64.ge1024] using hge j (by omega)) (by omega)]
    have e2 : ((j : Int) - 1 + 1) = ((j + 1 : Nat) : Int) - 1 := by push_cast; ring
    rw [e2]
    rfl

theorem bytesLoop_exits (size : Nat) (i : Nat) (hi : i ≤ 4)
    (hle : 1024 ^ (i + 1) ≤ size) (hmax : i < 4 → size < 1024 ^ (i + 2)) :
    format.bytesLoop 5 (Float64.ofNat size) (-1)
      = some ({ num := roundTo53 size, exp2 := 10 * (i + 1) }, (i : Int)) := by
  have hpow : ∀ k, 1024 * 2 ^ (10 * k) = 1024 ^ (k + 1) := by
    intro k
    have : (1024 : Nat) = 2 ^ 10 := by norm_num
    rw [this, ← Nat.pow_mul, ← Nat.pow_add]
    congr 1
    ring
  have hth : ∀ k, k ≤ 4 → (1024 * 2 ^ (10 * k) ≤ roundTo53 size ↔ 1024 ^ (k + 1) ≤ size) := by
    intro k hk
    rw [hpow k]
    apply roundTo53_threshold
    calc 1024 ^ (k + 1) ≤ 1024 ^ 5 := Nat.pow_le_pow_right (by decide) (by omega)
      _ ≤ 2 ^ 53 := by norm_num
  have hrun := bytesLoop_run (roundTo53 size) (i + 1) (4 - i) (by
      intro k hk
      rw [hth k (by omega)]
      calc 1024 ^ (k + 1) ≤ 1024 ^ (i + 1) := Nat.pow_le_pow_right (by decide) (by omega)
        _ ≤ size := hle) (by omega)
  have e5 : 4 - i + (i + 1) = 5 := by omega
  rw [e5] at hrun
  rw [Float64.ofNat, hrun, bytesLoop_stop]
  · congr 2
    push_cast
    ring
  · rintro ⟨hge, hidx⟩
    have hi4 : i < 4 := by
      have : ((i + 1 : Nat) : Int) - 1 < 4 := hidx
      omega
    have h1 : 1024 * 2 ^ (10 * (i + 1)) ≤ roundTo53 size := by
      simpa [Float64.ge1024] using hge
    rw [hth (i + 1) (by omega)] at h1
    exact Nat.lt_irrefl _ (Nat.lt_of_le_of_lt h1 (hmax hi4))

theorem unitIndex_spec (size : Int) (hs : 1024 ≤ size) :
    format.unitIndex size ≤ 4
    ∧ (1024 : Int) ^ (format.unitIndex size + 1) ≤ size
    ∧ ∀ j, j ≤ 4 → (1024 : Int) ^ (j + 1) ≤ size → j ≤ format.unitIndex size := by
  have e : format.unitIndex size =
      if (1024 : Int) ^ 5 ≤ size then 4 else if (1024 : Int) ^ 4 ≤ size then 3
      else if (1024 : Int) ^ 3 ≤ size then 2 else if (1024 : Int) ^ 2 ≤ size then 1 else 0 := by
    simp only [format.unitIndex, List.range, List.range.loop, List.foldl]
    split_ifs <;> rfl
  rw [e]
  refine ⟨by split_ifs <;> omega, by split_ifs <;> simp_all, ?_⟩
  intro j hj hle
  interval_cases j <;> split_ifs <;> simp_all

theorem format_Bytes_ge (size : Int) (hs : 1024 ≤ size) :
    ∃ unit, format.units[format.unitIndex size]? = some unit
      ∧ format.Bytes size = some (twoDecimals (roundTo53 size.toNat)
          (1024 ^ (format.unitIndex size + 1)) ++ str " " ++ unit) := by
  obtain ⟨hi, hle, hmax⟩ := unitIndex_spec size hs
  have hcast : ((size.toNat : Nat) : Int) = size := Int.toNat_of_nonneg (by omega)
  have hle1 : 1024 ^ (format.unitIndex size + 1) ≤ size.toNat := by
    have : ((1024 ^ (format.unitIndex size + 1) : Nat) : Int) ≤ ((size.toNat : Nat) : Int) := by
      rw [hcast]; exact_mod_cast hle
    exact_mod_cast this
  have hmax1 : format.unitIndex size < 4 → size.toNat < 1024 ^ (format.unitIndex size + 2) := by
    intro h4
    by_contra hc
    have h1 : 1024 ^ (format.unitIndex size + 1 + 1) ≤ size.toNat := Nat.le_of_not_lt hc
    have h2 : (1024 : Int) ^ (format.unitIndex size + 1 + 1) ≤ size := by
      have : ((1024 ^ (format.unitIndex size + 1 + 1) : Nat) : Int) ≤ ((size.toNat : Nat) : Int) := by
        exact_mod_cast h1
      rw [hcast] at this
      exact_mod_cast this
    have := hmax (format.unitIndex size + 1) (by omega) h2
    omega
  have hloop := bytesLoop_exits size.toNat (format.unitIndex size) hi hle1 hmax1
  have hunit : ∃ unit, format.units[format.unitIndex size]? = some unit := by
    have hlt : format.unitIndex size < format.units.length := by
      have : format.units.length = 5 := rfl
      omega
    exact ⟨_, List.getElem?_eq_getElem hlt⟩
  obtain ⟨unit, hu⟩ := hunit
  refine ⟨unit, hu, ?_⟩
  have hpow : (2 : Nat) ^ (10 * (format.unitIndex size + 1))
      = 1024 ^ (format.unitIndex size + 1) := by
    have : (1024 : Nat) = 2 ^ 10 := by norm_num
    rw [this, ← Nat.pow_mul]
  have hneg : ¬ size < 1024 := by omega
  have hidx : ¬ ((format.unitIndex size : Nat) : Int) < 0 := by omega
  rw [format.Bytes, if_neg hneg, hloop]
  simp only [hidx, if_false, Int.toNat_ofNat, hu, Float64.format2, hpow]

/-- C16, as stated, fails: for the `int64` size `2 ^ 53 + 2 ^ 47 + 1` the quotient
`size / 1024 ^ 5` is a little more than 8.125, `8.13` with two decimals, and `format.Bytes`
renders `8.12 PiB`, as `float64(size)` is `2 ^ 53 + 2 ^ 47`, whose quotient is the tie
8.125. -/
theorem format_Bytes_rounds_large_sizes :
    (9147936743096321 : Int) = 2 ^ 53 + 2 ^ 47 + 1
    ∧ (9147936743096321 : Int) ≤ 2 ^ 63 - 1
    ∧ format.Bytes 9147936743096321 = some (str "8.12 PiB")
    ∧ format.specBytes 9147936743096321 = str "8.13 PiB" := by
  decide!

/-- C16, amended. `format.Bytes` returns a string for every integer size (the index into
`units` is always within `0..4`). A size below 1024 is the decimal integer followed by
`" B"`. A size of at least 1024 is `float64(size) / 1024 ^ (i + 1)` with two decimals
followed by `units[i]`, where `i` is the largest index in `0..4` with
`1024 ^ (i + 1) ≤ size`. For sizes below `2 ^ 53` the conversion `float64(size)` is exact,
and the text is the one the specification describes: `size / 1024 ^ (i + 1)` with two
decimals. -/
theorem format_Bytes_renders (size : Int) :
    (size < 1024 → format.Bytes size = some (decimalInt size ++ str " B"))
    ∧ (1024 ≤ size →
        format.unitIndex size ≤ 4
        ∧ (1024 : Int) ^ (format.unitIndex size + 1) ≤ size
        ∧ (∀ j, j ≤ 4 → (1024 : Int) ^ (j + 1) ≤ size → j ≤ format.unitIndex size)
        ∧ ∃ unit, format.units[format.unitIndex size]? = some unit
            ∧ format.Bytes size = some (twoDecimals (roundTo53 size.toNat)
                (1024 ^ (format.unitIndex size + 1)) ++ str " " ++ unit))
    ∧ (size < 2 ^ 53 → roundTo53 size.toNat = size.toNat)
    ∧ (size < 2 ^ 53 → format.Bytes size = some (format.specBytes size)) := by
  have hround : size < 2 ^ 53 → roundTo53 size.toNat = size.toNat := by
    intro h
    apply roundTo53_of_lt
    have : ((size.toNat : Nat) : Int) < ((2 ^ 53 : Nat) : Int) := by
      rcases le_or_lt 0 size with h0 | h0
      · rw [Int.toNat_of_nonneg h0]; exact_mod_cast h
      · rw [Int.toNat_eq_zero.mpr (le_of_lt h0)]; norm_num
    exact_mod_cast this
  refine ⟨?_, ?_, hround, ?_⟩
  · intro h
    rw [format.Bytes, if_pos h]
  · intro hs
    obtain ⟨hi, hle, hmax⟩ := unitIndex_spec size hs
    exact ⟨hi, hle, hmax, format_Bytes_ge size hs⟩
  · intro h53
    by_cases h : size < 1024
    · rw [format.Bytes, if_pos h, format.specBytes, if_pos h]
    · obtain ⟨unit, hu, hb⟩ := format_Bytes_ge size (by omega)
      rw [hb, format.specBytes, if_neg h, hround h53]
      have : format.units.getD (format.unitIndex size) [] = unit := by
        rw [List.getD_eq_getElem?_getD, hu]; rfl
      rw [this]


/-- Instances of C16: the sizes of the tests of the package. -/
theorem format_Bytes_renders_witness :
    format.Bytes 999 = some (str "999 B")
    ∧ format.Bytes 1024 = some (str "1.00 KiB")
    ∧ format.Bytes (5 * 1024 * 1024) = some (str "5.00 MiB")
    ∧ format.Bytes (1536 * 1024 * 1024) = some (str "1.50 GiB") :=
  ⟨((format_Bytes_renders 999).1 (by decide)).trans (by decide!),
   ((format_Bytes_renders 1024).2.2.2 (by decide)).trans (by decide!),
   ((format_Bytes_renders (5 * 1024 * 1024)).2.2.2 (by decide)).trans (by decide!),
   ((format_Bytes_renders (1536 * 1024 * 1024)).2.2.2 (by decide)).trans (by decide!)⟩

/-! ## Validation of an upload request (C12) -/

/-- C12. `validateUploadRequest` checks, in this order, that the URL is not empty, that the
file path is not empty, that `os.Stat` succeeds on the path and that the path is not a
directory; the error of the last two checks carries the quoted path. It fails exactly when
one of the checks fails. Otherwise it returns the URL and the path unchanged, and as name
the `FileName` of the request when that is not empty, the base name of the path when it
is. -/
theorem validateUploadRequest_spec (quote : GoString → GoString) (fs : FileSystem)
    (uploadReq : UploadRequest) :
    (uploadReq.URL = [] →
      validateUploadRequest quote fs uploadReq = .error (str "url is required"))
    ∧ (uploadReq.URL ≠ [] → uploadReq.FilePath = [] →
      validateUploadRequest quote fs uploadReq = .error (str "file path is required"))
    ∧ (∀ err, uploadReq.URL ≠ [] → uploadReq.FilePath ≠ [] →
        fs.Stat uploadReq.FilePath = .error err →
      validateUploadRequest quote fs uploadReq
        = .error (str "stat file " ++ quote uploadReq.FilePath ++ str ": " ++ err))
    ∧ (∀ info, uploadReq.URL ≠ [] → uploadReq.FilePath ≠ [] →
        fs.Stat uploadReq.FilePath = .ok info → info.IsDir = true →
      validateUploadRequest quote fs uploadReq
        = .error (str "file path " ++ quote uploadReq.FilePath
            ++ str " points to a directory"))
    ∧ (∀ info, uploadReq.URL ≠ [] → uploadReq.FilePath ≠ [] →
        fs.Stat uploadReq.FilePath = .ok info → info.IsDir = false →
      validateUploadRequest quote fs uploadReq
        = .ok (uploadReq.URL,
            { path := uploadReq.FilePath
              name := if uploadReq.FileName = [] then filepathBase uploadReq.FilePath
                else uploadReq.FileName }))
    ∧ ((∃ err, validateUploadRequest quote fs uploadReq = .error err)
        ↔ (uploadReq.URL = [] ∨ uploadReq.FilePath = []
            ∨ (∃ err, fs.Stat uploadReq.FilePath = .error err)
            ∨ ∃ info, fs.Stat uploadReq.FilePath = .ok info ∧ info.IsDir = true)) := by
  refine ⟨?_, ?_, ?_, ?_, ?_, ?_⟩
  · intro h; simp [validateUploadRequest, h]
  · intro h1 h2; simp [validateUploadRequest, h1, h2]
  · intro err h1 h2 h3; simp [validateUploadRequest, h1, h2, h3]
  · intro info h1 h2 h3 h4; simp [validateUploadRequest, h1, h2, h3, h4]
  · intro info h1 h2 h3 h4; simp [validateUploadRequest, h1, h2, h3, h4]
  · by_cases h1 : uploadReq.URL = []
    · simp [validateUploadRequest, h1]
    · by_cases h2 : uploadReq.FilePath = []
      · simp [validateUploadRequest, h1, h2]
      · cases h3 : fs.Stat uploadReq.FilePath with
        | error err => simp [validateUploadRequest, h1, h2, h3]
        | ok info =>
          cases h4 : info.IsDir <;> simp [validateUploadRequest, h1, h2, h3, h4]

/-- Instances of C12: a regular file without and with an override name, and a directory. -/
theorem validateUploadRequest_spec_witness :
    validateUploadRequest sampleEnv.quote
        { Stat := fun _ => .ok { IsDir := false }, Open := fun _ => .error [] }
        { URL := str "http://h/upload", FilePath := str "/tmp/dir/payload.bin", FileName := [] }
      = .ok (str "http://h/upload",
          { path := str "/tmp/dir/payload.bin", name := str "payload.bin" })
    ∧ validateUploadRequest sampleEnv.quote
        { Stat := fun _ => .ok { IsDir := false }, Open := fun _ => .error [] }
        { URL := str "http://h/upload", FilePath := str "/tmp/dir/payload.bin",
          FileName := str "x" }
      = .ok (str "http://h/upload", { path := str "/tmp/dir/payload.bin", name := str "x" })
    ∧ validateUploadRequest sampleEnv.quote
        { Stat := fun _ => .ok { IsDir := true }, Open := fun _ => .error [] }
        { URL := str "http://h/upload", FilePath := str "/tmp/dir", FileName := [] }
      = .error (str "file path \"/tmp/dir\" points to a directory") :=
  ⟨((validateUploadRequest_spec sampleEnv.quote
        { Stat := fun _ => .ok { IsDir := false }, Open := fun _ => .error [] }
        { URL := str "http://h/upload", FilePath := str "/tmp/dir/payload.bin",
          FileName := [] }).2.2.2.2.1 { IsDir := false } (by decide) (by decide) rfl rfl).trans
      rfl,
   ((validateUploadRequest_spec sampleEnv.quote
        { Stat := fun _ => .ok { IsDir := false }, Open := fun _ => .error [] }
        { URL := str "http://h/upload", FilePath := str "/tmp/dir/payload.bin",
          FileName := str "x" }).2.2.2.2.1 { IsDir := false } (by decide) (by decide) rfl
        rfl).trans rfl,
   ((validateUploadRequest_spec sampleEnv.quote
        { Stat := fun _ => .ok { IsDir := true }, Open := fun _ => .error [] }
        { URL := str "http://h/upload", FilePath := str "/tmp/dir",
          FileName := [] }).2.2.2.1 { IsDir := true } (by decide) (by decide) rfl rfl).trans
      rfl⟩

/-! ## The bound on a request (C14) -/

/-- C14. `doRequest` returns the error of the context, and issues no request, when the
context is already done. Otherwise it issues one request, bounded by the deadline of the
context when it has one, whatever the configured timeout; else by the configured request
timeout when that is positive; else not bounded. Its result is the outcome of that call. -/
theorem doRequest_bound (c : Config) (httpClient : HttpClient) (ctx : Context) :
    (∀ err, ctx.Err .beforeDo = some err →
      doRequest c httpClient ctx = (none, .error err))
    ∧ (∀ t, ctx.Err .beforeDo = none → ctx.Deadline = some t →
      doRequest c httpClient ctx = (some (.deadline t), httpClient (.deadline t)))
    ∧ (ctx.Err .beforeDo = none → ctx.Deadline = none → 0 < c.RequestTimeout →
      doRequest c httpClient ctx
        = (some (.timeout c.RequestTimeout), httpClient (.timeout c.RequestTimeout)))
    ∧ (ctx.Err .beforeDo = none → ctx.Deadline = none → c.RequestTimeout ≤ 0 →
      doRequest c httpClient ctx = (some .unbounded, httpClient .unbounded)) := by
  refine ⟨?_, ?_, ?_, ?_⟩
  · intro err h; simp [doRequest, h]
  · intro t h1 h2; simp [doRequest, h1, h2]
  · intro h1 h2 h3; simp [doRequest, h1, h2, h3]
  · intro h1 h2 h3
    have : ¬ c.RequestTimeout > 0 := by omega
    simp [doRequest, h1, h2, this]

/-- Instances of C14, with a request timeout of 30 s configured: a context with a deadline
that is not done, a context without deadline, and a context that is already cancelled. -/
theorem doRequest_bound_witness :
    doRequest { ChunkSize := 256, FormFieldName := str "file", RequestTimeout := 30000000000 }
        (fun _ => .ok { StatusCode := 201, Body := [] })
        { Deadline := some 5, Err := fun _ => none }
      = (some (.deadline 5), .ok { StatusCode := 201, Body := [] })
    ∧ doRequest { ChunkSize := 256, FormFieldName := str "file", RequestTimeout := 30000000000 }
        (fun _ => .ok { StatusCode := 201, Body := [] }) Context.Background
      = (some (.timeout 30000000000), .ok { StatusCode := 201, Body := [] })
    ∧ doRequest { ChunkSize := 256, FormFieldName := str "file", RequestTimeout := 30000000000 }
        (fun _ => .ok { StatusCode := 201, Body := [] })
        { Deadline := some 5, Err := fun _ => some (str "context canceled") }
      = (none, .error (str "context canceled")) :=
  ⟨(doRequest_bound _ _ _).2.1 5 rfl rfl,
   (doRequest_bound _ _ _).2.2.1 rfl rfl (by decide),
   (doRequest_bound _ _ _).1 (str "context canceled") rfl⟩

/-! ## The multipart body of one file (C11) -/

/-- The function `escapeQuotes` leaves a name without backslash, double quote, carriage
return and line feed as it is. -/
theorem escapeQuotes_plain (s : GoString) (h : plainName s = true) : escapeQuotes s = s := by
  induction s with
  | nil => rfl
  | cons b rest ih =>
    simp only [plainName, List.all_cons, Bool.and_eq_true, decide_eq_true_eq] at h
    have hrest : escapeQuotes rest = rest := ih (by simpa [plainName] using h.2)
    simp only [escapeQuotes] at hrest ⊢
    simp only [List.map_cons, List.flatten_cons, hrest]
    rw [if_neg h.1.1, if_neg h.1.2.1, if_neg h.1.2.2.1, if_neg h.1.2.2.2]
    rfl

/-- On a wire that accepts every write, the copy writes every read that delivers bytes and
hashes the same bytes. -/
theorem copyChunks_accepting (reads : List GoString) :
    ∀ (mw : MultipartWriter) (hasher : Hasher),
      (∀ written p, mw.w.fail written p = none) →
      copyChunks reads mw hasher
        = ({ mw with w := { mw.w with
                written := mw.w.written ++ reads.filter (fun r => r ≠ []) } },
           ⟨hasher.written ++ reads.flatten⟩, none) := by
  induction reads with
  | nil => intro mw hasher _; simp [copyChunks]
  | cons chunk rest ih =>
    intro mw hasher hw
    by_cases hc : chunk = []
    · subst hc
      simp only [copyChunks, if_true, ih mw hasher hw]
      simp
    · have hwr : mw.WritePart chunk
          = .ok { mw with w := { mw.w with written := mw.w.written ++ [chunk] } } := by
        simp [MultipartWriter.WritePart, Wire.Write, hw]
      simp only [copyChunks, hc, if_false, hwr]
      rw [ih _ _ (by simpa using hw)]
      simp [Hasher.Write, hc, List.append_assoc]

/-- Reads that deliver nothing add nothing to the bytes read. -/
theorem flatten_filter_nonempty (reads : List GoString) :
    (reads.filter (fun r => r ≠ [])).flatten = reads.flatten := by
  induction reads with
  | nil => rfl
  | cons r rest ih =>
    by_cases hr : r = []
    · subst hr; simpa using ih
    · simp only [ne_eq, hr, not_false_eq_true, decide_True, List.filter_cons_of_pos,
        List.flatten_cons]
      rw [← ih]

/-- The write of `CreateFormFile` on a writer without part. -/
theorem createFormFile_writes (w : Wire) (boundary fieldname filename : GoString)
    (hw : ∀ written p, w.fail written p = none) :
    MultipartWriter.CreateFormFile { w := w, boundary := boundary, started := false }
        fieldname filename
      = .ok { w := { w with written := w.written ++
                [filePartHeader boundary (escapeQuotes fieldname) (escapeQuotes filename)] }
              boundary := boundary, started := true } := by
  have h1 : str "\r\nContent-Disposition: form-data; name=\""
      = str "\r\n" ++ (str "Content-Disposition" ++ (str ": " ++ str "form-data; name=\"")) := by
    decide
  have h2 : str "\"\r\nContent-Type: application/octet-stream\r\n\r\n"
      = str "\"" ++ (str "\r\n" ++ (str "Content-Type" ++ (str ": "
        ++ (str "application/octet-stream" ++ (str "\r\n" ++ str "\r\n"))))) := by
    decide
  simp only [MultipartWriter.CreateFormFile, MultipartWriter.CreatePart, Wire.Write, hw,
    filePartHeader, h1, h2, List.map_cons, List.map_nil, List.flatten_cons, List.flatten_nil,
    List.append_assoc, List.append_nil, Bool.false_eq_true, if_false]

/-- The two writes of `WriteField` for the checksum, after a first part. -/
theorem writeField_checksum_writes (w : Wire) (boundary value : GoString)
    (hw : ∀ written p, w.fail written p = none) :
    MultipartWriter.WriteField { w := w, boundary := boundary, started := true }
        ChecksumFieldSHA256 value
      = .ok { w := { w with written := w.written ++ [checksumPartHeader boundary, value] }
              boundary := boundary, started := true } := by
  have h1 : str "\r\nContent-Disposition: form-data; name=\"checksum_sha256\"\r\n\r\n"
      = str "\r\n" ++ (str "Content-Disposition" ++ (str ": " ++ (str "form-data; name=\""
        ++ (escapeQuotes ChecksumFieldSHA256 ++ (str "\"" ++ (str "\r\n" ++ str "\r\n")))))) := by
    decide
  simp only [MultipartWriter.WriteField, MultipartWriter.CreateFormField,
    MultipartWriter.CreatePart, MultipartWriter.WritePart, Wire.Write, hw,
    checksumPartHeader, h1, List.map_cons, List.map_nil, List.flatten_cons, List.flatten_nil,
    List.append_assoc, List.append_nil, if_true, List.cons_append, List.nil_append]

/-- C11, amended. With a chunk size above zero that `make` accepts, a valid boundary, a
wire that accepts every write and a file that opens, is read to the end and closes without
error, `writeMultipartBody` returns no error and has written, in this order and nothing
else: the header of one file part, which carries the configured field name and the name of
the upload as `escapeQuotes` renders them (unchanged when they hold no backslash, double
quote, carriage return or line feed); the reads of the file that deliver bytes, which
together are the content of the file; the header of one part `checksum_sha256`; the
lowercase hex SHA-256 of the content; the closing delimiter. Neither the chunk size nor the
way the file is cut into reads appears in the bytes written. -/
theorem writeMultipartBody_emits_file_then_checksum (c : Config) (rt : Runtime)
    (quote : GoString → GoString) (fs : FileSystem) (w : Wire) (boundary : GoString)
    (fileMeta : uploadFile) (file : OsFile) (buf : Nat)
    (hchunk : 0 < c.ChunkSize) (halloc : rt.makeBytes c.ChunkSize = some buf)
    (hb : validBoundary boundary = true) (hw : ∀ written p, w.fail written p = none)
    (hopen : fs.Open fileMeta.path = .ok file) (hread : file.readErr = none)
    (hclose : file.closeErr = none) :
    ∃ writes,
      writeMultipartBody c rt quote fs w boundary fileMeta = some (w.written ++ writes, none)
      ∧ writes
        = [filePartHeader boundary (escapeQuotes c.FormFieldName) (escapeQuotes fileMeta.name)]
          ++ file.reads.filter (fun r => r ≠ [])
          ++ [checksumPartHeader boundary, hexEncode (sha256 file.content),
              closingDelimiter boundary]
      ∧ writes.flatten
        = filePartHeader boundary (escapeQuotes c.FormFieldName) (escapeQuotes fileMeta.name)
          ++ file.content
          ++ checksumPartHeader boundary ++ hexEncode (sha256 file.content)
          ++ closingDelimiter boundary
      ∧ (plainName c.FormFieldName = true → escapeQuotes c.FormFieldName = c.FormFieldName)
      ∧ (plainName fileMeta.name = true → escapeQuotes fileMeta.name = fileMeta.name) := by
  have hlen : ¬ (boundary.length < 1 ∨ boundary.length > 70) := by
    simp only [validBoundary, decide_eq_true_eq] at hb
    omega
  have hset : (MultipartWriter.New w).SetBoundary boundary
      = .ok { w := w, boundary := boundary, started := false } := by
    unfold MultipartWriter.SetBoundary MultipartWriter.New
    rw [if_neg (by simp), if_neg hlen, if_neg (by simp [hb])]
  have hbuf : buf ≠ 0 := by
    unfold Runtime.makeBytes at halloc
    split_ifs at halloc
    simp only [Option.some.injEq] at halloc
    omega
  have hfile := createFormFile_writes w boundary c.FormFieldName fileMeta.name hw
  have hcopy := copyChunks_accepting file.reads
    { w := { w with written := w.written ++
        [filePartHeader boundary (escapeQuotes c.FormFieldName) (escapeQuotes fileMeta.name)] }
      boundary := boundary, started := true } Hasher.New (by simpa using hw)
  have hfield := writeField_checksum_writes
    { w with written := w.written ++
      [filePartHeader boundary (escapeQuotes c.FormFieldName) (escapeQuotes fileMeta.name)]
      ++ file.reads.filter (fun r => r ≠ []) }
    boundary (hexEncode (sha256 file.content)) (by simpa using hw)
  refine ⟨_, ?_, rfl, ?_, escapeQuotes_plain _, escapeQuotes_plain _⟩
  · simp only [writeMultipartBody, hset, halloc, hfile, hopen, ioCopyBuffer, hbuf, if_false,
      hcopy, hread, hclose]
    simp only [OsFile.content, Hasher.Sum, Hasher.New, List.nil_append, List.append_assoc,
      List.cons_append] at hfield ⊢
    simp only [hfield, MultipartWriter.Close, Wire.Write, hw, closingDelimiter,
      List.append_assoc, List.cons_append, List.nil_append]
  · simp only [List.flatten_append, List.flatten_cons, List.flatten_nil, List.append_nil,
      flatten_filter_nonempty, OsFile.content, List.append_assoc]

/-- C11, as stated, fails. With the chunk size `2 ^ 62`, which is above zero, on linux/amd64
the call `make([]byte, c.cfg.ChunkSize)` panics and `writeMultipartBody` emits nothing. With
the field name `a`, line feed, `b` configured, the file part is emitted under the name
`a%0Ab`. -/
theorem writeMultipartBody_huge_chunk_panics :
    (0 : Int) < 2 ^ 62
    ∧ writeMultipartBody (validUploaderConfig (2 ^ 62)) sampleRuntime sampleEnv.quote
        (sampleFileSystem [str "abcdef0123456789"]) sampleWire (str "b0undary")
        { path := str "/tmp/payload.bin", name := str "payload.bin" } = none
    ∧ (writeMultipartBody { validUploaderConfig 64 with FormFieldName := str "a\nb" }
        sampleRuntime sampleEnv.quote (sampleFileSystem [str "abcdef0123456789"]) sampleWire
        (str "b0undary") { path := str "/tmp/payload.bin", name := str "payload.bin" }).map
          (fun r => r.1.head?)
        = some (some (str ("--b0undary\r\n"
            ++ "Content-Disposition: form-data; name=\"a%0Ab\"; filename=\"payload.bin\"\r\n"
            ++ "Content-Type: application/octet-stream\r\n\r\n"))) := by
  decide!

/-- The witness of C11: the sample file written with a chunk size of 3, read in pieces of 3
bytes, and with a chunk size of 64, read in one piece: the same bytes are emitted. -/
theorem writeMultipartBody_emits_file_then_checksum_witness :
    (writeMultipartBody (validUploaderConfig 3) sampleRuntime sampleEnv.quote
        (sampleFileSystem [str "abc", str "def", str "012", str "345", str "678", str "9"])
        sampleWire (str "b0undary")
        { path := str "/tmp/payload.bin", name := str "payload.bin" }).map
          (fun r => (r.1.flatten, r.2)) = some (samplePayloadBody, none)
    ∧ (writeMultipartBody (validUploaderConfig 64) sampleRuntime sampleEnv.quote
        (sampleFileSystem [str "abcdef0123456789"]) sampleWire (str "b0undary")
        { path := str "/tmp/payload.bin", name := str "payload.bin" }).map
          (fun r => (r.1.flatten, r.2)) = some (samplePayloadBody, none) := by
  constructor
  · obtain ⟨writes, h1, _, h3, _, _⟩ := writeMultipartBody_emits_file_then_checksum
      (validUploaderConfig 3) sampleRuntime sampleEnv.quote
      (sampleFileSystem [str "abc", str "def", str "012", str "345", str "678", str "9"])
      sampleWire (str "b0undary") { path := str "/tmp/payload.bin", name := str "payload.bin" }
      { reads := [str "abc", str "def", str "012", str "345", str "678", str "9"]
        readErr := none, closeErr := none } 3
      (by decide) (by decide) (by decide) (fun _ _ => rfl) rfl rfl rfl
    rw [h1]
    simp only [Option.map_some', sampleWire, List.nil_append, h3]
    decide!
  · obtain ⟨writes, h1, _, h3, _, _⟩ := writeMultipartBody_emits_file_then_checksum
      (validUploaderConfig 64) sampleRuntime sampleEnv.quote
      (sampleFileSystem [str "abcdef0123456789"])
      sampleWire (str "b0undary") { path := str "/tmp/payload.bin", name := str "payload.bin" }
      { reads := [str "abcdef0123456789"], readErr := none, closeErr := none } 64
      (by decide) (by decide) (by decide) (fun _ _ => rfl) rfl rfl rfl
    rw [h1]
    simp only [Option.map_some', sampleWire, List.nil_append, h3]
    decide!

/-! ## The error of a failed transport call (C13) -/

/-- The two error prefixes of `UploadFileContext` differ. -/
theorem stream_prefix_ne_send (x y : GoString) :
    str "stream multipart body: " ++ x ≠ str "send request: " ++ y := by
  have h1 : str "stream multipart body: " = 115 :: 116 :: str "ream multipart body: " := by
    decide
  have h2 : str "send request: " = 115 :: 101 :: str "nd request: " := by decide
  rw [h1, h2]
  intro h
  simp only [List.cons_append, List.cons.injEq] at h
  exact absurd h.2.1 (by decide)

/-- C13. When the request is valid and the body writer returns `streamResult`: if the
transport call fails with `doErr`, whether a request was issued or not, no response is
returned and the error is: when the body writer has delivered an error `se` by then,
`send request: doErr (stream error: se)`, which names both causes; else, when the context
is done, `send request:` followed by the error of the context; else `send request: doErr`.
An error `stream multipart body: se`, the error of the body writer alone, is returned only
when the transport call succeeded and the body writer returned `se`. -/
theorem transport_failure_error (w : World) (c : Config) (ctx : Option Context)
    (uploadReq : UploadRequest) (url : GoString) (fileMeta : uploadFile)
    (written : List GoString) (streamResult : Option GoString)
    (hval : validateUploadRequest w.quote w.fs uploadReq = .ok (url, fileMeta))
    (hstream : writeMultipartBody c w.runtime w.quote w.fs w.wire w.boundary fileMeta
      = some (written, streamResult)) :
    (∀ call doErr,
      doRequest c (w.httpClient url) (ctx.getD Context.Background) = (call, .error doErr) →
      UploadFileContext w c ctx uploadReq = some (.error
        (match (if w.streamDelivered = true then streamResult else none) with
         | some se =>
           str "send request: " ++ doErr ++ str " (stream error: " ++ se ++ str ")"
         | none =>
           match (ctx.getD Context.Background).Err .afterDo with
           | some ctxErr => str "send request: " ++ ctxErr
           | none => str "send request: " ++ doErr)))
    ∧ (∀ se, UploadFileContext w c ctx uploadReq
          = some (.error (str "stream multipart body: " ++ se)) →
        streamResult = some se
        ∧ ∃ call resp,
          doRequest c (w.httpClient url) (ctx.getD Context.Background) = (call, .ok resp)) := by
  have hfail : ∀ call doErr,
      doRequest c (w.httpClient url) (ctx.getD Context.Background) = (call, .error doErr) →
      UploadFileContext w c ctx uploadReq = some (.error
        (match (if w.streamDelivered = true then streamResult else none) with
         | some se =>
           str "send request: " ++ doErr ++ str " (stream error: " ++ se ++ str ")"
         | none =>
           match (ctx.getD Context.Background).Err .afterDo with
           | some ctxErr => str "send request: " ++ ctxErr
           | none => str "send request: " ++ doErr)) := by
    intro call doErr hdo
    unfold UploadFileContext
    simp only [hval, hdo, hstream]
    cases (if w.streamDelivered = true then streamResult else none) with
    | some se => rfl
    | none => cases (ctx.getD Context.Background).Err .afterDo <;> rfl
  refine ⟨hfail, ?_⟩
  intro se heq
  rcases hdo : doRequest c (w.httpClient url) (ctx.getD Context.Background) with ⟨call, res⟩
  cases res with
  | error doErr =>
    rw [hfail call doErr hdo] at heq
    simp only [Option.some.injEq, Except.error.injEq] at heq
    exfalso
    split at heq
    · rw [List.append_assoc, List.append_assoc, List.append_assoc] at heq
      exact stream_prefix_ne_send _ _ heq.symm
    · split at heq
      · exact stream_prefix_ne_send _ _ heq.symm
      · exact stream_prefix_ne_send _ _ heq.symm
  | ok resp =>
    refine ⟨?_, call, resp, rfl⟩
    unfold UploadFileContext at heq
    simp only [hval, hdo, hstream] at heq
    cases streamResult with
    | none => simp at heq
    | some se1 =>
      simp only [Option.some.injEq, Except.error.injEq, List.append_cancel_left_eq] at heq
      rw [heq]

/-- The witness of C13, with a body writer that fails at `os.Open`: a context that is done
before the transport call and the error of the writer delivered; the error of the writer
not delivered and a context done after the call; neither. -/
theorem transport_failure_error_witness :
    UploadFileContext (sampleBrokenWorld true) (validUploaderConfig 64)
        (some { Deadline := none, Err := fun _ => some (str "context canceled") })
        sampleUploadRequest
      = some (.error (str ("send request: context canceled (stream error: "
          ++ "open file \"/tmp/payload.bin\": "
          ++ "open /tmp/payload.bin: no such file or directory)")))
    ∧ UploadFileContext (sampleBrokenWorld false) (validUploaderConfig 64)
        (some { Deadline := none
                Err := fun m => if m = .afterDo then some (str "context canceled") else none })
        sampleUploadRequest
      = some (.error (str "send request: context canceled"))
    ∧ UploadFileContext (sampleBrokenWorld false) (validUploaderConfig 64) none
        sampleUploadRequest
      = some (.error (str "send request: connection reset")) :=
  ⟨((transport_failure_error (sampleBrokenWorld true) (validUploaderConfig 64)
      (some { Deadline := none, Err := fun _ => some (str "context canceled") })
      sampleUploadRequest (str "http://inmemory/upload")
      { path := str "/tmp/payload.bin", name := str "payload.bin" }
      [str ("--b0undary\r\n"
        ++ "Content-Disposition: form-data; name=\"file\"; filename=\"payload.bin\"\r\n"
        ++ "Content-Type: application/octet-stream\r\n\r\n")]
      (some (str ("open file \"/tmp/payload.bin\": "
        ++ "open /tmp/payload.bin: no such file or directory")))
      rfl rfl).1 none (str "context canceled") rfl).trans rfl,
   ((transport_failure_error (sampleBrokenWorld false) (validUploaderConfig 64)
      (some { Deadline := none
              Err := fun m => if m = .afterDo then some (str "context canceled") else none })
      sampleUploadRequest (str "http://inmemory/upload")
      { path := str "/tmp/payload.bin", name := str "payload.bin" }
      [str ("--b0undary\r\n"
        ++ "Content-Disposition: form-data; name=\"file\"; filename=\"payload.bin\"\r\n"
        ++ "Content-Type: application/octet-stream\r\n\r\n")]
      (some (str ("open file \"/tmp/payload.bin\": "
        ++ "open /tmp/payload.bin: no such file or directory")))
      rfl rfl).1 (some (.timeout 30000000000)) (str "connection reset") rfl).trans rfl,
   ((transport_failure_error (sampleBrokenWorld false) (validUploaderConfig 64) none
      sampleUploadRequest (str "http://inmemory/upload")
      { path := str "/tmp/payload.bin", name := str "payload.bin" }
      [str ("--b0undary\r\n"
        ++ "Content-Disposition: form-data; name=\"file\"; filename=\"payload.bin\"\r\n"
        ++ "Content-Type: application/octet-stream\r\n\r\n")]
      (some (str ("open file \"/tmp/payload.bin\": "
        ++ "open /tmp/payload.bin: no such file or directory")))
      rfl rfl).1 (some (.timeout 30000000000)) (str "connection reset") rfl).trans rfl⟩

/-! ## The result slice of a batch (C15) -/

/-- One step of `Handle` keeps `ResultsInv`. -/
theorem resultsInv_step (quote : GoString → GoString) (cfg : AppConfig) (n : Nat)
    (past : List ClientEvent) (s s1 : HandleState) (e : ClientEvent)
    (hinv : ResultsInv n past s) (hstep : clientStep quote cfg s e = some s1) :
    ResultsInv n (past ++ [e]) s1 := by
  obtain ⟨hr, hp, hprov⟩ := hinv
  have hold : ∀ i r, s.responses[i]? = some (some r) → ClientEvent.uploaded i r ∈ past ++ [e] :=
    fun i r h => List.mem_append_left _ (hprov i r h)
  cases e with
  | acquire idx =>
    simp only [clientStep] at hstep
    split_ifs at hstep with hph
    split at hstep
    · simp at hstep
    · simp only [Option.some.injEq] at hstep
      subst hstep
      exact ⟨hr, by simp [hp], hold⟩
  | giveUp idx =>
    simp only [clientStep] at hstep
    split_ifs at hstep with hph
    simp only [Option.some.injEq] at hstep
    subst hstep
    exact ⟨hr, by simp [hp], hold⟩
  | uploaded idx resp =>
    simp only [clientStep] at hstep
    split_ifs at hstep with hph
    split at hstep
    · simp at hstep
    · simp only [Option.some.injEq] at hstep
      subst hstep
      refine ⟨by simp [hr], by simp [hp], ?_⟩
      intro i r hi
      by_cases h1 : idx = i
      · subst h1
        by_cases h2 : idx < s.responses.length
        · rw [List.getElem?_set_self h2] at hi
          simp only [Option.some.injEq] at hi
          subst hi
          simp
        · rw [List.getElem?_eq_none (by simp only [List.length_set]; omega)] at hi
          simp at hi
      · rw [List.getElem?_set_ne h1] at hi
        exact hold i r hi
  | failed idx err =>
    simp only [clientStep] at hstep
    split_ifs at hstep with hph
    split at hstep
    · simp at hstep
    · split at hstep
      · simp only [Option.some.injEq] at hstep
        subst hstep
        exact ⟨hr, by simp [hp], hold⟩
      · simp only [Option.some.injEq] at hstep
        subst hstep
        exact ⟨hr, by simp [hp], hold⟩
  | parentDone =>
    simp only [clientStep, Option.some.injEq] at hstep
    subst hstep
    exact ⟨hr, hp, hold⟩

/-- A run of `Handle` keeps `ResultsInv`. -/
theorem resultsInv_run (quote : GoString → GoString) (cfg : AppConfig) (n : Nat) :
    ∀ (events past : List ClientEvent) (s s1 : HandleState),
      ResultsInv n past s → clientRun quote cfg s events = some s1 →
      ResultsInv n (past ++ events) s1 := by
  intro events
  induction events with
  | nil =>
    intro past s s1 hinv hrun
    simp only [clientRun, Option.some.injEq] at hrun
    simpa [← hrun] using hinv
  | cons e es ih =>
    intro past s s1 hinv hrun
    simp only [clientRun] at hrun
    split at hrun
    · simp at hrun
    · next s2 hs2 =>
      have := ih (past ++ [e]) s2 s1 (resultsInv_step quote cfg n past s s2 e hinv hs2) hrun
      simpa using this

/-- A step of a goroutine that has not returned leaves the goroutines that returned alone. -/
theorem phase_set_other (l : List Phase) (idx i : Nat) (ph x : Phase)
    (hidx : l[idx]? = some ph) (hi : l[i]? = some Phase.returned) (hne : ph ≠ Phase.returned) :
    idx ≠ i ∧ (l.set idx x)[i]? = some Phase.returned := by
  have h1 : idx ≠ i := by
    intro h
    subst h
    rw [hidx] at hi
    simp only [Option.some.injEq] at hi
    exact hne hi
  exact ⟨h1, by rw [List.getElem?_set_ne h1]; exact hi⟩

/-- One step of `Handle` keeps `StoredInv`. -/
theorem storedInv_step (quote : GoString → GoString) (cfg : AppConfig) (n : Nat)
    (past : List ClientEvent) (s s1 : HandleState) (e : ClientEvent)
    (hres : ResultsInv n past s) (hinv : StoredInv past s)
    (hstep : clientStep quote cfg s e = some s1) : StoredInv (past ++ [e]) s1 := by
  obtain ⟨hr, hp, _⟩ := hres
  cases e with
  | acquire idx =>
    simp only [clientStep] at hstep
    split_ifs at hstep with hph
    split at hstep
    · simp at hstep
    · simp only [Option.some.injEq] at hstep
      subst hstep
      intro i r hmem
      simp only [List.mem_append, List.mem_singleton, reduceCtorEq, or_false] at hmem
      obtain ⟨h1, h2⟩ := hinv i r hmem
      exact ⟨h1, (phase_set_other _ idx i _ _ hph h2 (by decide)).2⟩
  | giveUp idx =>
    simp only [clientStep] at hstep
    split_ifs at hstep with hph
    simp only [Option.some.injEq] at hstep
    subst hstep
    intro i r hmem
    simp only [List.mem_append, List.mem_singleton, reduceCtorEq, or_false] at hmem
    obtain ⟨h1, h2⟩ := hinv i r hmem
    exact ⟨h1, (phase_set_other _ idx i _ _ hph.1 h2 (by decide)).2⟩
  | uploaded idx resp =>
    simp only [clientStep] at hstep
    split_ifs at hstep with hph
    split at hstep
    · simp at hstep
    · simp only [Option.some.injEq] at hstep
      subst hstep
      have hidx : idx < s.phases.length := (List.getElem?_eq_some_iff.mp hph).1
      intro i r hmem
      simp only [List.mem_append, List.mem_singleton, ClientEvent.uploaded.injEq] at hmem
      rcases hmem with hmem | ⟨hi, hrr⟩
      · obtain ⟨h1, h2⟩ := hinv i r hmem
        obtain ⟨hne, h3⟩ := phase_set_other _ idx i _ Phase.returned hph h2 (by decide)
        exact ⟨by simp only [List.getElem?_set_ne hne]; exact h1, h3⟩
      · subst hi hrr
        exact ⟨List.getElem?_set_self (by omega), List.getElem?_set_self hidx⟩
  | failed idx err =>
    simp only [clientStep] at hstep
    split_ifs at hstep with hph
    split at hstep
    · simp at hstep
    · split at hstep
      · simp only [Option.some.injEq] at hstep
        subst hstep
        intro i r hmem
        simp only [List.mem_append, List.mem_singleton, reduceCtorEq, or_false] at hmem
        obtain ⟨h1, h2⟩ := hinv i r hmem
        exact ⟨h1, (phase_set_other _ idx i _ _ hph h2 (by decide)).2⟩
      · simp only [Option.some.injEq] at hstep
        subst hstep
        intro i r hmem
        simp only [List.mem_append, List.mem_singleton, reduceCtorEq, or_false] at hmem
        obtain ⟨h1, h2⟩ := hinv i r hmem
        exact ⟨h1, (phase_set_other _ idx i _ _ hph h2 (by decide)).2⟩
  | parentDone =>
    simp only [clientStep, Option.some.injEq] at hstep
    subst hstep
    intro i r hmem
    simp only [List.mem_append, List.mem_singleton, reduceCtorEq, or_false] at hmem
    exact hinv i r hmem

/-- A run of `Handle` keeps `StoredInv`. -/
theorem storedInv_run (quote : GoString → GoString) (cfg : AppConfig) (n : Nat) :
    ∀ (events past : List ClientEvent) (s s1 : HandleState),
      ResultsInv n past s → StoredInv past s → clientRun quote cfg s events = some s1 →
      StoredInv (past ++ events) s1 := by
  intro events
  induction events with
  | nil =>
    intro past s s1 _ hinv hrun
    simp only [clientRun, Option.some.injEq] at hrun
    simpa [← hrun] using hinv
  | cons e es ih =>
    intro past s s1 hres hinv hrun
    simp only [clientRun] at hrun
    split at hrun
    · simp at hrun
    · next s2 hs2 =>
      have := ih (past ++ [e]) s2 s1 (resultsInv_step quote cfg n past s s2 e hres hs2)
        (storedInv_step quote cfg n past s s2 e hres hinv hs2) hrun
      simpa using this

/-- One step of `Handle` other than a cancellation from outside keeps `OwnCancelInv`. -/
theorem ownCancelInv_step (quote : GoString → GoString) (cfg : AppConfig) (n : Nat)
    (past : List ClientEvent) (s s1 : HandleState) (e : ClientEvent)
    (hres : ResultsInv n past s) (hinv : OwnCancelInv s) (hne : e ≠ .parentDone)
    (hstep : clientStep quote cfg s e = some s1) : OwnCancelInv s1 := by
  obtain ⟨hr, hp, _⟩ := hres
  obtain ⟨hdone, hret⟩ := hinv
  have hset : ∀ (idx : Nat) (ph : Phase) (i : Nat), ph ≠ .returned →
      (s.phases.set idx ph)[i]? = some Phase.returned → s.phases[i]? = some Phase.returned := by
    intro idx ph i hph hi
    by_cases h1 : idx = i
    · subst h1
      by_cases h2 : idx < s.phases.length
      · rw [List.getElem?_set_self h2] at hi
        simp only [Option.some.injEq] at hi
        exact absurd hi hph
      · rw [List.getElem?_eq_none (by simp only [List.length_set]; omega)] at hi
        simp at hi
    · rwa [List.getElem?_set_ne h1] at hi
  cases e with
  | acquire idx =>
    simp only [clientStep] at hstep
    split_ifs at hstep with hph
    split at hstep
    · simp at hstep
    · simp only [Option.some.injEq] at hstep
      subst hstep
      exact ⟨hdone, fun i hi => hret i (hset idx .uploading i (by decide) hi)⟩
  | giveUp idx =>
    simp only [clientStep] at hstep
    split_ifs at hstep with hph
    simp only [Option.some.injEq] at hstep
    subst hstep
    exact ⟨hdone, fun i _ => Or.inr (hdone hph.2)⟩
  | uploaded idx resp =>
    simp only [clientStep] at hstep
    split_ifs at hstep with hph
    split at hstep
    · simp at hstep
    · simp only [Option.some.injEq] at hstep
      subst hstep
      refine ⟨hdone, ?_⟩
      intro i hi
      have hidx : idx < s.responses.length := by
        obtain ⟨h, _⟩ := List.getElem?_eq_some_iff.mp hph
        omega
      by_cases h1 : idx = i
      · subst h1
        exact Or.inl ⟨resp, List.getElem?_set_self hidx⟩
      · simp only [List.getElem?_set_ne h1] at hi ⊢
        exact hret i hi
  | failed idx err =>
    simp only [clientStep] at hstep
    split_ifs at hstep with hph
    split at hstep
    · simp at hstep
    · split at hstep
      · simp only [Option.some.injEq] at hstep
        subst hstep
        exact ⟨fun _ => by simp, fun i _ => Or.inr (by simp)⟩
      · next e0 he0 =>
        simp only [Option.some.injEq] at hstep
        subst hstep
        exact ⟨fun _ => by simp [he0], fun i _ => Or.inr (by simp [he0])⟩
  | parentDone => exact absurd rfl hne

/-- A run of `Handle` without cancellation from outside keeps `OwnCancelInv`. -/
theorem ownCancelInv_run (quote : GoString → GoString) (cfg : AppConfig) (n : Nat) :
    ∀ (events past : List ClientEvent) (s s1 : HandleState),
      ResultsInv n past s → OwnCancelInv s → ClientEvent.parentDone ∉ events →
      clientRun quote cfg s events = some s1 → OwnCancelInv s1 := by
  intro events
  induction events with
  | nil =>
    intro past s s1 _ hinv _ hrun
    simp only [clientRun, Option.some.injEq] at hrun
    exact hrun ▸ hinv
  | cons e es ih =>
    intro past s s1 hres hinv hno hrun
    simp only [clientRun] at hrun
    simp only [List.mem_cons, not_or] at hno
    split at hrun
    · simp at hrun
    · next s2 hs2 =>
      exact ih (past ++ [e]) s2 s1 (resultsInv_step quote cfg n past s s2 e hres hs2)
        (ownCancelInv_step quote cfg n past s s2 e hres hinv (fun h => hno.1 h.symm) hs2)
        hno.2 hrun

/-- A result slice without nil entry passes the loop of `Handle`. -/
theorem firstEmpty_none : ∀ (l : List (Option UploadResponse)) (i : Nat),
    (∀ j, j < l.length → ∃ r, l[j]? = some (some r)) → firstEmpty i l = none := by
  intro l
  induction l with
  | nil => intro i _; rfl
  | cons x rest ih =>
    intro i h
    obtain ⟨r, hr⟩ := h 0 (by simp)
    simp only [List.getElem?_cons_zero, Option.some.injEq] at hr
    subst hr
    simp only [firstEmpty]
    apply ih
    intro j hj
    have := h (j + 1) (by simp; omega)
    simpa using this

/-- C15, amended. After any run of the goroutines of `Handle`, for every context (already
cancelled or not, cancelled from outside during the run or not): the result slice has as
many entries as the batch has files, and entry `i` holds `r` exactly when the upload of file
`i` returned `r`, whatever the order of the steps. When the context is cancelled by `Handle`
only (it was not done at the start and is not cancelled from outside), all goroutines have
returned and no failure was recorded, every entry is non-nil and `Handle` returns nil: the
branch `empty response` is not taken. -/
theorem handle_results_in_order (quote : GoString → GoString) (cfg : AppConfig)
    (done : Bool) (events : List ClientEvent) (s : HandleState)
    (hrun : clientRun quote cfg (handleStart cfg done) events = some s) :
    s.responses.length = cfg.Files.length
    ∧ (∀ i r, s.responses[i]? = some (some r) ↔ ClientEvent.uploaded i r ∈ events)
    ∧ (done = false → ClientEvent.parentDone ∉ events → s.allReturned = true →
        s.firstErr = none →
        (∀ i, i < cfg.Files.length → ∃ r, s.responses[i]? = some (some r))
        ∧ handleReturn quote cfg s = none) := by
  have hstart : ResultsInv cfg.Files.length [] (handleStart cfg done) := by
    refine ⟨by simp [handleStart], by simp [handleStart], ?_⟩
    intro i r hi
    simp only [handleStart, List.getElem?_replicate] at hi
    split_ifs at hi
    simp at hi
  have hstored0 : StoredInv [] (handleStart cfg done) := by
    intro i r hmem
    simp at hmem
  have hres := resultsInv_run quote cfg _ events [] _ s hstart hrun
  have hsto := storedInv_run quote cfg _ events [] _ s hstart hstored0 hrun
  simp only [List.nil_append] at hres hsto
  refine ⟨hres.1, fun i r => ⟨hres.2.2 i r, fun h => (hsto i r h).1⟩, ?_⟩
  intro hd hno hall herr
  have hown0 : OwnCancelInv (handleStart cfg done) := by
    refine ⟨by simp [handleStart, hd], ?_⟩
    intro i hi
    simp only [handleStart, List.getElem?_replicate] at hi
    split_ifs at hi
    simp at hi
  have hown := ownCancelInv_run quote cfg _ events [] _ s hstart hown0 hno hrun
  have hall1 : ∀ i, i < cfg.Files.length → ∃ r, s.responses[i]? = some (some r) := by
    intro i hi
    have hlt : i < s.phases.length := by rw [hres.2.1]; exact hi
    have hph : s.phases[i]? = some Phase.returned := by
      rw [List.getElem?_eq_getElem hlt]
      have := List.all_eq_true.mp hall s.phases[i] (List.getElem_mem hlt)
      simpa using this
    rcases hown.2 i hph with h | h
    · exact h
    · exact absurd herr h
  refine ⟨hall1, ?_⟩
  simp only [handleReturn, herr]
  rw [firstEmpty_none s.responses 0 (by rw [hres.1]; exact hall1)]

/-- C15, counterexample. The context passed to `Handle` is cancelled from outside after the
upload of file 0 returned: goroutines 1 and 2 take the case `<-ctx.Done()` and return
without recording a failure. All goroutines have returned, no failure is recorded, entries 1
and 2 of the result slice are nil, and `Handle` returns the error `empty response`. -/
theorem handle_cancelled_context_leaves_nil_entries :
    clientRun sampleEnv.quote sampleAppConfig (handleStart sampleAppConfig false)
        [.acquire 0, .uploaded 0 { StatusCode := 201, Body := str "a" }, .parentDone,
         .giveUp 1, .giveUp 2] = some sampleCancelledState
    ∧ sampleCancelledState.allReturned = true
    ∧ sampleCancelledState.firstErr = none
    ∧ sampleCancelledState.responses[1]? = some none
    ∧ sampleCancelledState.responses.length = sampleAppConfig.Files.length
    ∧ handleReturn sampleEnv.quote sampleAppConfig sampleCancelledState
        = some (str "upload file \"b\": empty response") := by
  decide

/-- The theorem `handle_results_in_order` on the run `sampleBatchEvents`: the uploads return
in the order 2, 0, 1, the entries are in the order of the files, and `Handle` returns nil. -/
theorem handle_results_in_order_witness :
    clientRun sampleEnv.quote sampleAppConfig (handleStart sampleAppConfig false)
        sampleBatchEvents = some sampleFinishedState
    ∧ sampleFinishedState.responses.length = sampleAppConfig.Files.length
    ∧ (∀ i r, sampleFinishedState.responses[i]? = some (some r)
        ↔ ClientEvent.uploaded i r ∈ sampleBatchEvents)
    ∧ (∀ i, i < sampleAppConfig.Files.length →
        ∃ r, sampleFinishedState.responses[i]? = some (some r))
    ∧ handleReturn sampleEnv.quote sampleAppConfig sampleFinishedState = none :=
  have h := handle_results_in_order sampleEnv.quote sampleAppConfig false sampleBatchEvents
    sampleFinishedState (by decide)
  ⟨by decide, h.1, h.2.1, h.2.2 rfl (by decide) (by decide) (by decide)⟩
